import Mathlib

/-! # socks_server: the proxy session and the connection dispatcher

A shallow embedding of `proxy/include/proxy/proxy_server.hpp`.

Every coroutine of the source becomes a function from the script of its
environment (the bytes the client delivers, the outcome of each write, the
outcome of each external call) to the list of externally visible events it
performs, in order.  The runs described are those in which the abort flag
`m_abort` stays unset.
-/

namespace proxy

/-! ## Bytes and the wire codec -/

/-- One octet. -/
abbrev Byte := Fin 256

/-- Conversion `(uint8_t)x` of a C++ `int`. -/
def u8 (x : Int) : Byte := ⟨(x % 256).toNat, by omega⟩

/-- Modelled from the spec: `read<int8_t>` of `socks_io.hpp` (not in the sources), which
takes one octet from the buffer and yields it as a signed 8-bit value. -/
def read_int8 (b : Byte) : Int := if b.val < 128 then (b.val : Int) else (b.val : Int) - 256

/-- Modelled from the spec: `read<uint8_t>` of `socks_io.hpp` (not in the sources), which
takes one octet from the buffer and yields it as an unsigned value. -/
def read_uint8 (b : Byte) : Int := (b.val : Int)

/-- Modelled from the spec: `read<uint16_t>` of `socks_io.hpp` (not in the sources): the
spec fixes network order, so the first octet is the high one.  Missing octets read as 0. -/
def read_uint16 (bs : List Byte) : Nat := (bs.getD 0 0).val * 256 + (bs.getD 1 0).val

/-- Modelled from the spec: `read<uint32_t>` of `socks_io.hpp` (not in the sources), network
order. -/
def read_uint32 (bs : List Byte) : Nat :=
  (((bs.getD 0 0).val * 256 + (bs.getD 1 0).val) * 256 + (bs.getD 2 0).val) * 256 + (bs.getD 3 0).val

/-- Modelled from the spec: `write<uint16_t>` of `socks_io.hpp` (not in the sources), network
order. -/
def write_uint16 (v : Nat) : List Byte := [u8 (v / 256 : Nat), u8 (v : Nat)]

/-- Modelled from the spec: `write<uint32_t>` of `socks_io.hpp` (not in the sources), network
order. -/
def write_uint32 (v : Nat) : List Byte :=
  [u8 (v / 16777216 : Nat), u8 (v / 65536 : Nat), u8 (v / 256 : Nat), u8 (v : Nat)]

/-! ## Constants of `socks_enums.hpp` -/

/-- Modelled from the spec: `SOCKS_VERSION_4` of `socks_enums.hpp` (not in the sources). -/
def SOCKS_VERSION_4 : Int := 4
/-- Modelled from the spec: `SOCKS_VERSION_5` of `socks_enums.hpp` (not in the sources). -/
def SOCKS_VERSION_5 : Int := 5
/-- Modelled from the spec: `SOCKS5_AUTH_NONE` of `socks_enums.hpp` (not in the sources). -/
def SOCKS5_AUTH_NONE : Int := 0x00
/-- Modelled from the spec: `SOCKS5_AUTH` (username/password) of `socks_enums.hpp` (not in
the sources). -/
def SOCKS5_AUTH : Int := 0x02
/-- Modelled from the spec: `SOCKS5_AUTH_UNACCEPTABLE` of `socks_enums.hpp` (not in the
sources). -/
def SOCKS5_AUTH_UNACCEPTABLE : Int := 0xFF
/-- Modelled from the spec: `SOCKS_CMD_CONNECT` of `socks_enums.hpp` (not in the sources). -/
def SOCKS_CMD_CONNECT : Int := 0x01
/-- Modelled from the spec: `SOCKS5_CMD_UDP` of `socks_enums.hpp` (not in the sources). -/
def SOCKS5_CMD_UDP : Int := 0x03
/-- Modelled from the spec: `SOCKS5_ATYP_IPV4` of `socks_enums.hpp` (not in the sources). -/
def SOCKS5_ATYP_IPV4 : Int := 0x01
/-- Modelled from the spec: `SOCKS5_ATYP_DOMAINNAME` of `socks_enums.hpp` (not in the
sources). -/
def SOCKS5_ATYP_DOMAINNAME : Int := 0x03
/-- Modelled from the spec: `SOCKS5_ATYP_IPV6` of `socks_enums.hpp` (not in the sources). -/
def SOCKS5_ATYP_IPV6 : Int := 0x04
/-- Modelled from the spec: `SOCKS5_SUCCEEDED` of `socks_enums.hpp` (not in the sources). -/
def SOCKS5_SUCCEEDED : Int := 0x00
/-- Modelled from the spec: `SOCKS5_GENERAL_SOCKS_SERVER_FAILURE` of `socks_enums.hpp` (not
in the sources). -/
def SOCKS5_GENERAL_SOCKS_SERVER_FAILURE : Int := 0x01
/-- Modelled from the spec: `SOCKS5_NETWORK_UNREACHABLE` of `socks_enums.hpp` (not in the
sources). -/
def SOCKS5_NETWORK_UNREACHABLE : Int := 0x03
/-- Modelled from the spec: `SOCKS5_CONNECTION_REFUSED` of `socks_enums.hpp` (not in the
sources). -/
def SOCKS5_CONNECTION_REFUSED : Int := 0x05

/-! ## Data model -/

/-- The value a `boost::system::error_code` holds after an operation. -/
inductive ErrorCode
  | success
  | connection_refused
  | network_unreachable
  | other (code : Nat)
  deriving DecidableEq, Repr

/-- The test `if (ec)`. -/
def ErrorCode.failed : ErrorCode → Bool
  | .success => false
  | _ => true

/-- An `asio::ip::address`: IPv4 as its 32-bit value, IPv6 as its 16 octets. -/
inductive Address
  | v4 (a : Nat)
  | v6 (bs : List Byte)
  deriving DecidableEq, Repr

/-- A `tcp::endpoint`. -/
structure Endpoint where
  address : Address
  port : Nat
  deriving DecidableEq, Repr

/-- A default-constructed `tcp::endpoint`: the IPv4 address 0.0.0.0, port 0. -/
def Endpoint.default : Endpoint := { address := .v4 0, port := 0 }

/-- The `target_host` string handed to `start_connect_host`: either the text
`address.to_string()` of an address, or the octets of a name. -/
inductive Host
  | ip (a : Address)
  | name (bs : List Byte)
  deriving DecidableEq, Repr

/-- The fields of `proxy_server_option` read by the code embedded here. -/
structure proxy_server_option where
  auth_users_ : List (List Byte × List Byte) := []
  doc_directory_ : List Byte := []
  autoindex_ : Bool := false
  disable_http_ : Bool := false
  disable_socks_ : Bool := false
  disable_insecure_ : Bool := false
  scramble_ : Bool := false
  proxy_pass_use_ssl_ : Bool := false
  ssl_sni_ : List Byte := []

/-! ## HTTP: requests, responses and the pages -/

/-- The octets of a text of the source. -/
def ascii (s : String) : List Byte := s.toList.map (fun ch => u8 (ch.toNat : Nat))

/-- The names of the header fields the session looks at; any other field keeps its name. -/
inductive Field
  | host
  | connection
  | proxy_connection
  | proxy_authorization
  | other (name : List Byte)
  deriving DecidableEq, Repr

/-- A parsed `http::request<http::string_body>`: what Boost.Beast hands to the session. -/
structure Request where
  method : List Byte
  target : List Byte
  /-- The value of `version()`: 10 for HTTP/1.0, 11 for HTTP/1.1. -/
  version : Nat := 11
  fields : List (Field × List Byte) := []
  body : List Byte := []
  /-- The value of `keep_alive()`. -/
  keep_alive : Bool := false
  deriving DecidableEq, Repr

/-- The lookup `req[field]` of Boost.Beast: the value of the first such field, the empty
string when there is none. -/
def Request.get (req : Request) (f : Field) : List Byte :=
  match req.fields.find? (fun p => decide (p.1 = f)) with
  | some p => p.2
  | none => []

/-- The test `req.find(field) != req.end()`. -/
def Request.has (req : Request) (f : Field) : Bool :=
  req.fields.any (fun p => decide (p.1 = f))

/-- The call `req.erase(field)` of Boost.Beast: every such field is removed. -/
def Request.erase (req : Request) (f : Field) : Request :=
  { req with fields := req.fields.filter (fun p => decide (p.1 ≠ f)) }

/-- The call `req.set(field, value)` of Boost.Beast: every such field is removed and the
new value is appended. -/
def Request.set (req : Request) (f : Field) (v : List Byte) : Request :=
  { req with fields := req.fields.filter (fun p => decide (p.1 ≠ f)) ++ [(f, v)] }

/-- A `http::response` as the session builds or forwards it. -/
structure Response where
  status : Nat
  version : Nat
  reason : List Byte := []
  fields : List (Field × List Byte) := []
  body : List Byte := []
  deriving DecidableEq, Repr

/-- The result of `urls::parse_uri` (Boost.URL) as far as the session reads it. -/
structure Url where
  /-- The value of `urls::default_port(url.scheme_id())`. -/
  default_port : Nat := 0
  host : List Byte := []
  port_number : Nat := 0
  path : List Byte := []
  query : List Byte := []
  deriving DecidableEq, Repr

/-- The text `fake_400_content_fmt` with the date put in place of its `{}`. -/
def fake_400_content_fmt (date : List Byte) : List Byte :=
  ascii "HTTP/1.1 400 Bad Request\nServer: nginx/1.20.2\nDate: " ++ date ++
  ascii "\nContent-Type: text/html\nContent-Length: 165\nConnection: close\n\n<html>\n<head><title>400 Bad Request</title></head>\n<body bgcolor=\x22white\x22>\n<center><h1>400 Bad Request</h1></center>\n<hr><center>nginx/1.20.2</center>\n</body>\n</html>"

/-- The text `fake_407_content_fmt` with the date put in place of its `{}`. -/
def fake_407_content_fmt (date : List Byte) : List Byte :=
  ascii "HTTP/1.1 407 Proxy Authentication Required\nServer: nginx/1.20.2\nDate: " ++ date ++
  ascii "\nConnection: close\nProxy-Authenticate: Basic realm=\x22proxy\x22\nProxy-Connection: close\nContent-Length: 0\n\n"

/-! ## Events and the environment of one session -/

/-- What a session does that is visible outside of it, in the order it happens. -/
inductive Event
  /-- A read on the inbound stream completed without error and delivered these octets. -/
  | recv (bs : List Byte)
  /-- The session called `async_write` on the inbound stream with these octets. -/
  | send (bs : List Byte)
  /-- The call `start_connect_host(host, port, ec, resolve)`. -/
  | connect (host : Host) (port : Nat) (resolve : Bool)
  /-- The relay `transfer(local, remote) && transfer(remote, local)`. -/
  | relay
  /-- The call `resolver.async_resolve(domain, port)` of the UDP branch. -/
  | udp_resolve (domain : Host) (port : Nat)
  /-- The call `m_udp_socket.open(protocol)`; the flag tells `udp::v6()` from `udp::v4()`. -/
  | udp_open (v6 : Bool)
  /-- The call `m_udp_socket.bind(udp::endpoint(protocol, port))`. -/
  | udp_bind (port : Nat)
  /-- The two `co_spawn` calls that start `tick()` and `forward_udp()`. -/
  | udp_spawn
  /-- A `http::async_read` on the inbound stream completed and gave this request. -/
  | http_recv (req : Request)
  /-- The call `http::async_write(m_local_socket, res)`. -/
  | respond (res : Response)
  /-- The call `http::async_write(m_remote_socket, req)`. -/
  | upstream_send (req : Request)
  /-- A `http::async_read` on the outbound stream completed and gave this response. -/
  | upstream_recv (res : Response)
  /-- The call `normal_web_server(req, parser)`. -/
  | web_server (req : Request)
  /-- The call `forbidden_http_route(req)`. -/
  | forbidden (req : Request)
  deriving DecidableEq, Repr

/-- The inbound stream as one run of a session sees it. -/
structure Client where
  /-- The octets the client delivers before it closes its sending side. -/
  rx : List Byte
  /-- The outcome of each later `async_write` on the stream, in order (`true`: no error). -/
  wr : Nat → Bool := fun _ => true
  /-- The outcome of each later `http::async_read` on the stream, in order: the request
  parsed, or `none` for an error; when the list is used up the read fails. -/
  http : List (Option Request) := []

/-- The call `net::async_read(m_local_socket, m_local_buffer, transfer_exactly(n))` on an
emptied buffer: the `n` octets read, or `none` when the stream ends first. -/
def async_read (n : Nat) (c : Client) : Option (List Byte × Client) :=
  if n ≤ c.rx.length then some (c.rx.take n, { c with rx := c.rx.drop n }) else none

/-- The call `net::async_write(m_local_socket, ...)`: whether it succeeded. -/
def async_write (c : Client) : Bool × Client :=
  (c.wr 0, { c with wr := fun k => c.wr (k + 1) })

/-- The outcomes of the external calls a session makes. -/
structure Env where
  /-- The error code `start_connect_host(host, port, ec, resolve)` leaves in `ec` when the
  call returns. -/
  connect : Host → Nat → Bool → ErrorCode := fun _ _ _ => .success
  /-- The error code of `resolver.async_resolve(domain, port)` and its first target. -/
  resolve : Host → Nat → ErrorCode × Option Endpoint := fun _ _ => (.success, none)
  /-- The error code of `m_udp_socket.open`. -/
  udp_open : ErrorCode := .success
  /-- The error code of `m_udp_socket.bind`. -/
  udp_bind : ErrorCode := .success
  /-- The error code and the value of `m_udp_socket.local_endpoint(ec)`. -/
  udp_local : ErrorCode × Endpoint := (.success, Endpoint.default)
  /-- The value of `server_date_string()`. -/
  date : List Byte := []
  /-- The result of `urls::parse_uri(target)`; `none` when it has an error. -/
  parse_uri : List Byte → Option Url := fun _ => none
  /-- The value of `fs::is_directory(target_path(req), ec)`. -/
  is_directory : Request → Bool := fun _ => false
  /-- The outcome of each `http::async_write(m_remote_socket, req)`, in order. -/
  upstream_write : Nat → Bool := fun _ => true
  /-- The outcome of each `http::async_read(m_remote_socket, buf, resp)`, in order: the
  response, or `none` for an error. -/
  upstream_read : Nat → Option Response := fun _ => none
  /-- Whether `m_next_proxy` holds a URL. -/
  m_next_proxy : Bool := false
  /-- Whether `net::ip::address::from_string(text)` accepts a text that is not empty. -/
  is_address : List Byte → Bool := fun _ => false

/-- Whether the call `start_connect_host(host, port, ec, resolve)` leaves by an exception
instead of returning. Without a next proxy and without `resolve` the text of the host goes
through `net::ip::address::from_string(target_host)`, the overload without an error code,
which throws when the text is not an address; the text `address.to_string()` always is one
and the empty text never is. -/
def connect_throws (env : Env) (host : Host) (resolve : Bool) : Bool :=
  match host with
  | .ip _ => false
  | .name bs => !resolve && !env.m_next_proxy && (bs.isEmpty || !env.is_address bs)

/-! ## SOCKS5: `socks_auth` -/

/-- The loop `for (auto [user, pwd] : m_option.auth_users_)` of `socks_auth` and of
`http_proxy_authorization`, started with `verify_passed = v`. -/
def verify_user_passwd (uname passwd : List Byte) : List (List Byte × List Byte) → Bool → Bool
  | [], v => v
  | (user, pwd) :: rest, v =>
    if uname = user ∧ passwd = pwd then true else verify_user_passwd uname passwd rest v

/-- The coroutine `proxy_session::socks_auth`: its events, its return value and the
stream it leaves. -/
def socks_auth (opt : proxy_server_option) (c : Client) : List Event × Bool × Client :=
  match async_read 2 c with
  | none => ([], false, c)
  | some (b1, c1) =>
    let auth_version := read_int8 (b1.getD 0 0)
    if auth_version ≠ 1 then ([.recv b1], false, c1)
    else
      let name_length := read_uint8 (b1.getD 1 0)
      if name_length ≤ 0 ∨ name_length > 255 then ([.recv b1], false, c1)
      else
        let name_length := name_length + 1
        match async_read name_length.toNat c1 with
        | none => ([.recv b1], false, c1)
        | some (b2, c2) =>
          let bytes := b2.length
          let uname := b2.take (bytes - 1)
          let passwd_len := read_uint8 (b2.getD (bytes - 1) 0)
          if passwd_len ≤ 0 ∨ passwd_len > 255 then ([.recv b1, .recv b2], false, c2)
          else
            match async_read passwd_len.toNat c2 with
            | none => ([.recv b1, .recv b2], false, c2)
            | some (b3, c3) =>
              let passwd := b3
              let verify_passed :=
                verify_user_passwd uname passwd opt.auth_users_ opt.auth_users_.isEmpty
              let wbuf : List Byte := [u8 0x01, if verify_passed then u8 0x00 else u8 0x01]
              let (ok, c4) := async_write c3
              if !ok then ([.recv b1, .recv b2, .recv b3, .send wbuf], false, c4)
              else ([.recv b1, .recv b2, .recv b3, .send wbuf], verify_passed, c4)

/-! ## SOCKS5: `socks_connect_v5` -/

/-- The loop `while (bytes != 0)` of `socks_connect_v5` over the method octets read, with
`method` still `SOCKS5_AUTH_UNACCEPTABLE`: the value of `method` after the loop. -/
def select_method (auth_required : Bool) : List Byte → Int
  | [] => SOCKS5_AUTH_UNACCEPTABLE
  | b :: rest =>
    let m := read_int8 b
    if auth_required then
      if m = SOCKS5_AUTH then m else select_method auth_required rest
    else
      if m = SOCKS5_AUTH_NONE ∨ m = SOCKS5_AUTH then m else select_method auth_required rest

/-- The test `address().is_v4()`. -/
def Address.is_v4 : Address → Bool
  | .v4 _ => true
  | .v6 _ => false

/-- The `ATYP`, `BND.ADDR` and `BND.PORT` octets `socks_connect_v5` writes for an endpoint.
An `asio::ip::address` is always IPv4 or IPv6, so the two later branches of the source
(domain name, zeros) are never taken. -/
def write_endpoint (e : Endpoint) : List Byte :=
  match e.address with
  | .v4 a => [u8 SOCKS5_ATYP_IPV4] ++ write_uint32 a ++ write_uint16 e.port
  | .v6 bs => [u8 SOCKS5_ATYP_IPV6] ++ bs ++ write_uint16 e.port

/-- The block "连接成功或失败" of `socks_connect_v5`: the reply code chosen from `ec`. -/
def socks5_error_code (ec : ErrorCode) : Int :=
  if ec = .connection_refused then SOCKS5_CONNECTION_REFUSED
  else if ec = .network_unreachable then SOCKS5_NETWORK_UNREACHABLE
  else if ec.failed then SOCKS5_GENERAL_SOCKS_SERVER_FAILURE
  else SOCKS5_SUCCEEDED

/-- The end of `socks_connect_v5`, from the block "连接成功或失败" on: the reply is written
and, for a successful `CONNECT`, the relay is run. -/
def socks5_reply (command : Int) (dst_endpoint : Endpoint) (ec : ErrorCode) (c : Client) :
    List Event :=
  let error_code := socks5_error_code ec
  let wbuf : List Byte :=
    [u8 SOCKS_VERSION_5, u8 error_code, u8 0x00] ++ write_endpoint dst_endpoint
  let (ok, _) := async_write c
  if !ok then [.send wbuf]
  else if error_code ≠ SOCKS5_SUCCEEDED then [.send wbuf]
  else if command = SOCKS_CMD_CONNECT then [.send wbuf, .relay]
  else [.send wbuf]

/-- The branch `else if (command == SOCKS5_CMD_UDP) do { ... } while (0)` of
`socks_connect_v5`, followed by the rest of the coroutine when a `break` leaves it. -/
def socks5_udp (env : Env) (command atyp : Int) (domain : Host) (port : Nat)
    (dst_endpoint : Endpoint) (c : Client) : List Event :=
  let r := env.resolve domain port
  let resolving := decide (atyp = SOCKS5_ATYP_DOMAINNAME)
  let ev1 : List Event := if resolving then [.udp_resolve domain port] else []
  if resolving ∧ r.1.failed then ev1 ++ socks5_reply command dst_endpoint r.1 c
  else
    let dst_endpoint := if resolving then r.2.getD dst_endpoint else dst_endpoint
    let v6 := !dst_endpoint.address.is_v4
    if env.udp_open.failed then
      ev1 ++ [.udp_open v6] ++ socks5_reply command dst_endpoint env.udp_open c
    else if env.udp_bind.failed then
      ev1 ++ [.udp_open v6, .udp_bind dst_endpoint.port]
        ++ socks5_reply command dst_endpoint env.udp_bind c
    else if env.udp_local.1.failed then
      ev1 ++ [.udp_open v6, .udp_bind dst_endpoint.port, .udp_spawn]
        ++ socks5_reply command dst_endpoint env.udp_local.1 c
    else
      let wbuf : List Byte :=
        [u8 SOCKS_VERSION_5, u8 0, u8 0x00] ++ write_endpoint env.udp_local.2
      ev1 ++ [.udp_open v6, .udp_bind dst_endpoint.port, .udp_spawn, .send wbuf]

/-- The value `socks_connect_v5` gives `length`, the number of octets still to read after
the first five of a request: `b` is the fifth octet. -/
def socks5_addr_length (atyp : Int) (b : Byte) : Int :=
  if atyp = SOCKS5_ATYP_IPV4 then 5 -- 6 - 1
  else if atyp = SOCKS5_ATYP_DOMAINNAME then read_uint8 b + 2
  else if atyp = SOCKS5_ATYP_IPV6 then 17 -- 18 - 1
  else 0

/-- The values `socks_connect_v5` gives `dst_endpoint`, `domain` and `port` when it parses
the address of a request: `buf` is `m_local_buffer`, `bytes` the size of the last read. -/
def socks5_target (atyp : Int) (buf : List Byte) (bytes : Nat) : Endpoint × Host × Nat :=
  if atyp = SOCKS5_ATYP_IPV4 then
    let dst_endpoint : Endpoint :=
      { address := .v4 (read_uint32 buf), port := read_uint16 (buf.drop 4) }
    (dst_endpoint, .ip dst_endpoint.address, dst_endpoint.port)
  else if atyp = SOCKS5_ATYP_DOMAINNAME then
    (Endpoint.default, .name (buf.take (bytes - 2)), read_uint16 (buf.drop (bytes - 2)))
  else if atyp = SOCKS5_ATYP_IPV6 then
    let dst_endpoint : Endpoint :=
      { address := .v6 (buf.take 16), port := read_uint16 (buf.drop 16) }
    (dst_endpoint, .ip dst_endpoint.address, dst_endpoint.port)
  else (Endpoint.default, .name [], 0)

/-- The part of `socks_connect_v5` that follows the method negotiation: the request is
read and served. -/
def socks5_request (env : Env) (c : Client) : List Event :=
  match async_read 5 c with
  | none => []
  | some (b1, c1) =>
    let ver := read_int8 (b1.getD 0 0)
    if ver ≠ SOCKS_VERSION_5 then [.recv b1]
    else
      let command := read_int8 (b1.getD 1 0)
      let atyp := read_int8 (b1.getD 3 0)
      let length := socks5_addr_length atyp (b1.getD 4 0)
      -- `consume(4)`, and `consume(1)` more for a domain name
      let kept : List Byte := if atyp = SOCKS5_ATYP_DOMAINNAME then [] else b1.drop 4
      match async_read length.toNat c1 with
      | none => [.recv b1]
      | some (b2, c2) =>
        let target := socks5_target atyp (kept ++ b2) b2.length
        let dst_endpoint := target.1
        let domain := target.2.1
        let port := target.2.2
        if command = SOCKS_CMD_CONNECT then
          let resolve := decide (atyp = SOCKS5_ATYP_DOMAINNAME)
          -- an exception of `start_connect_host` ends the coroutine
          if connect_throws env domain resolve then
            [.recv b1, .recv b2, .connect domain port resolve]
          else
            [.recv b1, .recv b2, .connect domain port resolve]
              ++ socks5_reply command dst_endpoint (env.connect domain port resolve) c2
        else if command = SOCKS5_CMD_UDP then
          [.recv b1, .recv b2] ++ socks5_udp env command atyp domain port dst_endpoint c2
        else
          [.recv b1, .recv b2] ++ socks5_reply command dst_endpoint .success c2

/-- The part of `socks_connect_v5` that follows the read of the method octets `ms`:
method selection, its two-octet reply, the sub-negotiation, then the request. -/
def socks5_methods (opt : proxy_server_option) (env : Env) (socks_version : Int)
    (ms : List Byte) (c : Client) : List Event :=
  let auth_required := !opt.auth_users_.isEmpty
  let method := select_method auth_required ms
  let wbuf : List Byte :=
    if method = SOCKS5_AUTH_UNACCEPTABLE then [u8 socks_version, u8 SOCKS5_AUTH_UNACCEPTABLE]
    else [u8 socks_version, u8 method]
  let (ok, c1) := async_write c
  if !ok then [.send wbuf]
  else if method = SOCKS5_AUTH_UNACCEPTABLE then [.send wbuf]
  else if method = SOCKS5_AUTH then
    let (ev, ret, c2) := socks_auth opt c1
    if !ret then [.send wbuf] ++ ev
    else [.send wbuf] ++ ev ++ socks5_request env c2
  else [.send wbuf] ++ socks5_request env c1

/-- The coroutine `proxy_session::socks_connect_v5`; `buf` is `m_local_buffer` as
`start_proxy` left it (the two octets `VER`, `NMETHODS`). -/
def socks_connect_v5 (opt : proxy_server_option) (env : Env) (buf : List Byte) (c : Client) :
    List Event :=
  let socks_version := read_int8 (buf.getD 0 0)
  let nmethods := read_int8 (buf.getD 1 0)
  if nmethods ≤ 0 ∨ nmethods > 255 then []
  else
    match async_read nmethods.toNat c with
    | none => []
    | some (ms, c1) => [.recv ms] ++ socks5_methods opt env socks_version ms c1

/-! ## HTTP: `http_proxy_authorization` -/

/-- Modelled from the spec: the table of `beast::detail::base64::get_alphabet` (Boost.Beast,
not in the sources), the 64 characters `A-Z a-z 0-9 + /` of the base64 the spec names. -/
def base64_alphabet (v : Nat) : Byte :=
  if v < 26 then u8 (65 + v : Nat)
  else if v < 52 then u8 (97 + (v - 26) : Nat)
  else if v < 62 then u8 (48 + (v - 52) : Nat)
  else if v = 62 then 43
  else 47

/-- Modelled from the spec: the table of `beast::detail::base64::get_inverse` (Boost.Beast,
not in the sources): the position of a character in the alphabet, `-1` for any other
octet. -/
def base64_inverse (c : Byte) : Int :=
  if 65 ≤ c.val ∧ c.val ≤ 90 then (c.val : Int) - 65
  else if 97 ≤ c.val ∧ c.val ≤ 122 then (c.val : Int) - 71
  else if 48 ≤ c.val ∧ c.val ≤ 57 then (c.val : Int) + 4
  else if c.val = 43 then 62
  else if c.val = 47 then 63
  else -1

/-- Modelled from the spec: the three octets `c3` that `beast::detail::base64::decode`
(Boost.Beast, not in the sources) computes from the four 6-bit values `c4`. -/
def base64_c3 (c4 : List Nat) : List Byte :=
  [u8 (((c4.getD 0 0 <<< 2) + ((c4.getD 1 0 &&& 0x30) >>> 4) : Nat) : Int),
   u8 ((((c4.getD 1 0 &&& 0xf) <<< 4) + ((c4.getD 2 0 &&& 0x3c) >>> 2) : Nat) : Int),
   u8 ((((c4.getD 2 0 &&& 0x3) <<< 6) + c4.getD 3 0 : Nat) : Int)]

/-- Modelled from the spec: the end of `beast::detail::base64::decode` (Boost.Beast, not in
the sources): an incomplete group of `i` characters gives `i - 1` octets. -/
def base64_decode_tail (c4 : List Nat) (i : Nat) : List Byte :=
  if i ≠ 0 then (base64_c3 c4).take (i - 1) else []

/-- Modelled from the spec: the loop of `beast::detail::base64::decode` (Boost.Beast, not in
the sources) with its state `c4`, `i`: it stops at `=` or at an octet outside the
alphabet and emits three octets for every four characters. -/
def base64_decode_loop : List Byte → List Nat → Nat → List Byte
  | [], c4, i => base64_decode_tail c4 i
  | c :: rest, c4, i =>
    if c = 61 then base64_decode_tail c4 i
    else
      let v := base64_inverse c
      if v = -1 then base64_decode_tail c4 i
      else
        let c4 := c4.set i v.toNat
        if i + 1 = 4 then base64_c3 c4 ++ base64_decode_loop rest c4 0
        else base64_decode_loop rest c4 (i + 1)

/-- Modelled from the spec: `beast::detail::base64::decode` (Boost.Beast, not in the
sources), the "base64 decode for HTTP Basic" of the spec: the octets decoded. -/
def base64_decode (src : List Byte) : List Byte := base64_decode_loop src [0, 0, 0, 0] 0

/-- Modelled from the spec: `beast::detail::base64::decoded_size` (Boost.Beast, not in the
sources). -/
def base64_decoded_size (n : Nat) : Nat := n / 4 * 3

/-- Modelled from the spec: the `base64(user:pass)` a client puts in a `Basic` header:
RFC 4648 base64 with `=` padding (`beast::detail::base64::encode`, not in the sources). -/
def base64_encode : List Byte → List Byte
  | a :: b :: c :: rest =>
    [base64_alphabet ((a.val &&& 0xfc) >>> 2),
     base64_alphabet (((a.val &&& 0x03) <<< 4) + ((b.val &&& 0xf0) >>> 4)),
     base64_alphabet (((c.val &&& 0xc0) >>> 6) + ((b.val &&& 0x0f) <<< 2)),
     base64_alphabet (c.val &&& 0x3f)] ++ base64_encode rest
  | [a, b] =>
    [base64_alphabet ((a.val &&& 0xfc) >>> 2),
     base64_alphabet (((a.val &&& 0x03) <<< 4) + ((b.val &&& 0xf0) >>> 4)),
     base64_alphabet ((b.val &&& 0x0f) <<< 2),
     61]
  | [a] =>
    [base64_alphabet ((a.val &&& 0xfc) >>> 2),
     base64_alphabet ((a.val &&& 0x03) <<< 4),
     61, 61]
  | [] => []

/-- The call `std::string::find(ch)`: the index of the first `ch`, `none` for `npos`. -/
def string_find (ch : Byte) : List Byte → Option Nat
  | [] => none
  | c :: rest => if c = ch then some 0 else (string_find ch rest).map (· + 1)

/-- The enumerator `PROXY_AUTH_SUCCESS`. -/
def PROXY_AUTH_SUCCESS : Int := 0
/-- The enumerator `PROXY_AUTH_FAILED`. -/
def PROXY_AUTH_FAILED : Int := 1
/-- The enumerator `PROXY_AUTH_NONE`. -/
def PROXY_AUTH_NONE : Int := 2
/-- The enumerator `PROXY_AUTH_ILLEGAL`. -/
def PROXY_AUTH_ILLEGAL : Int := 3

/-- The text `Basic`. -/
def Basic : List Byte := [66, 97, 115, 105, 99]

/-- The string `userinfo` of `http_proxy_authorization` after `decode` and `resize(len)`:
it was created with `decoded_size(auth.size())` octets, and `resize` fills with 0 whatever
lies beyond them (which happens only when `auth` is not a multiple of four long). -/
def decode_userinfo (auth : List Byte) : List Byte :=
  let decoded := base64_decode auth
  let n := base64_decoded_size auth.length
  decoded.take n ++ List.replicate (decoded.length - n) 0

/-- The function `proxy_session::http_proxy_authorization`. -/
def http_proxy_authorization (opt : proxy_server_option) (pa : List Byte) : Int :=
  if opt.auth_users_.isEmpty then PROXY_AUTH_SUCCESS
  else if pa.isEmpty then PROXY_AUTH_NONE
  else
    match string_find 32 pa with
    | none => PROXY_AUTH_ILLEGAL
    | some pos =>
      let type := pa.take pos
      let auth := pa.drop (pos + 1)
      if type ≠ Basic then PROXY_AUTH_ILLEGAL
      else
        let userinfo := decode_userinfo auth
        -- `pos = userinfo.find(':')`; for `npos`, `substr(0, pos)` is the whole string and
        -- `pos + 1` wraps to 0, so `substr(pos + 1)` is the whole string too
        let uname := match string_find 58 userinfo with
          | some pos => userinfo.take pos
          | none => userinfo
        let passwd := match string_find 58 userinfo with
          | some pos => userinfo.drop (pos + 1)
          | none => userinfo
        let verify_passed :=
          verify_user_passwd uname passwd opt.auth_users_ opt.auth_users_.isEmpty
        if !verify_passed then PROXY_AUTH_FAILED else PROXY_AUTH_SUCCESS

/-! ## HTTP: `http_proxy_connect` and `http_proxy_get` -/

/-- The call `http::async_read(m_local_socket, m_local_buffer, ...)`: the request parsed,
or `none` for an error. -/
def http_async_read (c : Client) : Option (Request × Client) :=
  match c.http with
  | some req :: rest => some (req, { c with http := rest })
  | _ => none

/-- The digits read by `std::atol`. -/
def atol_digits : List Byte → Nat → Nat
  | [], acc => acc
  | ch :: rest, acc =>
    if 48 ≤ ch.val ∧ ch.val ≤ 57 then atol_digits rest (acc * 10 + (ch.val - 48)) else acc

/-- The C function `std::atol` on the octets of a string: white space, an optional sign,
then decimal digits. The result is a `long` of 64 bits: a number beyond its range is given
as `LONG_MAX` or `LONG_MIN`, as `strtol` gives it. -/
def atol (s : List Byte) : Int :=
  let s := s.dropWhile (fun ch => decide ((9 ≤ ch.val ∧ ch.val ≤ 13) ∨ ch.val = 32))
  let v : Int :=
    if s.head? = some 45 then - (atol_digits (s.drop 1) 0 : Int)
    else if s.head? = some 43 then (atol_digits (s.drop 1) 0 : Int)
    else (atol_digits s 0 : Int)
  if v > 9223372036854775807 then 9223372036854775807
  else if v < -9223372036854775808 then -9223372036854775808
  else v

/-- The coroutine `proxy_session::http_proxy_connect`: its events and its return value. -/
def http_proxy_connect (opt : proxy_server_option) (env : Env) (c : Client) :
    List Event × Bool :=
  match http_async_read c with
  | none => ([], false)
  | some (req, c1) =>
    let target_view := req.target
    let pa := req.get .proxy_authorization
    let auth := http_proxy_authorization opt pa
    if auth ≠ PROXY_AUTH_SUCCESS then
      ([.http_recv req, .send (fake_407_content_fmt env.date)], true)
    else
      match string_find 58 target_view with
      | none => ([.http_recv req], false)
      | some pos =>
        let host := target_view.take pos
        let port := target_view.drop (pos + 1)
        let target_port := (atol port % 65536).toNat
        let ec := env.connect (.name host) target_port true
        if ec.failed then ([.http_recv req, .connect (.name host) target_port true], false)
        else
          let res : Response :=
            { status := 200, version := req.version,
              reason := ascii "Connection established" }
          let (ok, _) := async_write c1
          if !ok then
            ([.http_recv req, .connect (.name host) target_port true, .respond res], false)
          else
            ([.http_recv req, .connect (.name host) target_port true, .respond res, .relay],
              true)

/-- The request `http_proxy_get` writes upstream: the block "处理代理请求头". -/
def rewrite_request (req : Request) (url : Url) : Request :=
  let query : List Byte :=
    if url.query ≠ [] then
      if url.query.head? = some 63 then url.query else [63] ++ url.query
    else []
  let req : Request :=
    if url.path = [] then { req with target := [47] ++ query }
    else { req with target := url.path ++ query }
  let req := req.set .host url.host
  let req :=
    if !req.has .connection && req.has .proxy_connection then
      req.set .connection (req.get .proxy_connection)
    else req
  let req := req.erase .proxy_authorization
  req.erase .proxy_connection

/-- The loop `while (!m_abort)` of `http_proxy_get` over the outcomes `reqs` of its reads
of a request; `wr` are the outcomes of the writes to the client still to come,
`remote_open` is `m_remote_socket.is_open()` and `k` counts the exchanges already made
with the upstream. -/
def http_proxy_get_loop (opt : proxy_server_option) (env : Env) :
    List (Option Request) → (Nat → Bool) → Bool → Bool → Nat → List Event × Bool
  | [], _, first, _, _ => ([], !first)
  | none :: _, _, first, _, _ => ([], !first)
  | some req :: rest, wr, first, remote_open, k =>
    let target_view := req.target
    let pa := req.get .proxy_authorization
    let keep_alive := req.keep_alive
    let expect_url := env.parse_uri target_view
    let auth := http_proxy_authorization opt pa
    if auth ≠ PROXY_AUTH_SUCCESS ∨ expect_url.isNone then
      if expect_url.isSome then ([.http_recv req], !first)
      else if opt.doc_directory_.isEmpty then ([.http_recv req], !first)
      else if !opt.autoindex_ then
        if !env.is_directory req then ([.http_recv req, .web_server req], true)
        else ([.http_recv req, .forbidden req], true)
      else ([.http_recv req, .web_server req], true)
    else
      -- `expect_url.value()`
      let url := expect_url.getD {}
      let port := if url.port_number = 0 then url.default_port else url.port_number
      let port := if port ≠ 0 then port else 80
      let ev1 : List Event :=
        if !remote_open then [.http_recv req, .connect (.name url.host) port true]
        else [.http_recv req]
      if !remote_open ∧ (env.connect (.name url.host) port true).failed then (ev1, !first)
      else
        let req := rewrite_request req url
        if !env.upstream_write k then (ev1 ++ [.upstream_send req], !first)
        else
          match env.upstream_read k with
          | none => (ev1 ++ [.upstream_send req], !first)
          | some resp =>
            if !wr 0 then
              (ev1 ++ [.upstream_send req, .upstream_recv resp, .respond resp], !first)
            else if !keep_alive then
              (ev1 ++ [.upstream_send req, .upstream_recv resp, .respond resp], true)
            else
              let r := http_proxy_get_loop opt env rest (fun n => wr (n + 1)) false true (k + 1)
              (ev1 ++ [.upstream_send req, .upstream_recv resp, .respond resp] ++ r.1, r.2)

/-- The coroutine `proxy_session::http_proxy_get`: its events and its return value. -/
def http_proxy_get (opt : proxy_server_option) (env : Env) (c : Client) : List Event × Bool :=
  http_proxy_get_loop opt env c.http c.wr true false 0

/-! ## SOCKS4: `socks_connect_v4` -/

/-- Modelled from the spec: `SOCKS4_REQUEST_GRANTED` of `socks_enums.hpp` (not in the
sources). -/
def SOCKS4_REQUEST_GRANTED : Int := 90
/-- Modelled from the spec: `SOCKS4_REQUEST_REJECTED_OR_FAILED` of `socks_enums.hpp` (not in
the sources). -/
def SOCKS4_REQUEST_REJECTED_OR_FAILED : Int := 91
/-- Modelled from the spec: `SOCKS4_CANNOT_CONNECT_TARGET_SERVER` of `socks_enums.hpp` (not
in the sources); the spec names the codes 90, 91 and 93, this one is code 92 of the SOCKS4
protocol. -/
def SOCKS4_CANNOT_CONNECT_TARGET_SERVER : Int := 92
/-- Modelled from the spec: `SOCKS4_REQUEST_REJECTED_USER_NO_ALLOW` of `socks_enums.hpp`
(not in the sources). -/
def SOCKS4_REQUEST_REJECTED_USER_NO_ALLOW : Int := 93

/-- The call `net::async_read_until(m_local_socket, m_local_buffer, 0)` followed by the
removal of the string and of its terminator from the buffer: the octets before the first
zero octet, or `none` when the stream ends first. The client is taken to wait for the
reply before it sends anything more, so nothing is read beyond the terminator. -/
def async_read_until_null (c : Client) : Option (List Byte × Client) :=
  match string_find 0 c.rx with
  | none => none
  | some pos => some (c.rx.take pos, { c with rx := c.rx.drop (pos + 1) })

/-- The loop `for (auto [user, pwd] : m_option.auth_users_)` of `socks_connect_v4`, started
with `verify_passed = v`. -/
def verify_userid (userid : List Byte) : List (List Byte × List Byte) → Bool → Bool
  | [], v => v
  | (user, _) :: rest, v => if user = userid then true else verify_userid userid rest v

/-- The coroutine `proxy_session::socks_connect_v4`; `buf` is `m_local_buffer` as
`start_proxy` left it (the two octets `VN`, `CD`). -/
def socks_connect_v4 (opt : proxy_server_option) (env : Env) (buf : List Byte) (c : Client) :
    List Event :=
  let command := read_int8 (buf.getD 1 0)
  match async_read 6 c with
  | none => []
  | some (b1, c1) =>
    let port := read_uint16 b1
    let dst_endpoint : Endpoint := { address := .v4 (read_uint32 (b1.drop 2)), port := port }
    let tmp := (read_uint32 (b1.drop 2)) ^^^ 0x000000ff
    let socks4a := decide (0xff > tmp)
    match async_read_until_null c1 with
    | none => [.recv b1]
    | some (userid, c2) =>
      let r : Option (List Byte × Client) :=
        if socks4a then async_read_until_null c2 else some ([], c2)
      match r with
      | none => [.recv b1, .recv (userid ++ [0])]
      | some (hostname, c3) =>
        let ev : List Event :=
          if socks4a then [.recv b1, .recv (userid ++ [0]), .recv (hostname ++ [0])]
          else [.recv b1, .recv (userid ++ [0])]
        let verify_passed := verify_userid userid opt.auth_users_ opt.auth_users_.isEmpty
        if !verify_passed then
          let wbuf : List Byte :=
            [u8 0, u8 SOCKS4_REQUEST_REJECTED_USER_NO_ALLOW] ++ write_uint16 dst_endpoint.port
              ++ write_uint32 (read_uint32 (b1.drop 2))
          ev ++ [.send wbuf]
        else
          let host : Host := if socks4a then .name hostname else .ip dst_endpoint.address
          let ec : ErrorCode :=
            if command = SOCKS_CMD_CONNECT then env.connect host port socks4a else .success
          let error_code : Int :=
            if command = SOCKS_CMD_CONNECT then
              if ec.failed then SOCKS4_CANNOT_CONNECT_TARGET_SERVER else SOCKS4_REQUEST_GRANTED
            else SOCKS4_REQUEST_REJECTED_OR_FAILED
          let ev2 : List Event :=
            if command = SOCKS_CMD_CONNECT then ev ++ [.connect host port socks4a] else ev
          let wbuf : List Byte :=
            [u8 0, u8 error_code] ++ write_uint16 dst_endpoint.port
              ++ write_uint32 (read_uint32 (b1.drop 2))
          let (ok, _) := async_write c3
          if !ok then ev2 ++ [.send wbuf]
          else if error_code ≠ SOCKS4_REQUEST_GRANTED then ev2 ++ [.send wbuf]
          else ev2 ++ [.send wbuf, .relay]

/-! ## The session: `start_proxy` -/

/-- The coroutine `proxy_session::start_proxy`: everything one session does. -/
def start_proxy (opt : proxy_server_option) (env : Env) (c : Client) : List Event :=
  match async_read 2 c with
  | none => []
  | some (buf, c1) =>
    let socks_version := read_uint8 (buf.getD 0 0)
    if socks_version = SOCKS_VERSION_5 then
      if opt.disable_socks_ then [.recv buf]
      else [.recv buf] ++ socks_connect_v5 opt env buf c1
    else if socks_version = SOCKS_VERSION_4 then
      if opt.disable_socks_ then [.recv buf]
      else [.recv buf] ++ socks_connect_v4 opt env buf c1
    else if socks_version = 71 ∨ socks_version = 80 then
      -- 'G' or 'P'
      if opt.disable_http_ then [.recv buf]
      else
        let r := http_proxy_get opt env c1
        if !r.2 then [.recv buf] ++ r.1 ++ [.send (fake_400_content_fmt env.date)]
        else [.recv buf] ++ r.1
    else if socks_version = 67 then
      -- 'C'
      if opt.disable_http_ then [.recv buf]
      else
        let r := http_proxy_connect opt env c1
        if !r.2 then [.recv buf] ++ r.1 ++ [.send (fake_400_content_fmt env.date)]
        else [.recv buf] ++ r.1
    else [.recv buf]

/-! ## The dispatcher: `socket_detect` and `noise_process` -/

/-- The constant `nosie_injection_max_len`. -/
def nosie_injection_max_len : Int := 0x0fff

/-- What the dispatcher does with one accepted connection, in the order it happens. -/
inductive Dispatch
  /-- The call `ssl_socket.async_handshake(net::ssl::stream_base::server)`. -/
  | handshake
  /-- A `proxy_session` is made over the plain (`false`) or the TLS (`true`) stream, put in
  `m_clients` and started. -/
  | session (tls : Bool)
  /-- The call `net::async_write(socket, net::buffer(noise))` of `noise_process`. -/
  | noise_write (noise : List Byte)
  /-- The octets the receive loop of `noise_process` took from the socket. -/
  | noise_read (bs : List Byte)
  deriving DecidableEq, Repr

/-- An accepted connection as the dispatcher sees it. -/
structure Socket where
  /-- The octets the peer sends, in order, before it closes its sending side. -/
  rx : List Byte
  /-- Whether each later `socket.async_wait(wait_read)` completes with an error. -/
  wait_failed : Nat → Bool := fun _ => false
  /-- Whether each later `recv(fd, detect, 5, MSG_PEEK)` returns -1. -/
  peek_failed : Nat → Bool := fun _ => false
  /-- Whether the TLS server handshake completes without error. -/
  handshake_ok : Bool := true
  /-- The value of `generate_noise(nosie_injection_max_len, global_known_proto)`. -/
  noise : List Byte := []
  /-- Whether the write of the noise completes without error. -/
  noise_write_ok : Bool := true

/-- Conversion of a 64-bit value to `int`. -/
def to_int32 (x : Int) : Int := (x + 2147483648) % 4294967296 - 2147483648

/-- The receive loop `while (true)` of `noise_process`, one iteration per unit of `fuel`:
`rx` are the octets still to come, `taken` those read so far, the other arguments are the
variables of the source. The result tells whether the loop was left by `break`, with the
octets read and the octets left. -/
def noise_receive_loop : Nat → List Byte → List Byte → Nat → Int → Int → Nat → Byte → Byte →
    Bool × List Byte × List Byte
  | 0, rx, taken, _, _, _, _, _, _ => (false, taken, rx)
  | fuel + 1, rx, taken, len, noise_length, recv_length, cvalue, bufs0, bufs1 =>
    let fvalue := cvalue
    -- `net::buffer(bufs, recv_length)` is at most the two octets of `bufs`
    let n : Nat := if recv_length < 0 then 2 else min recv_length.toNat 2
    if rx.length < n then (false, taken, rx)
    else
      let bufs0 := if 1 ≤ n then rx.getD 0 bufs0 else bufs0
      let bufs1 := if 2 ≤ n then rx.getD 1 bufs1 else bufs1
      let taken := taken ++ rx.take n
      let rx := rx.drop n
      let cvalue : Nat := bufs1.val ||| (bufs0.val <<< 8)
      let len : Nat := (((len : Int) + recv_length) % 18446744073709551616).toNat
      if len = 1 then
        noise_receive_loop fuel rx taken len noise_length recv_length cvalue bufs0 bufs1
      else if (len : Int) ≥ nosie_injection_max_len then (false, taken, rx)
      else if noise_length ≠ -1 then
        let recv_length := to_int32 (noise_length - (len : Int))
        let recv_length := min recv_length 2
        if recv_length ≠ 0 then
          noise_receive_loop fuel rx taken len noise_length recv_length cvalue bufs0 bufs1
        else (true, taken, rx)
      else
        let noise_length : Int := ((fvalue &&& cvalue : Nat) : Int)
        if noise_length ≥ nosie_injection_max_len ∨ noise_length < 4 then
          noise_receive_loop fuel rx taken len (-1) recv_length cvalue bufs0 bufs1
        else
          noise_receive_loop fuel rx taken len noise_length recv_length cvalue bufs0 bufs1

/-- The body of `socket_detect`, with `noise_process` standing for the call
`noise_process(std::move(socket), connection_id)`. -/
def socket_detect_body (opt : proxy_server_option) (noise_process : Socket → List Dispatch)
    (noise : Bool) (s : Socket) : List Dispatch :=
  if s.wait_failed 0 then []
  else
    -- `uint8_t detect[5] = { 0 }` and the number of octets `recv` could peek at
    let ret : Int := if s.peek_failed 0 then -1 else ((s.rx.take 5).length : Int)
    let detect0 : Byte := s.rx.getD 0 0
    if ret ≤ 0 then []
    else if opt.disable_insecure_ ∧ detect0 ≠ 0x16 then []
    else if detect0 = 0x05 ∨ detect0 = 0x04 then
      if opt.disable_socks_ then [] else [.session false]
    else if detect0 = 0x16 then
      if !s.handshake_ok then [.handshake] else [.handshake, .session true]
    else if detect0 = 0x47 ∨ detect0 = 0x50 ∨ detect0 = 0x43 then
      if opt.disable_http_ then [] else [.session false]
    else if noise ∧ opt.scramble_ then
      noise_process
        { s with wait_failed := fun k => s.wait_failed (k + 1),
                 peek_failed := fun k => s.peek_failed (k + 1) }
    else []

/-- The body of `noise_process`, with `detect` standing for the call
`socket_detect(std::move(socket), connection_id, false)`. -/
def noise_process_body (detect : Socket → List Dispatch) (s : Socket) : List Dispatch :=
  if !s.noise_write_ok then [.noise_write s.noise]
  else
    let r := noise_receive_loop (s.rx.length + 1) s.rx [] 0 (-1) 2 0 0 0
    if !r.1 then [.noise_write s.noise, .noise_read r.2.1]
    else [.noise_write s.noise, .noise_read r.2.1] ++ detect { s with rx := r.2.2 }

/-- The coroutine `socket_detect(socket, connection_id, false)` as `noise_process` calls
it: with `noise` false the branch that calls `noise_process` is never taken. -/
def socket_redetect (opt : proxy_server_option) (s : Socket) : List Dispatch :=
  socket_detect_body opt (fun _ => []) false s

/-- The coroutine `proxy_server::noise_process`. -/
def noise_process (opt : proxy_server_option) (s : Socket) : List Dispatch :=
  noise_process_body (socket_redetect opt) s

/-- The coroutine `proxy_server::socket_detect`. -/
def socket_detect (opt : proxy_server_option) (noise : Bool) (s : Socket) : List Dispatch :=
  socket_detect_body opt (noise_process opt) noise s

/-! ## The relay: `transfer` -/

/-- What one direction `transfer(from, to)` of the relay does, in the order it happens. -/
inductive Transfer
  /-- The call `net::async_write(to, net::buffer(data, bytes))` with these octets. -/
  | write (bs : List Byte)
  /-- The call `to.shutdown(tcp_socket::shutdown_send, ec)`. -/
  | shutdown_send
  /-- The call `from.shutdown(tcp_socket::shutdown_receive, ec)`. -/
  | shutdown_receive
  deriving DecidableEq, Repr

/-- The coroutine `proxy_session::transfer`. `reads` are the results of the successive
`from.async_read_some` calls, each the octets delivered and whether `ec` is set; after the
last of them no read completes. `wr` are the outcomes of the successive `async_write`
calls that follow a successful read (`true`: no error). `abort` are the values of
`m_abort` seen in each round of the loop: at the loop condition (0), after the read (1)
and after the write (2). -/
def transfer : List (List Byte × Bool) → (Nat → Bool) → (Nat → Bool) → List Transfer
  | [], _, _ => []
  | (data, ec) :: rest, wr, abort =>
    if abort 0 then []
    else if ec ∨ abort 1 then
      (if data.length > 0 then [.write data] else []) ++ [.shutdown_send]
    else if !wr 0 ∨ abort 2 then [.write data, .shutdown_receive]
    else .write data :: transfer rest (fun k => wr (k + 1)) (fun k => abort (k + 3))

/-- The octets handed to `async_write` in a run of `transfer`, in order. -/
def Transfer.written : List Transfer → List Byte
  | [] => []
  | .write bs :: rest => bs ++ Transfer.written rest
  | _ :: rest => Transfer.written rest

/-- The constant `udp_session_expired_time`, in seconds. -/
def udp_session_expired_time : Int := 600

/-- A datagram `m_udp_socket.async_receive_from` delivers: its octets and the endpoint it
came from, which the call stores in `remote_endp`. -/
structure Datagram where
  data : List Byte
  sender : Endpoint
  deriving DecidableEq, Repr

/-- What `forward_udp` does that is visible outside of it, in the order it happens. -/
inductive Forward
  /-- The call `resolver.async_resolve(domain, std::to_string(port))`. -/
  | resolve (domain : List Byte) (port : Nat)
  /-- The call `m_udp_socket.async_send_to(net::buffer(p, size), target)` with these octets
  of `read_buffer`. -/
  | send_to (data : List Byte) (target : Endpoint)
  /-- The call `m_udp_socket.async_send_to(net::buffer(p, size), target)` where the `size`
  octets from index `index` do not lie within `read_buffer`. -/
  | send_outside (index size : Nat) (target : Endpoint)
  deriving DecidableEq, Repr

/-- The writes `write<...>(value, wp)` through a pointer at index `i` of the buffer. -/
def poke (buf : List Byte) (i : Nat) (bs : List Byte) : List Byte :=
  buf.take i ++ bs ++ buf.drop (i + bs.length)

/-- The call `m_udp_socket.async_send_to(net::buffer(&read_buffer[index], size), target)`;
`size` is a `size_t`. -/
def async_send_to (read_buffer : List Byte) (index : Nat) (size : Int) (target : Endpoint) :
    Forward :=
  let size : Nat := (size % 18446744073709551616).toNat
  if index + size ≤ 4096 then .send_to ((read_buffer.drop index).take size) target
  else .send_outside index size target

/-- The coroutine `proxy_session::forward_udp`, one iteration of `while (!m_abort)` per
entry of the script: `some d` is a datagram received, `none` a receive that fails; when the
script is used up no further datagram arrives. `read_buffer` holds the 4096 octets of the
array of this name, which the source does not initialise, `local_endp` is the variable of
this name, and `abort k` is the value of `m_abort` at the head of the `k`-th iteration. -/
def forward_udp (env : Env) (m_local_udp_address : Address) :
    List (Option Datagram) → List Byte → Endpoint → (Nat → Bool) → List Forward
  | [], _, _, _ => []
  | none :: _, _, _, _ => []
  | some d :: rest, read_buffer, local_endp, abort =>
    if abort 0 then []
    else
      -- `async_receive_from(net::buffer(read_buffer, 1500), remote_endp)`
      let bytes : Nat := (d.data.take 1500).length
      let read_buffer := d.data.take 1500 ++ read_buffer.drop bytes
      let remote_endp := d.sender
      let abort := fun k => abort (k + 1)
      -- `rbuf = &read_buffer[96]`, `wbuf = &read_buffer[86]`
      let rbuf : Nat := 96
      let wbuf : Nat := 86
      if remote_endp.address = m_local_udp_address then
        let local_endp := remote_endp
        -- `read<uint16_t>(rp)`: rsv
        let rp := rbuf + 2
        let frag := read_uint8 (read_buffer.getD rp 0)
        let rp := rp + 1
        if frag ≠ 0 then forward_udp env m_local_udp_address rest read_buffer local_endp abort
        else
          let atyp := read_uint8 (read_buffer.getD rp 0)
          let rp := rp + 1
          if atyp = SOCKS5_ATYP_IPV4 then
            let remote_endp : Endpoint :=
              { address := .v4 (read_uint32 (read_buffer.drop rp)),
                port := read_uint16 (read_buffer.drop (rp + 4)) }
            let rp := rp + 6
            async_send_to read_buffer rp ((bytes : Int) - ((rp : Int) - rbuf)) remote_endp ::
              forward_udp env m_local_udp_address rest read_buffer local_endp abort
          else if atyp = SOCKS5_ATYP_DOMAINNAME then
            let length := (read_uint8 (read_buffer.getD rp 0)).toNat
            let rp := rp + 1
            let domain := (read_buffer.drop rp).take length
            let rp := rp + length
            let port := read_uint16 (read_buffer.drop rp)
            let rp := rp + 2
            let r := env.resolve (.name domain) port
            if r.1.failed then [.resolve domain port]
            else
              let remote_endp := r.2.getD remote_endp
              .resolve domain port ::
                async_send_to read_buffer rp ((bytes : Int) - ((rp : Int) - rbuf)) remote_endp ::
                forward_udp env m_local_udp_address rest read_buffer local_endp abort
          else if atyp = SOCKS5_ATYP_IPV6 then
            let remote_endp : Endpoint :=
              { address := .v6 ((read_buffer.drop rp).take 16),
                port := read_uint16 (read_buffer.drop (rp + 16)) }
            let rp := rp + 18
            async_send_to read_buffer rp ((bytes : Int) - ((rp : Int) - rbuf)) remote_endp ::
              forward_udp env m_local_udp_address rest read_buffer local_endp abort
          else
            async_send_to read_buffer rp ((bytes : Int) - ((rp : Int) - rbuf)) remote_endp ::
              forward_udp env m_local_udp_address rest read_buffer local_endp abort
      else
        -- `wp = wbuf`, or `wbuf - 12` for an IPv6 source
        let wp : Nat := if !remote_endp.address.is_v4 then wbuf - 12 else wbuf
        let header : List Byte :=
          write_uint16 0x0 ++ [u8 0x0] ++
          (match remote_endp.address with
           | .v4 uaddr => [u8 SOCKS5_ATYP_IPV4] ++ write_uint32 uaddr ++ write_uint16 remote_endp.port
           | .v6 data => [u8 SOCKS5_ATYP_IPV6] ++ data ++ write_uint16 remote_endp.port)
        let read_buffer := poke read_buffer wp header
        let wp := wp + header.length
        -- `head_size = wp - wbuf`, `udp_size = bytes + head_size`
        let head_size : Int := (wp : Int) - wbuf
        async_send_to read_buffer wbuf ((bytes : Int) + head_size) local_endp ::
          forward_udp env m_local_udp_address rest read_buffer local_endp abort

/-- The variables `tick` and `forward_udp` share: the counter `m_timeout`, whether
`m_udp_socket` is open, and whether the loop of `tick` is still running. -/
structure UdpTimer where
  m_timeout : Int := udp_session_expired_time
  udp_open : Bool := true
  running : Bool := true
  deriving DecidableEq, Repr

/-- The two kinds of step that touch `m_timeout`. -/
inductive TimerStep
  /-- The statement `m_timeout = udp_session_expired_time` at the head of the loop of
  `forward_udp`. -/
  | loop_start
  /-- One iteration of the loop of `tick` whose one-second wait ended without error. -/
  | tick
  deriving DecidableEq, Repr

/-- One step on the shared variables. In `tick`: `if (--m_timeout <= 0)` closes the socket
and leaves the loop. -/
def UdpTimer.step (s : UdpTimer) : TimerStep → UdpTimer
  | .loop_start => { s with m_timeout := udp_session_expired_time }
  | .tick =>
    if !s.running then s
    else
      let t := to_int32 (s.m_timeout - 1)
      if t ≤ 0 then { m_timeout := t, udp_open := false, running := false }
      else { s with m_timeout := t }

/-- The steps of a list, in order. -/
def UdpTimer.run (s : UdpTimer) (steps : List TimerStep) : UdpTimer :=
  steps.foldl UdpTimer.step s

/-! ## The upstream connector: `start_noise` and `start_connect_host` -/

/-- Stands for `net::error::operation_aborted`. -/
def operation_aborted : ErrorCode := .other 125
/-- Stands for `net::error::eof`, the error of a read on a stream that has ended. -/
def eof : ErrorCode := .other 2
/-- Stands for the error of a write that fails. -/
def broken_pipe : ErrorCode := .other 32

/-- The statement that ends the receive loop of `start_noise`. -/
inductive NoiseExit
  /-- The statement `co_return net::error::operation_aborted`. -/
  | aborted
  /-- The statement `co_return error` after `noise read error`. -/
  | read_error
  /-- The statement `co_return error` after `noise max length reached`. -/
  | max_length
  /-- The statement `break` after `receive completed`. -/
  | completed
  /-- No statement: the iterations allowed were used up. -/
  | fuel
  deriving DecidableEq, Repr

/-- The receive loop `while (true)` of `start_noise`, one iteration per unit of `fuel`, and
the `co_return` that ends the coroutine: `abort k` is the value of `m_abort` at the head of
the `k`-th iteration, `rx` are the octets still to come, `taken` those read so far, the
other arguments are the variables of the source. The result names the statement that ended
the loop and gives the error code returned, the octets read and the octets left. -/
def start_noise_loop : Nat → (Nat → Bool) → List Byte → List Byte → Nat → Int → Int → Nat →
    Byte → Byte → NoiseExit × ErrorCode × List Byte × List Byte
  | 0, _, rx, taken, _, _, _, _, _, _ => (.fuel, .success, taken, rx)
  | fuel + 1, abort, rx, taken, len, noise_length, recv_length, cvalue, bufs0, bufs1 =>
    if abort 0 then (.aborted, operation_aborted, taken, rx)
    else
      let abort := fun k => abort (k + 1)
      let fvalue := cvalue
      -- `net::buffer(bufs, recv_length)` is at most the two octets of `bufs`
      let n : Nat := if recv_length < 0 then 2 else min recv_length.toNat 2
      if rx.length < n then (.read_error, eof, taken, rx)
      else
        -- the read left `error` clear
        let error : ErrorCode := .success
        let bufs0 := if 1 ≤ n then rx.getD 0 bufs0 else bufs0
        let bufs1 := if 2 ≤ n then rx.getD 1 bufs1 else bufs1
        let taken := taken ++ rx.take n
        let rx := rx.drop n
        let cvalue : Nat := bufs1.val ||| (bufs0.val <<< 8)
        let len : Nat := (((len : Int) + recv_length) % 18446744073709551616).toNat
        if len = 1 then
          start_noise_loop fuel abort rx taken len noise_length recv_length cvalue bufs0 bufs1
        else if (len : Int) ≥ nosie_injection_max_len then (.max_length, error, taken, rx)
        else if noise_length ≠ -1 then
          let recv_length := to_int32 (noise_length - (len : Int))
          let recv_length := min recv_length 2
          if recv_length ≠ 0 then
            start_noise_loop fuel abort rx taken len noise_length recv_length cvalue bufs0 bufs1
          else
            -- `break`, then `error = {}; co_return error`
            (.completed, .success, taken, rx)
        else
          let noise_length : Int := ((fvalue &&& cvalue : Nat) : Int)
          if noise_length ≥ nosie_injection_max_len ∨ noise_length < 4 then
            start_noise_loop fuel abort rx taken len (-1) recv_length cvalue bufs0 bufs1
          else
            start_noise_loop fuel abort rx taken len noise_length recv_length cvalue bufs0 bufs1

/-- The value of `opt.version` in a `socks_client_option`. -/
inductive SocksVersion
  /-- The value a `socks_client_option` is constructed with. -/
  | unchanged
  /-- The constant `socks4_version`. -/
  | socks4_version
  /-- The constant `socks4a_version`. -/
  | socks4a_version
  deriving DecidableEq, Repr

/-- What `start_connect_host` does that is visible outside of it, in the order it happens. -/
inductive Connect
  /-- The call `resolver.async_resolve(host, service)` for the next proxy. -/
  | resolve_proxy (host service : List Byte)
  /-- The call `resolver.async_resolve(target_host, std::to_string(target_port))`. -/
  | resolve (target_host : Host) (target_port : Nat)
  /-- The connect of `remote_socket` to the targets: `asio_util::async_connect`, or the loop
  over the targets. -/
  | connect
  /-- The call `net::async_write(socket, net::buffer(noise))` of `start_noise`. -/
  | noise_write (noise : List Byte)
  /-- The octets the receive loop of `start_noise` took from the socket. -/
  | noise_read (bs : List Byte)
  /-- The call `m_ssl_context.add_verify_path(m_option.ssl_cert_path_, ec)`. -/
  | add_verify_path
  /-- The call `ssl_socket.async_handshake(net::ssl::stream_base::client)`, with the SNI
  host name set before it. -/
  | tls_handshake (sni : List Byte)
  /-- The call `async_socks_handshake(m_remote_socket, opt)`. -/
  | socks_handshake (version : SocksVersion) (target_host : Host) (target_port : Nat)
      (username password : List Byte)
  /-- The call `async_http_proxy_handshake(m_remote_socket, opt)`. -/
  | http_handshake (target_host : Host) (target_port : Nat) (username password : List Byte)
  deriving DecidableEq, Repr

/-- The parts of the URL `m_next_proxy` the connector reads. -/
structure NextProxy where
  scheme : List Byte
  host : List Byte
  port : List Byte := []
  user : List Byte := []
  password : List Byte := []
  deriving DecidableEq, Repr

/-- The outcomes of the external calls `start_connect_host` makes. -/
structure Upstream where
  /-- The error code of `resolver.async_resolve`. -/
  resolve : ErrorCode := .success
  /-- The error code the connect of `remote_socket` leaves. -/
  connect : ErrorCode := .success
  /-- The upstream socket as `start_noise` sees it. -/
  socket : Socket := { rx := [] }
  /-- The value of `m_abort` at the head of each iteration of the loop of `start_noise`. -/
  abort : Nat → Bool := fun _ => false
  /-- The value of `fs::exists(m_option.ssl_cert_path_)`. -/
  cert_path_exists : Bool := false
  /-- The error code of `m_ssl_context.add_verify_path`. -/
  add_verify_path : ErrorCode := .success
  /-- The error code of the TLS client handshake. -/
  tls_handshake : ErrorCode := .success
  /-- The error code of `async_socks_handshake` or `async_http_proxy_handshake`. -/
  proxy_handshake : ErrorCode := .success

/-- The coroutine `proxy_session::start_noise`: its events, the error code it returns and
the octets of the peer it leaves unread. -/
def start_noise (s : Socket) (abort : Nat → Bool) : List Connect × ErrorCode × List Byte :=
  if !s.noise_write_ok then ([.noise_write s.noise], broken_pipe, s.rx)
  else
    let r := start_noise_loop (s.rx.length + 1) abort s.rx [] 0 (-1) 2 0 0 0
    ([.noise_write s.noise, .noise_read r.2.2.1], r.2.1, r.2.2.2)

/-- The lambda `instantiate_stream` of `start_connect_host`, which starts with `ec = {}`:
its events and the error code it leaves in `ec`. -/
def instantiate_stream (opt : proxy_server_option) (scheme proxy_host : List Byte)
    (up : Upstream) : List Connect × ErrorCode :=
  if opt.proxy_pass_use_ssl_ || decide (scheme = ascii "https") then
    let sni := if opt.ssl_sni_.isEmpty then proxy_host else opt.ssl_sni_
    ([.tls_handshake sni], up.tls_handshake)
  else ([], .success)

/-- The end of the branch `if (m_next_proxy)` of `start_connect_host`, from the test
`scheme.starts_with("socks")` on: its events, the value returned and the error code left in
`ec`, which is `ec` on entry. -/
def next_proxy_handshake (next : NextProxy) (up : Upstream) (target_host : Host)
    (target_port : Nat) (ec : ErrorCode) : List Connect × Bool × ErrorCode :=
  let scheme := next.scheme
  if (ascii "socks").isPrefixOf scheme then
    let version : SocksVersion :=
      if scheme = ascii "socks4" then .socks4_version
      else if scheme = ascii "socks4a" then .socks4a_version
      else .unchanged
    let ec := up.proxy_handshake
    ([.socks_handshake version target_host target_port next.user next.password],
      !ec.failed, ec)
  else if (ascii "http").isPrefixOf scheme then
    let ec := up.proxy_handshake
    ([.http_handshake target_host target_port next.user next.password], !ec.failed, ec)
  else ([], !ec.failed, ec)

/-- The coroutine `proxy_session::start_connect_host`: its events, its return value and the
error code it leaves in `ec`. The choice between `asio_util::async_connect` and the loop
over the targets, and the bind to `local_ip_`, are inside the one connect of `up`. -/
def start_connect_host (opt : proxy_server_option) (m_next_proxy : Option NextProxy)
    (up : Upstream) (target_host : Host) (target_port : Nat) (resolve : Bool) :
    List Connect × Bool × ErrorCode :=
  match m_next_proxy with
  | some next =>
    let proxy_host := next.host
    let proxy_port := if next.port.isEmpty then next.scheme else next.port
    if up.resolve.failed then ([.resolve_proxy proxy_host proxy_port], false, up.resolve)
    else if up.connect.failed then
      ([.resolve_proxy proxy_host proxy_port, .connect], false, up.connect)
    else
      -- `if (m_option.scramble_) ec = co_await start_noise(remote_socket)`
      let noise : List Connect × ErrorCode :=
        if opt.scramble_ then
          ((start_noise up.socket up.abort).1, (start_noise up.socket up.abort).2.1)
        else ([], .success)
      if noise.2.failed then
        ([.resolve_proxy proxy_host proxy_port, .connect] ++ noise.1, false, noise.2)
      else
        -- `if (m_option.proxy_pass_use_ssl_) if (fs::exists(m_option.ssl_cert_path_))`
        let verify : List Connect × ErrorCode :=
          if opt.proxy_pass_use_ssl_ && up.cert_path_exists then
            ([.add_verify_path], up.add_verify_path)
          else ([], .success)
        if verify.2.failed then
          ([.resolve_proxy proxy_host proxy_port, .connect] ++ noise.1 ++ verify.1, false,
            verify.2)
        else
          let stream := instantiate_stream opt next.scheme proxy_host up
          let handshake := next_proxy_handshake next up target_host target_port stream.2
          ([.resolve_proxy proxy_host proxy_port, .connect] ++ noise.1 ++ verify.1 ++ stream.1
            ++ handshake.1, handshake.2.1, handshake.2.2)
  | none =>
    let ev : List Connect := if resolve then [.resolve target_host target_port] else []
    if resolve ∧ up.resolve.failed then (ev, false, up.resolve)
    else if up.connect.failed then (ev ++ [.connect], false, up.connect)
    else (ev ++ [.connect], true, up.connect)

/-! ## The scrambled socket: `proxy_socket` -/

/-- Modelled from the spec: the class `proxy::scramble_stream` of `scramble.hpp` (not in the
sources). The spec gives it a key, a position in the key and a validity flag. -/
structure scramble_stream where
  key : List Byte := []
  pos : Nat := 0
  valid : Bool := false
  deriving DecidableEq, Repr

/-- Modelled from the spec: `scramble_stream::set_key` (not in the sources), which makes the
stream valid and sets the position to 0. -/
def scramble_stream.set_key (_ : scramble_stream) (key : List Byte) : scramble_stream :=
  { key := key, pos := 0, valid := true }

/-- Modelled from the spec: `scramble_stream::is_valid` (not in the sources). -/
def scramble_stream.is_valid (s : scramble_stream) : Bool := s.valid

/-- Modelled from the spec: `scramble_stream::scramble(data, size)` (not in the sources).
Each octet is XORed with the key octet at the position; when the position reaches the
length of the key the key is replaced by `hash_of_hash key` and the position is set to 0.
The result is the octets as they are left in the buffer and the stream afterwards. -/
def scramble_stream.scramble (hash_of_hash : List Byte → List Byte) :
    scramble_stream → List Byte → List Byte × scramble_stream
  | s, [] => ([], s)
  | s, b :: rest =>
    let out : Byte := b ^^^ s.key.getD s.pos 0
    let pos := s.pos + 1
    let s : scramble_stream :=
      if pos ≥ s.key.length then { s with key := hash_of_hash s.key, pos := 0 }
      else { s with pos := pos }
    let r := scramble_stream.scramble hash_of_hash s rest
    (out :: r.1, r.2)

/-- The members `scramble_` and `unscramble_` of a `proxy_socket`. -/
structure proxy_socket where
  scramble_ : scramble_stream := {}
  unscramble_ : scramble_stream := {}
  deriving DecidableEq, Repr

/-- The function `proxy_socket::set_scramble_key`. -/
def proxy_socket.set_scramble_key (s : proxy_socket) (key : List Byte) : proxy_socket :=
  { s with scramble_ := s.scramble_.set_key key }

/-- The function `proxy_socket::set_unscramble_key`. -/
def proxy_socket.set_unscramble_key (s : proxy_socket) (key : List Byte) : proxy_socket :=
  { s with unscramble_ := s.unscramble_.set_key key }

/-- The call `net::detail::buffer_sequence_adapter<...>::first(buffers)`: the first buffer
of the sequence that is not empty, an empty buffer when there is none. -/
def first_buffer (buffers : List (List Byte)) : List Byte :=
  (buffers.find? (fun b => !b.isEmpty)).getD []

/-- The buffers of a sequence after the first of them that is not empty has been
overwritten, where it lies, by `data`. -/
def overwrite_first (data : List Byte) : List (List Byte) → List (List Byte)
  | [] => []
  | b :: rest => if b.isEmpty then b :: overwrite_first data rest else data :: rest

/-- The function `proxy_socket::async_write_some` on the buffer sequence `buffers`: the
octets it hands to `net::async_write(next_layer_, buffers)`, which writes all of them, and
the socket afterwards. When the scramble stream is valid, `first(buffers)` is scrambled
where it lies; the other buffers of the sequence are not touched. -/
def proxy_socket.async_write_some (hash_of_hash : List Byte → List Byte) (s : proxy_socket)
    (buffers : List (List Byte)) : List Byte × proxy_socket :=
  if s.scramble_.is_valid then
    let buffer := first_buffer buffers
    let r := s.scramble_.scramble hash_of_hash buffer
    ((overwrite_first r.1 buffers).flatten, { s with scramble_ := r.2 })
  else (buffers.flatten, s)

/-- The function `proxy_socket::async_read_some` on a buffer sequence whose buffers have
the sizes `sizes`: `wire` are the `bytes` octets `next_layer_.async_read_some` put in them.
The result is the octets the handler finds and the socket afterwards. When the unscramble
stream is valid, `bytes` octets are unscrambled from the start of `first(buffers)`; when
that buffer is shorter than `bytes` the call runs over its end, and the result is `none`. -/
def proxy_socket.async_read_some (hash_of_hash : List Byte → List Byte) (s : proxy_socket)
    (sizes : List Nat) (wire : List Byte) : Option (List Byte × proxy_socket) :=
  if s.unscramble_.is_valid then
    let size := (sizes.find? (fun n => decide (n ≠ 0))).getD 0
    if wire.length ≤ size then
      let r := s.unscramble_.scramble hash_of_hash wire
      some (r.1, { s with unscramble_ := r.2 })
    else none
  else some (wire, s)

/-- The octets that reach the wire when the buffer sequences of `writes` are written one
after the other with `async_write_some`. -/
def proxy_socket.write_all (hash_of_hash : List Byte → List Byte) :
    proxy_socket → List (List (List Byte)) → List Byte
  | _, [] => []
  | s, w :: rest =>
    let r := s.async_write_some hash_of_hash w
    r.1 ++ proxy_socket.write_all hash_of_hash r.2 rest

/-- The octets the handlers find when the chunks of `reads` arrive one after the other
through `async_read_some`, each into buffers of the sizes given with it; `none` when one of
the calls runs over the end of its first buffer. -/
def proxy_socket.read_all (hash_of_hash : List Byte → List Byte) :
    proxy_socket → List (List Nat × List Byte) → Option (List Byte)
  | _, [] => some []
  | s, (sizes, w) :: rest =>
    match s.async_read_some hash_of_hash sizes w with
    | none => none
    | some r =>
      match proxy_socket.read_all hash_of_hash r.2 rest with
      | none => none
      | some tail => some (r.1 ++ tail)

/-! # Theorems -/

/-! ## Octets -/

theorem read_int8_eq_two (b : Byte) : read_int8 b = 2 ↔ b = 2 := by
  unfold read_int8
  rw [Fin.ext_iff]
  have h := b.isLt
  split <;> omega

theorem read_int8_eq_zero (b : Byte) : read_int8 b = 0 ↔ b = 0 := by
  unfold read_int8
  rw [Fin.ext_iff]
  have h := b.isLt
  split <;> omega

/-! ## SOCKS5 method selection -/

theorem select_method_required (ms : List Byte) :
    select_method true ms = if (2 : Byte) ∈ ms then 2 else 255 := by
  induction ms with
  | nil => simp [select_method, SOCKS5_AUTH_UNACCEPTABLE]
  | cons b rest ih =>
    simp only [select_method, SOCKS5_AUTH, if_true, List.mem_cons]
    by_cases hb : b = 2
    · subst hb
      simp [read_int8]
    · have h2 : ¬ read_int8 b = 2 := fun h => hb ((read_int8_eq_two b).1 h)
      have h3 : ¬ (2 : Byte) = b := fun h => hb h.symm
      simp [h2, h3, ih]

theorem select_method_anonymous (ms : List Byte) :
    select_method false ms =
      match ms.find? (fun b => decide (b = 0 ∨ b = 2)) with
      | some m => (m.val : Int)
      | none => 255 := by
  induction ms with
  | nil => simp [select_method, SOCKS5_AUTH_UNACCEPTABLE]
  | cons b rest ih =>
    simp only [select_method, SOCKS5_AUTH, SOCKS5_AUTH_NONE, List.find?_cons]
    by_cases hb : b = 0 ∨ b = 2
    · rcases hb with h | h <;> subst h <;> simp [read_int8]
    · have h1 : ¬ (read_int8 b = 0 ∨ read_int8 b = 2) := by
        rintro (h | h)
        · exact hb (Or.inl ((read_int8_eq_zero b).1 h))
        · exact hb (Or.inr ((read_int8_eq_two b).1 h))
      simp [hb, h1, ih]

theorem socks5_methods_head (opt : proxy_server_option) (env : Env) (ms : List Byte)
    (c : Client) :
    ∃ tail, socks5_methods opt env SOCKS_VERSION_5 ms c =
      .send [5, u8 (select_method (!opt.auth_users_.isEmpty) ms)] :: tail := by
  unfold socks5_methods
  simp only []
  have h5 : u8 SOCKS_VERSION_5 = 5 := by decide
  have hFF : ∀ m : Int, m = SOCKS5_AUTH_UNACCEPTABLE →
      [u8 SOCKS_VERSION_5, u8 SOCKS5_AUTH_UNACCEPTABLE] = [(5 : Byte), u8 m] := by
    intro m hm; subst hm; rw [h5]
  rcases hw : async_write c with ⟨ok, c1⟩
  cases ok <;> by_cases hm : select_method (!opt.auth_users_.isEmpty) ms = SOCKS5_AUTH_UNACCEPTABLE
  all_goals first
    | (simp only [if_pos hm]; simp [hFF _ hm])
    | (simp only [if_neg hm, h5]; simp
       try split
       all_goals try split
       all_goals simp)

theorem socks5_methods_unacceptable (opt : proxy_server_option) (env : Env) (ms : List Byte)
    (c : Client)
    (h : select_method (!opt.auth_users_.isEmpty) ms = SOCKS5_AUTH_UNACCEPTABLE) :
    socks5_methods opt env SOCKS_VERSION_5 ms c = [.send [5, 0xFF]] := by
  unfold socks5_methods
  simp only [h, if_true]
  have h5 : [u8 SOCKS_VERSION_5, u8 SOCKS5_AUTH_UNACCEPTABLE] = [(5 : Byte), 0xFF] := by decide
  rw [h5]
  rcases async_write c with ⟨ok, c1⟩
  cases ok <;> simp

/-- The method selection of SOCKS5, from the point where the method octets `ms` have been
read. With a non-empty user list the reply is `05 02` when `0x02` occurs in `ms`, and
otherwise the reply `05 FF` is all the session does (no request is read). With an empty
user list the reply is `05 m` for the first octet `m` of `ms` that is `0x00` or `0x02`, and
otherwise the reply `05 FF` is all the session does. -/
theorem socks5_method_selection (opt : proxy_server_option) (env : Env) (ms : List Byte)
    (c : Client) :
    (opt.auth_users_ ≠ [] →
      ((2 : Byte) ∈ ms →
        ∃ tail, socks5_methods opt env SOCKS_VERSION_5 ms c = .send [5, 2] :: tail) ∧
      ((2 : Byte) ∉ ms →
        socks5_methods opt env SOCKS_VERSION_5 ms c = [.send [5, 0xFF]])) ∧
    (opt.auth_users_ = [] →
      (∀ m, ms.find? (fun b => decide (b = 0 ∨ b = 2)) = some m →
        ∃ tail, socks5_methods opt env SOCKS_VERSION_5 ms c = .send [5, m] :: tail) ∧
      (ms.find? (fun b => decide (b = 0 ∨ b = 2)) = none →
        socks5_methods opt env SOCKS_VERSION_5 ms c = [.send [5, 0xFF]])) := by
  refine ⟨fun hu => ⟨fun h2 => ?_, fun h2 => ?_⟩, fun hu => ⟨fun m hm => ?_, fun hn => ?_⟩⟩
  · have hr : (!opt.auth_users_.isEmpty) = true := by
      cases hl : opt.auth_users_ with
      | nil => exact absurd hl hu
      | cons a l => rfl
    obtain ⟨tail, ht⟩ := socks5_methods_head opt env ms c
    rw [hr, select_method_required, if_pos h2] at ht
    exact ⟨tail, ht⟩
  · have hr : (!opt.auth_users_.isEmpty) = true := by
      cases hl : opt.auth_users_ with
      | nil => exact absurd hl hu
      | cons a l => rfl
    apply socks5_methods_unacceptable
    rw [hr, select_method_required, if_neg h2]
    rfl
  · have hr : (!opt.auth_users_.isEmpty) = false := by rw [hu]; rfl
    obtain ⟨tail, ht⟩ := socks5_methods_head opt env ms c
    rw [hr, select_method_anonymous, hm] at ht
    have hv : u8 (m.val : Int) = m := by
      apply Fin.ext
      have := m.isLt
      simp only [u8]
      omega
    simp only [hv] at ht
    exact ⟨tail, ht⟩
  · have hr : (!opt.auth_users_.isEmpty) = false := by rw [hu]; rfl
    apply socks5_methods_unacceptable
    rw [hr, select_method_anonymous, hn]
    rfl

/-- The method selection on the greetings `05 02 00 02` with and `05 01 00` without
accounts. -/
theorem socks5_method_selection_witness :
    (∃ tail, socks5_methods { auth_users_ := [([97], [98])] } {} SOCKS_VERSION_5 [0, 2]
        { rx := [] } = .send [5, 2] :: tail) ∧
    socks5_methods { auth_users_ := [([97], [98])] } {} SOCKS_VERSION_5 [0, 1]
        { rx := [] } = [.send [5, 0xFF]] ∧
    (∃ tail, socks5_methods {} {} SOCKS_VERSION_5 [1, 0, 2] { rx := [] } =
        .send [5, 0] :: tail) ∧
    socks5_methods {} {} SOCKS_VERSION_5 [1, 3] { rx := [] } = [.send [5, 0xFF]] :=
  ⟨((socks5_method_selection { auth_users_ := [([97], [98])] } {} [0, 2] { rx := [] }).1
      (by decide)).1 (by decide),
   ((socks5_method_selection { auth_users_ := [([97], [98])] } {} [0, 1] { rx := [] }).1
      (by decide)).2 (by decide),
   ((socks5_method_selection {} {} [1, 0, 2] { rx := [] }).2 rfl).1 0 (by decide),
   ((socks5_method_selection {} {} [1, 3] { rx := [] }).2 rfl).2 (by decide)⟩

theorem async_read_append (xs ys : List Byte) (wr : Nat → Bool) (n : Nat) (h : n = xs.length) :
    async_read n { rx := xs ++ ys, wr := wr } = some (xs, { rx := ys, wr := wr }) := by
  subst h
  simp [async_read]

theorem verify_user_passwd_eq (uname passwd : List Byte) (users : List (List Byte × List Byte))
    (v : Bool) :
    verify_user_passwd uname passwd users v = (decide ((uname, passwd) ∈ users) || v) := by
  induction users with
  | nil => simp [verify_user_passwd]
  | cons up rest ih =>
    obtain ⟨user, pwd⟩ := up
    simp only [verify_user_passwd, List.mem_cons, Prod.mk.injEq]
    by_cases h : uname = user ∧ passwd = pwd
    · simp [h]
    · simp only [if_neg h, ih]
      simp [h]

theorem socks_auth_message (opt : proxy_server_option) (ulen plen : Byte)
    (uname passwd rest : List Byte) (wr : Nat → Bool)
    (hu : uname.length = ulen.val) (hu1 : 1 ≤ ulen.val)
    (hp : passwd.length = plen.val) (hp1 : 1 ≤ plen.val) :
    socks_auth opt { rx := [1, ulen] ++ uname ++ [plen] ++ passwd ++ rest, wr := wr } =
      ([.recv [1, ulen], .recv (uname ++ [plen]), .recv passwd,
        .send [1, if verify_user_passwd uname passwd opt.auth_users_ opt.auth_users_.isEmpty
                  then 0 else 1]],
       wr 0 && verify_user_passwd uname passwd opt.auth_users_ opt.auth_users_.isEmpty,
       { rx := rest, wr := fun k => wr (k + 1) }) := by
  have hlu := ulen.isLt
  have hlp := plen.isLt
  have e1 : async_read 2 { rx := [1, ulen] ++ uname ++ [plen] ++ passwd ++ rest, wr := wr } =
      some ([1, ulen], { rx := (uname ++ [plen]) ++ (passwd ++ rest), wr := wr }) := by
    have := async_read_append [1, ulen] ((uname ++ [plen]) ++ (passwd ++ rest)) wr 2 rfl
    simpa using this
  have e2 : async_read (read_uint8 ulen + 1).toNat
      { rx := (uname ++ [plen]) ++ (passwd ++ rest), wr := wr } =
      some (uname ++ [plen], { rx := passwd ++ rest, wr := wr }) := by
    apply async_read_append
    simp [read_uint8, hu]
  have e3 : async_read (read_uint8 plen).toNat { rx := passwd ++ rest, wr := wr } =
      some (passwd, { rx := rest, wr := wr }) := by
    apply async_read_append
    simp [read_uint8, hp]
  have g1 : ¬ (read_uint8 ulen ≤ 0 ∨ read_uint8 ulen > 255) := by
    simp only [read_uint8]; omega
  have g2 : ¬ (read_uint8 plen ≤ 0 ∨ read_uint8 plen > 255) := by
    simp only [read_uint8]; omega
  unfold socks_auth
  rw [e1]
  simp only [List.getD_cons_zero, List.getD_cons_succ]
  have v1 : ¬ (read_int8 1 ≠ 1) := by decide
  rw [if_neg v1, if_neg g1]
  rw [e2]
  simp only [List.length_append, List.length_singleton, Nat.add_sub_cancel]
  have t1 : List.take uname.length (uname ++ [plen]) = uname := by simp
  have t2 : (uname ++ [plen]).getD uname.length 0 = plen := by simp [List.getD]
  rw [t1, t2, if_neg g2]
  rw [e3]
  simp only [async_write]
  have k0 : u8 0 = 0 := by decide
  have k1 : u8 1 = 1 := by decide
  cases hw : wr 0 <;> cases hv : verify_user_passwd uname passwd opt.auth_users_ opt.auth_users_.isEmpty <;> simp [k0, k1]
theorem verify_user_passwd_iff (uname passwd : List Byte)
    (users : List (List Byte × List Byte)) :
    verify_user_passwd uname passwd users users.isEmpty = true ↔
      (users = [] ∨ (uname, passwd) ∈ users) := by
  rw [verify_user_passwd_eq]
  cases users <;> simp

/-- C2: the username/password sub-negotiation, once method `0x02` has been selected and
with both replies delivered. For a message `01 ULEN UNAME PLEN PASSWD` with `ULEN >= 1` and
`PLEN >= 1`: if the user list is empty or holds the pair `(UNAME, PASSWD)` the session
writes `01 00` and goes on to read the request from the octets that follow; otherwise it
writes `01 01` and does nothing more. -/
theorem socks5_auth_subnegotiation (opt : proxy_server_option) (env : Env) (ms : List Byte)
    (ulen plen : Byte) (uname passwd rest : List Byte) (wr : Nat → Bool)
    (hsel : select_method (!opt.auth_users_.isEmpty) ms = SOCKS5_AUTH)
    (hu : uname.length = ulen.val) (hu1 : 1 ≤ ulen.val)
    (hp : passwd.length = plen.val) (hp1 : 1 ≤ plen.val)
    (hw0 : wr 0 = true) (hw1 : wr 1 = true) :
    ((opt.auth_users_ = [] ∨ (uname, passwd) ∈ opt.auth_users_) →
      socks5_methods opt env SOCKS_VERSION_5 ms
          { rx := [1, ulen] ++ uname ++ [plen] ++ passwd ++ rest, wr := wr } =
        [.send [5, 2], .recv [1, ulen], .recv (uname ++ [plen]), .recv passwd, .send [1, 0]]
          ++ socks5_request env { rx := rest, wr := fun k => wr (k + 2) }) ∧
    (¬ (opt.auth_users_ = [] ∨ (uname, passwd) ∈ opt.auth_users_) →
      socks5_methods opt env SOCKS_VERSION_5 ms
          { rx := [1, ulen] ++ uname ++ [plen] ++ passwd ++ rest, wr := wr } =
        [.send [5, 2], .recv [1, ulen], .recv (uname ++ [plen]), .recv passwd,
          .send [1, 1]]) := by
  have hne : ¬ (SOCKS5_AUTH = SOCKS5_AUTH_UNACCEPTABLE) := by decide
  have h52 : [u8 SOCKS_VERSION_5, u8 SOCKS5_AUTH] = [(5 : Byte), 2] := by decide
  have key := socks_auth_message opt ulen plen uname passwd rest (fun k => wr (k + 1)) hu hu1 hp hp1
  constructor
  · intro hm
    have hv := (verify_user_passwd_iff uname passwd opt.auth_users_).2 hm
    rw [hv] at key
    unfold socks5_methods
    simp only [hsel, if_neg hne, h52, async_write, hw0, if_true]
    rw [key]
    simp [hw1]
  · intro hm
    have hv : verify_user_passwd uname passwd opt.auth_users_ opt.auth_users_.isEmpty = false := by
      cases h : verify_user_passwd uname passwd opt.auth_users_ opt.auth_users_.isEmpty
      · rfl
      · exact absurd ((verify_user_passwd_iff uname passwd opt.auth_users_).1 h) hm
    rw [hv] at key
    unfold socks5_methods
    simp only [hsel, if_neg hne, h52, async_write, hw0, if_true]
    rw [key]
    simp

/-- Witness of C2: account `alice`/`s3cret`, the message `01 05 alice 06 s3cret`. -/
theorem socks5_auth_subnegotiation_witness :
    socks5_methods { auth_users_ := [([97, 108, 105, 99, 101], [115, 51, 99, 114, 101, 116])] }
        {} SOCKS_VERSION_5 [2]
        { rx := [1, 5] ++ [97, 108, 105, 99, 101] ++ [6] ++ [115, 51, 99, 114, 101, 116] ++ [],
          wr := fun _ => true } =
      [.send [5, 2], .recv [1, 5], .recv ([97, 108, 105, 99, 101] ++ [6]),
        .recv [115, 51, 99, 114, 101, 116], .send [1, 0]]
        ++ socks5_request {} { rx := [], wr := fun k => (fun _ => true) (k + 2) } :=
  (socks5_auth_subnegotiation
    { auth_users_ := [([97, 108, 105, 99, 101], [115, 51, 99, 114, 101, 116])] } {} [2] 5 6
    [97, 108, 105, 99, 101] [115, 51, 99, 114, 101, 116] [] (fun _ => true)
    (by decide) (by decide) (by decide) (by decide) (by decide) rfl rfl).1
    (Or.inr (by decide))

/-! ## SOCKS5: from `start_proxy` to the method selection -/

theorem socks_connect_v5_greeting (opt : proxy_server_option) (env : Env) (n : Byte)
    (ms rest : List Byte) (wr : Nat → Bool) (http : List (Option Request))
    (hn : 0 < read_int8 n) (hms : ms.length = n.val) :
    socks_connect_v5 opt env [5, n] { rx := ms ++ rest, wr := wr, http := http } =
      [.recv ms] ++ socks5_methods opt env SOCKS_VERSION_5 ms
        { rx := rest, wr := wr, http := http } := by
  have hlt := n.isLt
  have hv : read_int8 n = (n.val : Int) := by
    unfold read_int8 at hn ⊢
    split
    · rfl
    · rename_i h
      rw [if_neg h] at hn
      omega
  have hg : ¬ (read_int8 n ≤ 0 ∨ read_int8 n > 255) := by
    rw [hv]; omega
  have hr : async_read (read_int8 n).toNat { rx := ms ++ rest, wr := wr, http := http } =
      some (ms, { rx := rest, wr := wr, http := http }) := by
    rw [hv]
    simp [async_read, hms]
  unfold socks_connect_v5
  simp only [List.getD_cons_zero, List.getD_cons_succ]
  rw [if_neg hg, hr]
  rfl

theorem start_proxy_socks5 (opt : proxy_server_option) (env : Env) (n : Byte)
    (rest : List Byte) (wr : Nat → Bool) (http : List (Option Request))
    (hs : opt.disable_socks_ = false) :
    start_proxy opt env { rx := 5 :: n :: rest, wr := wr, http := http } =
      [.recv [5, n]] ++ socks_connect_v5 opt env [5, n] { rx := rest, wr := wr, http := http } := by
  have hr : async_read 2 { rx := 5 :: n :: rest, wr := wr, http := http } =
      some ([5, n], { rx := rest, wr := wr, http := http }) := by
    simp [async_read]
  have hv : read_uint8 (([5, n] : List Byte).getD 0 0) = SOCKS_VERSION_5 := rfl
  unfold start_proxy
  rw [hr]
  simp only [hv, if_true, hs]
  simp

/-! ## SOCKS5 `CONNECT` -/

theorem socks5_reply_connect (dst : Endpoint) (ec : ErrorCode) (c : Client) :
    socks5_reply SOCKS_CMD_CONNECT dst ec c =
      [.send ([5, (match ec with
                   | .success => (0 : Byte)
                   | .connection_refused => 5
                   | .network_unreachable => 3
                   | .other _ => 1), 0] ++ write_endpoint dst)]
        ++ (if ec = .success ∧ c.wr 0 = true then [.relay] else []) := by
  have h5 : u8 SOCKS_VERSION_5 = 5 := by decide
  have h0 : u8 0 = 0 := by decide
  unfold socks5_reply
  simp only [async_write, h5, h0]
  have e0 : u8 SOCKS5_SUCCEEDED = 0 := by decide
  have e1 : u8 SOCKS5_GENERAL_SOCKS_SERVER_FAILURE = 1 := by decide
  have e3 : u8 SOCKS5_NETWORK_UNREACHABLE = 3 := by decide
  have e5 : u8 SOCKS5_CONNECTION_REFUSED = 5 := by decide
  have n1 : ¬ SOCKS5_GENERAL_SOCKS_SERVER_FAILURE = SOCKS5_SUCCEEDED := by decide
  have n3 : ¬ SOCKS5_NETWORK_UNREACHABLE = SOCKS5_SUCCEEDED := by decide
  have n5 : ¬ SOCKS5_CONNECTION_REFUSED = SOCKS5_SUCCEEDED := by decide
  cases hw : c.wr 0 <;> cases ec <;>
    simp [socks5_error_code, ErrorCode.failed, e0, e1, e3, e5, n1, n3, n5]

/-- The other case of C3: a `CONNECT` with the unknown address type `09`, without a next
proxy. The connector is called with the empty host, port 0 and no resolve, and throws; the
session writes no reply. -/
theorem socks5_connect_unknown_atyp :
    start_proxy {} {} { rx := [5, 1, 0, 5, 1, 0, 9, 0] } =
      [.recv [5, 1], .recv [0], .send [5, 0], .recv [5, 1, 0, 9, 0], .recv [],
        .connect (.name []) 0 false] := by
  decide

theorem write_read_uint16 (p0 p1 : Byte) : write_uint16 (read_uint16 [p0, p1]) = [p0, p1] := by
  have h0 := p0.isLt
  have h1 := p1.isLt
  simp only [write_uint16, read_uint16, List.getD_cons_zero, List.getD_cons_succ, u8]
  congr 1
  · apply Fin.ext; simp only []; omega
  · congr 1; apply Fin.ext; simp only []; omega

theorem write_read_uint32 (a0 a1 a2 a3 : Byte) :
    write_uint32 (read_uint32 [a0, a1, a2, a3]) = [a0, a1, a2, a3] := by
  have h0 := a0.isLt
  have h1 := a1.isLt
  have h2 := a2.isLt
  have h3 := a3.isLt
  simp only [write_uint32, read_uint32, List.getD_cons_zero, List.getD_cons_succ, u8]
  congr 1
  · apply Fin.ext; simp only []; omega
  · congr 1
    · apply Fin.ext; simp only []; omega
    · congr 1
      · apply Fin.ext; simp only []; omega
      · congr 1; apply Fin.ext; simp only []; omega

theorem socks5_request_connect (env : Env) (b1 b2 rest : List Byte) (wr : Nat → Bool)
    (hb1 : b1.length = 5)
    (hver : read_int8 (b1.getD 0 0) = SOCKS_VERSION_5)
    (hcmd : read_int8 (b1.getD 1 0) = SOCKS_CMD_CONNECT)
    (hb2 : (socks5_addr_length (read_int8 (b1.getD 3 0)) (b1.getD 4 0)).toNat = b2.length)
    (target : Endpoint × Host × Nat)
    (ht : socks5_target (read_int8 (b1.getD 3 0))
      ((if read_int8 (b1.getD 3 0) = SOCKS5_ATYP_DOMAINNAME then [] else b1.drop 4) ++ b2)
      b2.length = target)
    (hth : connect_throws env target.2.1
      (decide (read_int8 (b1.getD 3 0) = SOCKS5_ATYP_DOMAINNAME)) = false) :
    socks5_request env { rx := b1 ++ (b2 ++ rest), wr := wr } =
      [.recv b1, .recv b2,
        .connect target.2.1 target.2.2 (decide (read_int8 (b1.getD 3 0) = SOCKS5_ATYP_DOMAINNAME))]
        ++ socks5_reply SOCKS_CMD_CONNECT target.1
          (env.connect target.2.1 target.2.2
            (decide (read_int8 (b1.getD 3 0) = SOCKS5_ATYP_DOMAINNAME)))
          { rx := rest, wr := wr } := by
  unfold socks5_request
  rw [async_read_append b1 (b2 ++ rest) wr 5 hb1.symm]
  simp only [hver, ne_eq, not_true_eq_false, if_false, hcmd, if_true]
  rw [async_read_append b2 rest wr _ hb2]
  simp only [ht, hth, Bool.false_eq_true, if_false]

/-- C4: the success reply of a SOCKS5 `CONNECT`. When the connector leaves no error the
session writes one reply and only then runs the relay. For `ATYP` IPv4 with address octets
`a` and port octets `p` the reply is the 10 octets `05 00 00 01 a p`; for IPv6 it is the 22
octets `05 00 00 04 a p`; for a domain name it is `05 00 00 01 00 00 00 00 00 00`. -/
theorem socks5_connect_success_reply (env : Env) (rsv : Byte) (rest : List Byte)
    (wr : Nat → Bool) :
    (∀ a p : List Byte, a.length = 4 → p.length = 2 →
      env.connect (.ip (.v4 (read_uint32 a))) (read_uint16 p) false = .success →
      socks5_request env { rx := [5, 1, rsv, 1] ++ a ++ p ++ rest, wr := wr } =
        [.recv ([5, 1, rsv, 1] ++ a.take 1), .recv (a.drop 1 ++ p),
          .connect (.ip (.v4 (read_uint32 a))) (read_uint16 p) false,
          .send ([5, 0, 0, 1] ++ a ++ p)] ++ (if wr 0 = true then [.relay] else [])) ∧
    (∀ a p : List Byte, a.length = 16 → p.length = 2 →
      env.connect (.ip (.v6 a)) (read_uint16 p) false = .success →
      socks5_request env { rx := [5, 1, rsv, 4] ++ a ++ p ++ rest, wr := wr } =
        [.recv ([5, 1, rsv, 4] ++ a.take 1), .recv (a.drop 1 ++ p),
          .connect (.ip (.v6 a)) (read_uint16 p) false,
          .send ([5, 0, 0, 4] ++ a ++ p)] ++ (if wr 0 = true then [.relay] else [])) ∧
    (∀ (len : Byte) (name p : List Byte), name.length = len.val → p.length = 2 →
      env.connect (.name name) (read_uint16 p) true = .success →
      socks5_request env { rx := [5, 1, rsv, 3, len] ++ name ++ p ++ rest, wr := wr } =
        [.recv [5, 1, rsv, 3, len], .recv (name ++ p),
          .connect (.name name) (read_uint16 p) true,
          .send [5, 0, 0, 1, 0, 0, 0, 0, 0, 0]] ++ (if wr 0 = true then [.relay] else [])) := by
  refine ⟨?_, ?_, ?_⟩
  · intro a p ha hp hc
    match a, ha, p, hp with
    | [a0, a1, a2, a3], _, [p0, p1], _ =>
      have key := socks5_request_connect env [5, 1, rsv, 1, a0] [a1, a2, a3, p0, p1] rest wr
        rfl rfl rfl rfl
        ({ address := .v4 (read_uint32 [a0, a1, a2, a3]), port := read_uint16 [p0, p1] },
          .ip (.v4 (read_uint32 [a0, a1, a2, a3])), read_uint16 [p0, p1]) rfl rfl
      simp only [] at key
      have hd : decide (read_int8 (([5, 1, rsv, 1, a0] : List Byte).getD 3 0) =
          SOCKS5_ATYP_DOMAINNAME) = false := rfl
      rw [hd, hc, socks5_reply_connect] at key
      simp only [List.cons_append, List.nil_append, List.append_assoc] at key ⊢
      rw [key]
      simp [write_endpoint, write_read_uint32, write_read_uint16]
      decide
  · intro a p ha hp hc
    match a, ha with
    | a0 :: a', ha' =>
      have hl : a'.length = 15 := by simpa using ha'
      have h16 : (a0 :: (a' ++ p)).take 16 = a0 :: a' := by
        simp [List.take_append_eq_append_take, hl]
      have hdrop : (a0 :: (a' ++ p)).drop 16 = p := by
        simp [List.drop_append_eq_append_drop, hl]
      have key := socks5_request_connect env [5, 1, rsv, 4, a0] (a' ++ p) rest wr
        rfl rfl rfl (by simp [hl, hp]; rfl)
        ({ address := .v6 (a0 :: a'), port := read_uint16 p },
          .ip (.v6 (a0 :: a')), read_uint16 p)
        (by
          have e4 : read_int8 (([5, 1, rsv, 4, a0] : List Byte).getD 3 0) = 4 := rfl
          rw [e4]
          simp only [socks5_target]
          have n1 : ¬ ((4 : Int) = SOCKS5_ATYP_IPV4) := by decide
          have n3 : ¬ ((4 : Int) = SOCKS5_ATYP_DOMAINNAME) := by decide
          have y4 : (4 : Int) = SOCKS5_ATYP_IPV6 := by decide
          simp only [if_neg n1, if_neg n3, if_pos y4]
          have hk : ([5, 1, rsv, 4, a0] : List Byte).drop 4 ++ (a' ++ p) = a0 :: (a' ++ p) := rfl
          rw [hk, h16, hdrop]) rfl
      simp only [] at key
      have hd : decide (read_int8 (([5, 1, rsv, 4, a0] : List Byte).getD 3 0) =
          SOCKS5_ATYP_DOMAINNAME) = false := rfl
      rw [hd, hc, socks5_reply_connect] at key
      simp only [List.cons_append, List.nil_append, List.append_assoc] at key ⊢
      rw [key]
      match p, hp with
      | [p0, p1], _ =>
        simp [write_endpoint, write_read_uint16]
        decide
  · intro len name p hn hp hc
    have hlen := len.isLt
    have htake : (name ++ p).take ((name ++ p).length - 2) = name := by
      simp [hp]
    have hdrop : (name ++ p).drop ((name ++ p).length - 2) = p := by
      simp [hp]
    have key := socks5_request_connect env [5, 1, rsv, 3, len] (name ++ p) rest wr
      rfl rfl rfl (by
        have e3 : read_int8 (([5, 1, rsv, 3, len] : List Byte).getD 3 0) = 3 := rfl
        rw [e3]
        simp [socks5_addr_length, SOCKS5_ATYP_IPV4, SOCKS5_ATYP_DOMAINNAME, read_uint8, hn, hp]
        omega)
      (Endpoint.default, .name name, read_uint16 p)
      (by
        have e3 : read_int8 (([5, 1, rsv, 3, len] : List Byte).getD 3 0) = 3 := rfl
        rw [e3]
        simp only [socks5_target]
        have n1 : ¬ ((3 : Int) = SOCKS5_ATYP_IPV4) := by decide
        have y3 : (3 : Int) = SOCKS5_ATYP_DOMAINNAME := by decide
        simp only [if_neg n1, if_pos y3, List.nil_append]
        rw [htake, hdrop]) rfl
    simp only [] at key
    have hd : decide (read_int8 (([5, 1, rsv, 3, len] : List Byte).getD 3 0) =
        SOCKS5_ATYP_DOMAINNAME) = true := rfl
    rw [hd, hc, socks5_reply_connect] at key
    simp only [List.cons_append, List.nil_append, List.append_assoc] at key ⊢
    rw [key]
    simp [write_endpoint, Endpoint.default]
    decide

/-- Witness of C4: the request `05 01 00 01 7F 00 00 01 00 50` with a successful connect
is answered `05 00 00 01 7F 00 00 01 00 50` and then relayed. -/
theorem socks5_connect_success_reply_witness :
    socks5_request {} { rx := [5, 1, 0, 1] ++ [127, 0, 0, 1] ++ [0, 80] ++ [], wr := fun _ => true } =
      [.recv ([5, 1, 0, 1] ++ ([127, 0, 0, 1] : List Byte).take 1),
        .recv (([127, 0, 0, 1] : List Byte).drop 1 ++ [0, 80]),
        .connect (.ip (.v4 (read_uint32 [127, 0, 0, 1]))) (read_uint16 [0, 80]) false,
        .send ([5, 0, 0, 1] ++ [127, 0, 0, 1] ++ [0, 80])]
        ++ (if (fun _ => true) 0 = true then [.relay] else []) :=
  (socks5_connect_success_reply {} 0 [] (fun _ => true)).1 [127, 0, 0, 1] [0, 80] rfl rfl rfl

/-! ## base64 -/

set_option maxRecDepth 100000 in
theorem base64_inverse_alphabet : ∀ v, v < 64 → base64_inverse (base64_alphabet v) = (v : Int) := by
  decide

set_option maxRecDepth 100000 in
theorem base64_alphabet_ne_pad : ∀ v, v < 64 → base64_alphabet v ≠ 61 := by
  decide

set_option maxRecDepth 100000 in
theorem byte_bits : ∀ x, x < 256 →
    (x &&& 0xfc) >>> 2 = x / 4 ∧ (x &&& 0x03) <<< 4 = x % 4 * 16 ∧
    (x &&& 0xf0) >>> 4 = x / 16 ∧ (x &&& 0xc0) >>> 6 = x / 64 ∧
    (x &&& 0x0f) <<< 2 = x % 16 * 4 ∧ x &&& 0x3f = x % 64 := by
  decide

set_option maxRecDepth 100000 in
theorem sextet_bits : ∀ v, v < 64 →
    v <<< 2 = v * 4 ∧ (v &&& 0x30) >>> 4 = v / 16 ∧ (v &&& 0xf) <<< 4 = v % 16 * 16 ∧
    (v &&& 0x3c) >>> 2 = v / 4 ∧ (v &&& 0x3) <<< 6 = v % 4 * 64 := by
  decide

theorem base64_decode_loop_char (v : Nat) (hv : v < 64) (rest : List Byte) (c4 : List Nat)
    (i : Nat) :
    base64_decode_loop (base64_alphabet v :: rest) c4 i =
      if i + 1 = 4 then base64_c3 (c4.set i v) ++ base64_decode_loop rest (c4.set i v) 0
      else base64_decode_loop rest (c4.set i v) (i + 1) := by
  have h1 := base64_inverse_alphabet v hv
  have h2 := base64_alphabet_ne_pad v hv
  have h3 : ¬ ((v : Int) = -1) := by omega
  simp only [base64_decode_loop, if_neg h2, h1, if_neg h3, Int.toNat_ofNat]

theorem base64_decode_loop_pad (rest : List Byte) (c4 : List Nat) (i : Nat) :
    base64_decode_loop (61 :: rest) c4 i = base64_decode_tail c4 i := by
  simp [base64_decode_loop]

theorem base64_c3_group (a b c : Byte) (x : Nat) :
    (base64_c3 [(a.val &&& 0xfc) >>> 2, ((a.val &&& 0x03) <<< 4) + ((b.val &&& 0xf0) >>> 4),
      ((c.val &&& 0xc0) >>> 6) + ((b.val &&& 0x0f) <<< 2), x]).take 2 = [a, b] ∧
    base64_c3 [(a.val &&& 0xfc) >>> 2, ((a.val &&& 0x03) <<< 4) + ((b.val &&& 0xf0) >>> 4),
      ((c.val &&& 0xc0) >>> 6) + ((b.val &&& 0x0f) <<< 2), c.val &&& 0x3f] = [a, b, c] := by
  have ha := a.isLt
  have hb := b.isLt
  have hc := c.isLt
  obtain ⟨a1, a2, -, -, -, -⟩ := byte_bits a.val ha
  obtain ⟨-, -, b3, -, b5, -⟩ := byte_bits b.val hb
  obtain ⟨-, -, -, c4, -, c6⟩ := byte_bits c.val hc
  have s0 := sextet_bits (a.val / 4) (by omega)
  have s1 := sextet_bits (a.val % 4 * 16 + b.val / 16) (by omega)
  have s2 := sextet_bits (c.val / 64 + b.val % 16 * 4) (by omega)
  simp only [base64_c3, List.getD_cons_zero, List.getD_cons_succ, a1, a2, b3, b5, c4, c6,
    s0.1, s1.2.1, s1.2.2.1, s2.2.2.2.1, s2.2.2.2.2, List.take, u8]
  refine ⟨?_, ?_⟩
  · congr 1
    · apply Fin.ext; simp only []; omega
    · congr 1; apply Fin.ext; simp only []; omega
  · congr 1
    · apply Fin.ext; simp only []; omega
    · congr 1
      · apply Fin.ext; simp only []; omega
      · congr 1; apply Fin.ext; simp only []; omega

theorem base64_c3_single (a : Byte) (y x : Nat) :
    (base64_c3 [(a.val &&& 0xfc) >>> 2, (a.val &&& 0x03) <<< 4, y, x]).take 1 = [a] := by
  have ha := a.isLt
  obtain ⟨a1, a2, -, -, -, -⟩ := byte_bits a.val ha
  have s0 := sextet_bits (a.val / 4) (by omega)
  have s1 := sextet_bits (a.val % 4 * 16) (by omega)
  simp only [base64_c3, List.getD_cons_zero, List.getD_cons_succ, a1, a2,
    s0.1, s1.2.1, List.take, u8]
  congr 1; apply Fin.ext; simp only []; omega

theorem sextet_lt (a b c : Byte) :
    (a.val &&& 0xfc) >>> 2 < 64 ∧ ((a.val &&& 0x03) <<< 4) + ((b.val &&& 0xf0) >>> 4) < 64 ∧
    ((c.val &&& 0xc0) >>> 6) + ((b.val &&& 0x0f) <<< 2) < 64 ∧ c.val &&& 0x3f < 64 ∧
    (a.val &&& 0x03) <<< 4 < 64 ∧ (b.val &&& 0x0f) <<< 2 < 64 := by
  have ha := a.isLt
  have hb := b.isLt
  have hc := c.isLt
  obtain ⟨a1, a2, -, -, -, -⟩ := byte_bits a.val ha
  obtain ⟨-, -, b3, -, b5, -⟩ := byte_bits b.val hb
  obtain ⟨-, -, -, c4, -, c6⟩ := byte_bits c.val hc
  rw [a1, a2, b3, b5, c4, c6]
  omega

theorem base64_decode_loop_encode (xs : List Byte) :
    ∀ x0 x1 x2 x3 : Nat, base64_decode_loop (base64_encode xs) [x0, x1, x2, x3] 0 = xs := by
  induction xs using base64_encode.induct with
  | case1 a b c rest ih =>
    intro x0 x1 x2 x3
    obtain ⟨h0, h1, h2, h3, -, -⟩ := sextet_lt a b c
    simp only [base64_encode, List.cons_append, List.nil_append]
    rw [base64_decode_loop_char _ h0, if_neg (by decide), base64_decode_loop_char _ h1,
      if_neg (by decide), base64_decode_loop_char _ h2, if_neg (by decide),
      base64_decode_loop_char _ h3, if_pos (by decide)]
    simp only [List.set_cons_zero, List.set_cons_succ]
    rw [(base64_c3_group a b c 0).2, ih]
    rfl
  | case2 a b =>
    intro x0 x1 x2 x3
    obtain ⟨h0, h1, -, -, -, h5⟩ := sextet_lt a b 0
    simp only [base64_encode]
    rw [base64_decode_loop_char _ h0, if_neg (by decide), base64_decode_loop_char _ h1,
      if_neg (by decide), base64_decode_loop_char _ h5, if_neg (by decide),
      base64_decode_loop_pad]
    simp only [List.set_cons_zero, List.set_cons_succ, base64_decode_tail]
    have key := (base64_c3_group a b 0 x3).1
    simp only [Fin.val_zero, Nat.zero_and, Nat.zero_shiftRight, Nat.zero_add] at key
    simpa using key
  | case3 a =>
    intro x0 x1 x2 x3
    obtain ⟨h0, -, -, -, h4, -⟩ := sextet_lt a 0 0
    simp only [base64_encode]
    rw [base64_decode_loop_char _ h0, if_neg (by decide), base64_decode_loop_char _ h4,
      if_neg (by decide), base64_decode_loop_pad]
    simp only [List.set_cons_zero, List.set_cons_succ, base64_decode_tail]
    simpa using base64_c3_single a x2 x3
  | case4 =>
    intro x0 x1 x2 x3
    rfl

theorem base64_decode_encode (xs : List Byte) : base64_decode (base64_encode xs) = xs :=
  base64_decode_loop_encode xs 0 0 0 0

theorem base64_encode_length (xs : List Byte) :
    (base64_encode xs).length = 4 * ((xs.length + 2) / 3) := by
  induction xs using base64_encode.induct with
  | case1 a b c rest ih =>
    simp only [base64_encode, List.length_append, List.length_cons, List.length_nil, ih]
    omega
  | case2 a b => simp [base64_encode]
  | case3 a => simp [base64_encode]
  | case4 => rfl

theorem decode_userinfo_encode (xs : List Byte) : decode_userinfo (base64_encode xs) = xs := by
  have h : xs.length ≤ base64_decoded_size (base64_encode xs).length := by
    rw [base64_encode_length, base64_decoded_size]
    omega
  simp only [decode_userinfo, base64_decode_encode]
  rw [List.take_of_length_le h, Nat.sub_eq_zero_of_le h]
  simp

/-! ## HTTP Basic authorization -/

theorem string_find_none (ch : Byte) (s : List Byte) : string_find ch s = none ↔ ch ∉ s := by
  induction s with
  | nil => simp [string_find]
  | cons c rest ih =>
    by_cases h : c = ch
    · simp [string_find, h]
    · have h2 : ¬ ch = c := fun e => h e.symm
      simp [string_find, h, h2, ih]

theorem string_find_append (ch : Byte) (u rest : List Byte) (h : ch ∉ u) :
    string_find ch (u ++ ch :: rest) = some u.length := by
  induction u with
  | nil => simp [string_find]
  | cons c u ih =>
    have hc : ¬ c = ch := fun e => h (by simp [e])
    have hu : ch ∉ u := fun e => h (by simp [e])
    simp [string_find, hc, ih hu]

theorem string_find_take (ch : Byte) (s : List Byte) (pos : Nat)
    (h : string_find ch s = some pos) : s.take pos = s.takeWhile (fun c => decide (c ≠ ch)) := by
  induction s generalizing pos with
  | nil => simp [string_find] at h
  | cons c rest ih =>
    by_cases hc : c = ch
    · simp [string_find, hc] at h
      subst h
      simp [hc]
    · simp only [string_find, if_neg hc, Option.map_eq_some'] at h
      obtain ⟨q, hq, rfl⟩ := h
      simp [List.takeWhile_cons, hc, ih q hq]

theorem http_proxy_authorization_basic (opt : proxy_server_option) (u p : List Byte)
    (hne : opt.auth_users_ ≠ []) (hu : (58 : Byte) ∉ u) :
    http_proxy_authorization opt (Basic ++ [32] ++ base64_encode (u ++ [58] ++ p)) =
      if (u, p) ∈ opt.auth_users_ then PROXY_AUTH_SUCCESS else PROXY_AUTH_FAILED := by
  have he : opt.auth_users_.isEmpty = false := by
    cases h : opt.auth_users_ with
    | nil => exact absurd h hne
    | cons a l => rfl
  have hf : string_find 32 (Basic ++ [32] ++ base64_encode (u ++ [58] ++ p)) = some 5 := by
    have := string_find_append 32 Basic (base64_encode (u ++ [58] ++ p)) (by decide)
    simpa using this
  have hfu : string_find 58 (u ++ [58] ++ p) = some u.length := by
    have := string_find_append 58 u p hu
    simpa using this
  unfold http_proxy_authorization
  rw [he, hf]
  have ht : (Basic ++ [32] ++ base64_encode (u ++ [58] ++ p)).take 5 = Basic := rfl
  have hd : (Basic ++ [32] ++ base64_encode (u ++ [58] ++ p)).drop (5 + 1) =
      base64_encode (u ++ [58] ++ p) := rfl
  simp only [ht, hd, decode_userinfo_encode, hfu, verify_user_passwd_eq]
  have t1 : (u ++ [58] ++ p).take u.length = u := by simp
  have t2 : (u ++ [58] ++ p).drop (u.length + 1) = p := by simp
  rw [t1, t2]
  by_cases hm : (u, p) ∈ opt.auth_users_ <;> simp [hm, Basic]

theorem http_proxy_authorization_illegal (opt : proxy_server_option) (pa : List Byte)
    (hne : opt.auth_users_ ≠ []) (hpa : pa ≠ [])
    (h : (32 : Byte) ∉ pa ∨ pa.takeWhile (fun c => decide (c ≠ 32)) ≠ Basic) :
    http_proxy_authorization opt pa = PROXY_AUTH_ILLEGAL := by
  have he : opt.auth_users_.isEmpty = false := by
    cases h : opt.auth_users_ with
    | nil => exact absurd h hne
    | cons a l => rfl
  have hp : pa.isEmpty = false := by
    cases h : pa with
    | nil => exact absurd h hpa
    | cons a l => rfl
  unfold http_proxy_authorization
  rw [he, hp]
  cases hf : string_find 32 pa with
  | none => simp
  | some pos =>
    rcases h with h | h
    · exact absurd ((string_find_none 32 pa).2 h) (by simp [hf])
    · rw [← string_find_take 32 pa pos hf] at h
      simp [h]

/-- C5: HTTP Basic proxy authorization. With a non-empty user list: for every user `u`
without `:` and every password `p` the value `Basic ` followed by `base64(u:p)` gives
`PROXY_AUTH_SUCCESS` exactly when `(u, p)` is a configured pair and `PROXY_AUTH_FAILED`
otherwise; the empty value gives `PROXY_AUTH_NONE`; a non-empty value with no space, or
whose word before the first space is not `Basic`, gives `PROXY_AUTH_ILLEGAL`. With an empty
user list every value gives `PROXY_AUTH_SUCCESS`. Users `[(alice, s3cret)]` and the value
`Basic YWxpY2U6czNjcmV0` give success. -/
theorem http_basic_authorization (opt : proxy_server_option) :
    (opt.auth_users_ ≠ [] →
      (∀ u p : List Byte, (58 : Byte) ∉ u →
        (http_proxy_authorization opt (Basic ++ [32] ++ base64_encode (u ++ [58] ++ p)) =
            PROXY_AUTH_SUCCESS ↔ (u, p) ∈ opt.auth_users_) ∧
        ((u, p) ∉ opt.auth_users_ →
          http_proxy_authorization opt (Basic ++ [32] ++ base64_encode (u ++ [58] ++ p)) =
            PROXY_AUTH_FAILED)) ∧
      http_proxy_authorization opt [] = PROXY_AUTH_NONE ∧
      (∀ pa : List Byte, pa ≠ [] →
        ((32 : Byte) ∉ pa ∨ pa.takeWhile (fun c => decide (c ≠ 32)) ≠ Basic) →
        http_proxy_authorization opt pa = PROXY_AUTH_ILLEGAL)) ∧
    (opt.auth_users_ = [] → ∀ pa : List Byte, http_proxy_authorization opt pa = PROXY_AUTH_SUCCESS) ∧
    http_proxy_authorization
        { auth_users_ := [([97, 108, 105, 99, 101], [115, 51, 99, 114, 101, 116])] }
        (Basic ++ [32] ++ [89, 87, 120, 112, 89, 50, 85, 54, 99, 122, 78, 106, 99, 109, 86, 48]) =
      PROXY_AUTH_SUCCESS := by
  refine ⟨fun hne => ⟨fun u p hu => ⟨?_, ?_⟩, ?_, fun pa hpa h => ?_⟩, fun hnil pa => ?_, ?_⟩
  · rw [http_proxy_authorization_basic opt u p hne hu]
    by_cases hm : (u, p) ∈ opt.auth_users_
    · simp [hm]
    · simp only [if_neg hm, hm, iff_false]
      decide
  · intro hm
    rw [http_proxy_authorization_basic opt u p hne hu, if_neg hm]
  · have he : opt.auth_users_.isEmpty = false := by
      cases h : opt.auth_users_ with
      | nil => exact absurd h hne
      | cons a l => rfl
    simp [http_proxy_authorization, he]
  · exact http_proxy_authorization_illegal opt pa hne hpa h
  · simp [http_proxy_authorization, hnil]
  · decide

/-- Witness of C5: user `bob`, password `pw`, configured or not. -/
theorem http_basic_authorization_witness :
    (http_proxy_authorization { auth_users_ := [([98, 111, 98], [112, 119])] }
        (Basic ++ [32] ++ base64_encode ([98, 111, 98] ++ [58] ++ [112, 119])) =
      PROXY_AUTH_SUCCESS ↔
      (([98, 111, 98], [112, 119]) : List Byte × List Byte) ∈
        ({ auth_users_ := [([98, 111, 98], [112, 119])] } : proxy_server_option).auth_users_) ∧
    http_proxy_authorization { auth_users_ := [([98, 111, 98], [112, 119])] }
        (Basic ++ [32] ++ base64_encode ([98, 111, 98] ++ [58] ++ [112, 120])) =
      PROXY_AUTH_FAILED ∧
    http_proxy_authorization { auth_users_ := [([98, 111, 98], [112, 119])] } [66, 97, 115, 105, 99] =
      PROXY_AUTH_ILLEGAL ∧
    http_proxy_authorization {} [120] = PROXY_AUTH_SUCCESS :=
  ⟨(((http_basic_authorization { auth_users_ := [([98, 111, 98], [112, 119])] }).1
      (by decide)).1 [98, 111, 98] [112, 119] (by decide)).1,
   (((http_basic_authorization { auth_users_ := [([98, 111, 98], [112, 119])] }).1
      (by decide)).1 [98, 111, 98] [112, 120] (by decide)).2 (by decide),
   ((http_basic_authorization { auth_users_ := [([98, 111, 98], [112, 119])] }).1
      (by decide)).2.2 [66, 97, 115, 105, 99] (by decide) (Or.inl (by decide)),
   (http_basic_authorization {}).2.1 rfl [120]⟩

/-! ## HTTP `CONNECT` without valid credentials -/

theorem fake_407_status_line (date : List Byte) :
    ascii "HTTP/1.1 407 Proxy Authentication Required" <+: fake_407_content_fmt date := by
  have h : ascii "HTTP/1.1 407 Proxy Authentication Required\nServer: nginx/1.20.2\nDate: " =
      ascii "HTTP/1.1 407 Proxy Authentication Required" ++
        ascii "\nServer: nginx/1.20.2\nDate: " := by decide
  unfold fake_407_content_fmt
  rw [h, List.append_assoc, List.append_assoc]
  exact List.prefix_append _ _

theorem fake_407_challenge (date : List Byte) :
    ascii "\nProxy-Authenticate: Basic realm=\x22proxy\x22\n" <:+: fake_407_content_fmt date := by
  have h : ascii "\nConnection: close\nProxy-Authenticate: Basic realm=\x22proxy\x22\nProxy-Connection: close\nContent-Length: 0\n\n" =
      ascii "\nConnection: close" ++
        (ascii "\nProxy-Authenticate: Basic realm=\x22proxy\x22\n" ++
          ascii "Proxy-Connection: close\nContent-Length: 0\n\n") := by decide
  unfold fake_407_content_fmt
  rw [h]
  refine ⟨ascii "HTTP/1.1 407 Proxy Authentication Required\nServer: nginx/1.20.2\nDate: " ++ date ++
    ascii "\nConnection: close", ascii "Proxy-Connection: close\nContent-Length: 0\n\n", ?_⟩
  simp only [List.append_assoc]

/-- C6: an HTTP `CONNECT` whose credentials are missing, illegal or wrong. When the session
started on a `C`, HTTP is not disabled, and `http_proxy_authorization` does not return
success for the request read, all the session does after reading it is write one page: it
begins `HTTP/1.1 407 Proxy Authentication Required` and holds the line
`Proxy-Authenticate: Basic realm="proxy"`. No connect, no 200 and no 400 page occur. -/
theorem http_connect_auth_failure (opt : proxy_server_option) (env : Env) (b : Byte)
    (rest : List Byte) (wr : Nat → Bool) (req : Request) (more : List (Option Request))
    (hhttp : opt.disable_http_ = false)
    (hauth : http_proxy_authorization opt (req.get .proxy_authorization) ≠ PROXY_AUTH_SUCCESS) :
    start_proxy opt env { rx := 67 :: b :: rest, wr := wr, http := some req :: more } =
      [.recv [67, b], .http_recv req, .send (fake_407_content_fmt env.date)] ∧
    http_proxy_connect opt env { rx := rest, wr := wr, http := some req :: more } =
      ([.http_recv req, .send (fake_407_content_fmt env.date)], true) ∧
    ascii "HTTP/1.1 407 Proxy Authentication Required" <+: fake_407_content_fmt env.date ∧
    ascii "\nProxy-Authenticate: Basic realm=\x22proxy\x22\n" <:+:
      fake_407_content_fmt env.date := by
  have hc : http_proxy_connect opt env { rx := rest, wr := wr, http := some req :: more } =
      ([.http_recv req, .send (fake_407_content_fmt env.date)], true) := by
    simp [http_proxy_connect, http_async_read, hauth]
  refine ⟨?_, hc, fake_407_status_line _, fake_407_challenge _⟩
  have hr : async_read 2 { rx := 67 :: b :: rest, wr := wr, http := some req :: more } =
      some ([67, b], { rx := rest, wr := wr, http := some req :: more }) := by
    simp [async_read]
  unfold start_proxy
  rw [hr]
  have hv : read_uint8 (([67, b] : List Byte).getD 0 0) = 67 := rfl
  have n5 : ¬ ((67 : Int) = SOCKS_VERSION_5) := by decide
  have n4 : ¬ ((67 : Int) = SOCKS_VERSION_4) := by decide
  have ng : ¬ ((67 : Int) = 71 ∨ (67 : Int) = 80) := by decide
  simp only [hv, if_neg n5, if_neg n4, if_neg ng, if_true, hhttp, hc]
  simp

/-- Witness of C6: account `alice`/`s3cret`, a `CONNECT` without `Proxy-Authorization`. -/
theorem http_connect_auth_failure_witness :
    start_proxy { auth_users_ := [([97, 108, 105, 99, 101], [115, 51, 99, 114, 101, 116])] } {}
        { rx := 67 :: 79 :: [], wr := fun _ => true,
          http := some { method := ascii "CONNECT", target := ascii "example.com:443" } :: [] } =
      [.recv [67, 79],
        .http_recv { method := ascii "CONNECT", target := ascii "example.com:443" },
        .send (fake_407_content_fmt ({} : Env).date)] :=
  (http_connect_auth_failure
    { auth_users_ := [([97, 108, 105, 99, 101], [115, 51, 99, 114, 101, 116])] } {} 79 []
    (fun _ => true) { method := ascii "CONNECT", target := ascii "example.com:443" } []
    rfl (by decide)).1

/-! ## HTTP forward proxy: which requests go where -/

theorem http_proxy_get_loop_upstream (opt : proxy_server_option) (env : Env)
    (reqs : List (Option Request)) :
    ∀ (wr : Nat → Bool) (first remote_open : Bool) (k : Nat) (q : Request),
      Event.upstream_send q ∈ (http_proxy_get_loop opt env reqs wr first remote_open k).1 →
      ∃ req url, some req ∈ reqs ∧ env.parse_uri req.target = some url ∧
        http_proxy_authorization opt (req.get .proxy_authorization) = PROXY_AUTH_SUCCESS ∧
        q = rewrite_request req url := by
  induction reqs with
  | nil => intro wr first ro k q h; simp [http_proxy_get_loop] at h
  | cons r rest ih =>
    intro wr first ro k q h
    cases r with
    | none => simp [http_proxy_get_loop] at h
    | some req =>
      unfold http_proxy_get_loop at h
      simp only [] at h
      by_cases hg : http_proxy_authorization opt (req.get .proxy_authorization) ≠
          PROXY_AUTH_SUCCESS ∨ (env.parse_uri req.target).isNone = true
      · rw [if_pos hg] at h
        repeat' split at h
        all_goals simp at h
      · rw [if_neg hg] at h
        have hauth : http_proxy_authorization opt (req.get .proxy_authorization) =
            PROXY_AUTH_SUCCESS := by
          by_contra hne; exact hg (Or.inl hne)
        obtain ⟨url, hurl⟩ : ∃ url, env.parse_uri req.target = some url := by
          cases hp : env.parse_uri req.target with
          | none => exact absurd (Or.inr (by simp [hp])) hg
          | some url => exact ⟨url, rfl⟩
        have hhere : q = rewrite_request req url → ∃ req' url', some req' ∈ some req :: rest ∧
            env.parse_uri req'.target = some url' ∧
            http_proxy_authorization opt (req'.get .proxy_authorization) = PROXY_AUTH_SUCCESS ∧
            q = rewrite_request req' url' :=
          fun hq => ⟨req, url, by simp, hurl, hauth, hq⟩
        have hrest : ∀ wr' f' ro' k',
            Event.upstream_send q ∈ (http_proxy_get_loop opt env rest wr' f' ro' k').1 →
            ∃ req' url', some req' ∈ some req :: rest ∧
              env.parse_uri req'.target = some url' ∧
              http_proxy_authorization opt (req'.get .proxy_authorization) =
                PROXY_AUTH_SUCCESS ∧
              q = rewrite_request req' url' := by
          intro wr' f' ro' k' hm
          obtain ⟨req', url', hmem, h1, h2, h3⟩ := ih wr' f' ro' k' q hm
          exact ⟨req', url', by simp [hmem], h1, h2, h3⟩
        rw [hurl] at h
        simp only [Option.getD_some] at h
        repeat' split at h
        all_goals simp only [List.mem_append, List.mem_cons, List.mem_singleton,
          List.not_mem_nil, or_false, false_or, Event.upstream_send.injEq, reduceCtorEq] at h
        all_goals first
          | exact hhere h
          | exact hrest _ _ _ _ h
          | (rcases h with h | h
             · exact hhere h
             · exact hrest _ _ _ _ h)

/-- What `http_proxy_get` does with a request, in any round of its loop.
When a document root is configured and the target is not a valid absolute URI the request
goes to the static-file server (`forbidden_http_route` for a directory when autoindex is
off, `normal_web_server` otherwise) and the handler returns. When the target is a valid
absolute URI and authentication does not succeed the request is neither served nor
forwarded: the handler returns `!first`. A request is written upstream only if its target
is a valid absolute URI and its authentication succeeded. -/
theorem http_get_fall_through (opt : proxy_server_option) (env : Env) (req : Request)
    (rest : List (Option Request)) (wr : Nat → Bool) (first remote_open : Bool) (k : Nat) :
    (env.parse_uri req.target = none → opt.doc_directory_ ≠ [] →
      http_proxy_get_loop opt env (some req :: rest) wr first remote_open k =
        ([.http_recv req,
          if opt.autoindex_ = false ∧ env.is_directory req = true then .forbidden req
          else .web_server req], true)) ∧
    (∀ url, env.parse_uri req.target = some url →
      http_proxy_authorization opt (req.get .proxy_authorization) ≠ PROXY_AUTH_SUCCESS →
      http_proxy_get_loop opt env (some req :: rest) wr first remote_open k =
        ([.http_recv req], !first)) ∧
    (∀ q, Event.upstream_send q ∈
        (http_proxy_get_loop opt env (some req :: rest) wr first remote_open k).1 →
      ∃ req' url, some req' ∈ some req :: rest ∧ env.parse_uri req'.target = some url ∧
        http_proxy_authorization opt (req'.get .proxy_authorization) = PROXY_AUTH_SUCCESS ∧
        q = rewrite_request req' url) := by
  refine ⟨fun hp hd => ?_, fun url hp ha => ?_, fun q hq => ?_⟩
  · have he : opt.doc_directory_.isEmpty = false := by
      cases h : opt.doc_directory_ with
      | nil => exact absurd h hd
      | cons a l => rfl
    unfold http_proxy_get_loop
    simp only [hp, he]
    cases opt.autoindex_ <;> cases env.is_directory req <;> simp
  · unfold http_proxy_get_loop
    simp [hp, ha]
  · exact http_proxy_get_loop_upstream opt env _ wr first remote_open k q hq

/-- Two requests: the target `/index.html` with a document root, and the target
`http://origin.test/` without credentials. -/
theorem http_get_fall_through_witness :
    http_proxy_get_loop { doc_directory_ := ascii "/srv" } {}
        (some { method := ascii "GET", target := ascii "/index.html" } :: []) (fun _ => true)
        true false 0 =
      ([.http_recv { method := ascii "GET", target := ascii "/index.html" },
        if ({ doc_directory_ := ascii "/srv" } : proxy_server_option).autoindex_ = false ∧
            ({} : Env).is_directory { method := ascii "GET", target := ascii "/index.html" } = true
        then .forbidden { method := ascii "GET", target := ascii "/index.html" }
        else .web_server { method := ascii "GET", target := ascii "/index.html" }], true) ∧
    http_proxy_get_loop { auth_users_ := [(ascii "alice", ascii "s3cret")] }
        { parse_uri := fun _ => some { default_port := 80, host := ascii "origin.test" } }
        (some { method := ascii "GET", target := ascii "http://origin.test/" } :: [])
        (fun _ => true) true false 0 =
      ([.http_recv { method := ascii "GET", target := ascii "http://origin.test/" }], !true) :=
  ⟨(http_get_fall_through { doc_directory_ := ascii "/srv" } {}
      { method := ascii "GET", target := ascii "/index.html" } [] (fun _ => true)
      true false 0).1 rfl (by decide),
   (http_get_fall_through { auth_users_ := [(ascii "alice", ascii "s3cret")] }
      { parse_uri := fun _ => some { default_port := 80, host := ascii "origin.test" } }
      { method := ascii "GET", target := ascii "http://origin.test/" } [] (fun _ => true)
      true false 0).2.1 _ rfl (by decide)⟩

/-- C7 at a failing input: a document root is configured, the request
`GET http://origin.test/` carries no credentials while an account is required, so
authentication does not succeed; yet the request is not handed to the static-file server:
`http_proxy_get` only reads it and returns `false`. -/
theorem http_get_auth_failure_not_served :
    ({ auth_users_ := [(ascii "alice", ascii "s3cret")], doc_directory_ := ascii "/srv" } :
        proxy_server_option).doc_directory_ ≠ [] ∧
    http_proxy_authorization
        { auth_users_ := [(ascii "alice", ascii "s3cret")], doc_directory_ := ascii "/srv" }
        (({ method := ascii "GET", target := ascii "http://origin.test/" } : Request).get
          .proxy_authorization) ≠ PROXY_AUTH_SUCCESS ∧
    http_proxy_get
        { auth_users_ := [(ascii "alice", ascii "s3cret")], doc_directory_ := ascii "/srv" }
        { parse_uri := fun _ => some { default_port := 80, host := ascii "origin.test" } }
        { rx := [], http := [some { method := ascii "GET", target := ascii "http://origin.test/" }] } =
      ([.http_recv { method := ascii "GET", target := ascii "http://origin.test/" }], false) ∧
    Event.web_server { method := ascii "GET", target := ascii "http://origin.test/" } ∉
      (http_proxy_get
        { auth_users_ := [(ascii "alice", ascii "s3cret")], doc_directory_ := ascii "/srv" }
        { parse_uri := fun _ => some { default_port := 80, host := ascii "origin.test" } }
        { rx := [], http := [some { method := ascii "GET", target := ascii "http://origin.test/" }] }).1 ∧
    Event.forbidden { method := ascii "GET", target := ascii "http://origin.test/" } ∉
      (http_proxy_get
        { auth_users_ := [(ascii "alice", ascii "s3cret")], doc_directory_ := ascii "/srv" }
        { parse_uri := fun _ => some { default_port := 80, host := ascii "origin.test" } }
        { rx := [], http := [some { method := ascii "GET", target := ascii "http://origin.test/" }] }).1 := by
  decide

/-! ## The dispatcher -/

theorem socket_detect_peek (b : Byte) (rest : List Byte) (pf : Nat → Bool) (hp : pf 0 = false) :
    ¬ ((if pf 0 = true then (-1 : Int) else (((b :: rest).take 5).length : Int)) ≤ 0) := by
  rw [hp]
  simp only [Bool.false_eq_true, if_false, List.take_succ_cons, List.length_cons]
  omega

/-- C8: classification by the first octet `b` peeked, with `disable_insecure` off, the wait
without error and a peek that returns at least one octet. For `05` and `04` a plain
session is made and started exactly when `disable_socks` is off; for `16` the TLS
handshake is run and a session over the TLS stream is made exactly when it succeeds; for
`47`, `50`, `43` a plain session is made and started exactly when `disable_http` is off;
in the disabled cases nothing is done. When the wait fails, the peek fails or the peek
returns 0, nothing is done. -/
theorem socket_detect_classification (opt : proxy_server_option) (noise : Bool) (s : Socket)
    (b : Byte) (rest : List Byte) (hrx : s.rx = b :: rest)
    (hins : opt.disable_insecure_ = false) :
    (s.wait_failed 0 = false → s.peek_failed 0 = false →
      ((b = 0x05 ∨ b = 0x04) →
        socket_detect opt noise s = if opt.disable_socks_ then [] else [.session false]) ∧
      (b = 0x16 →
        socket_detect opt noise s =
          if s.handshake_ok then [.handshake, .session true] else [.handshake]) ∧
      ((b = 0x47 ∨ b = 0x50 ∨ b = 0x43) →
        socket_detect opt noise s = if opt.disable_http_ then [] else [.session false])) ∧
    ((s.wait_failed 0 = true ∨ s.peek_failed 0 = true) → socket_detect opt noise s = []) ∧
    (∀ s0 : Socket, s0.rx = [] → socket_detect opt noise s0 = []) := by
  refine ⟨fun hw hp => ⟨fun hb => ?_, fun hb => ?_, fun hb => ?_⟩, fun h => ?_, fun s0 h0 => ?_⟩
  · have hk := socket_detect_peek b rest s.peek_failed hp
    unfold socket_detect socket_detect_body
    simp only [hrx, hw, hins, List.getD_cons_zero]
    rw [if_neg hk]
    simp [hb]
  · have hk := socket_detect_peek b rest s.peek_failed hp
    unfold socket_detect socket_detect_body
    simp only [hrx, hw, hins, List.getD_cons_zero]
    rw [if_neg hk]
    subst hb
    cases s.handshake_ok <;> simp
  · have hk := socket_detect_peek b rest s.peek_failed hp
    have h1 : ¬ (b = 0x05 ∨ b = 0x04) := by
      rcases hb with h | h | h <;> subst h <;> decide
    have h2 : ¬ (b = 0x16) := by
      rcases hb with h | h | h <;> subst h <;> decide
    unfold socket_detect socket_detect_body
    simp only [hrx, hw, hins, List.getD_cons_zero]
    rw [if_neg hk]
    simp [h1, h2, hb]
  · unfold socket_detect socket_detect_body
    rcases h with h | h
    · simp [h]
    · cases s.wait_failed 0 <;> simp [h]
  · unfold socket_detect socket_detect_body
    cases s0.wait_failed 0 <;> cases s0.peek_failed 0 <;> simp [h0]

/-- Witness of C8: a peek at `05 01 00` with SOCKS enabled starts a plain session. -/
theorem socket_detect_classification_witness :
    socket_detect {} true { rx := [5, 1, 0] } =
      if ({} : proxy_server_option).disable_socks_ then [] else [.session false] :=
  ((socket_detect_classification {} true { rx := [5, 1, 0] } 5 [1, 0] rfl rfl).1 rfl rfl).1
    (Or.inl rfl)

/-- C9: an unknown first octet. For every first octet `b` outside `04 05 16 43 47 50`,
when scramble is disabled or the detection is the one that follows a noise handshake
(`noise = false`), `socket_detect` does nothing: no session, no noise handshake, no write. -/
theorem socket_detect_unknown (opt : proxy_server_option) (noise : Bool) (s : Socket)
    (b : Byte) (rest : List Byte) (hrx : s.rx = b :: rest)
    (hb : b ≠ 0x04 ∧ b ≠ 0x05 ∧ b ≠ 0x16 ∧ b ≠ 0x43 ∧ b ≠ 0x47 ∧ b ≠ 0x50)
    (h : opt.scramble_ = false ∨ noise = false) :
    socket_detect opt noise s = [] := by
  obtain ⟨h4, h5, h16, h43, h47, h50⟩ := hb
  have hn : ¬ (noise = true ∧ opt.scramble_ = true) := by
    rcases h with h | h <;> simp [h]
  unfold socket_detect socket_detect_body
  simp only [hrx, List.getD_cons_zero]
  simp [h4, h5, h16, h43, h47, h50, hn]

/-- Witness of C9: the octet `00` with scramble disabled. -/
theorem socket_detect_unknown_witness :
    socket_detect {} true { rx := [0, 1, 2] } = [] :=
  socket_detect_unknown {} true { rx := [0, 1, 2] } 0 [1, 2] rfl (by decide) (Or.inl rfl)

/-- C10: the `disable_insecure` policy. With `disable_insecure` set, for every first octet
other than `16` `socket_detect` does nothing (no session, no noise handshake), whatever
`noise`, `scramble`, `disable_socks` and `disable_http` are; for `16`, once the wait and the
peek have succeeded, it goes on to the TLS handshake. -/
theorem socket_detect_disable_insecure (opt : proxy_server_option) (noise : Bool) (s : Socket)
    (b : Byte) (rest : List Byte) (hrx : s.rx = b :: rest)
    (hins : opt.disable_insecure_ = true) :
    (b ≠ 0x16 → socket_detect opt noise s = []) ∧
    (b = 0x16 → s.wait_failed 0 = false → s.peek_failed 0 = false →
      socket_detect opt noise s =
        if s.handshake_ok then [.handshake, .session true] else [.handshake]) := by
  refine ⟨fun hb => ?_, fun hb hw hp => ?_⟩
  · unfold socket_detect socket_detect_body
    simp only [hrx, hins, List.getD_cons_zero]
    simp [hb]
  · have hk := socket_detect_peek b rest s.peek_failed hp
    unfold socket_detect socket_detect_body
    simp only [hrx, hw, hins, List.getD_cons_zero]
    rw [if_neg hk]
    subst hb
    cases s.handshake_ok <;> simp

/-- Witness of C10: with `disable_insecure` and scramble set, `05` is dropped and `16`
reaches the TLS handshake. -/
theorem socket_detect_disable_insecure_witness :
    socket_detect { disable_insecure_ := true, scramble_ := true } true { rx := [5, 1, 0] } = [] ∧
    socket_detect { disable_insecure_ := true, scramble_ := true } true { rx := [0x16, 3, 1] } =
      if ({ rx := [0x16, 3, 1] } : Socket).handshake_ok then [.handshake, .session true]
      else [.handshake] :=
  ⟨(socket_detect_disable_insecure { disable_insecure_ := true, scramble_ := true } true
      { rx := [5, 1, 0] } 5 [1, 0] rfl rfl).1 (by decide),
   (socket_detect_disable_insecure { disable_insecure_ := true, scramble_ := true } true
      { rx := [0x16, 3, 1] } 0x16 [3, 1] rfl rfl).2 rfl rfl rfl⟩

/-! ## The relay -/

theorem transfer_read_error (chunks : List (List Byte)) (final : List Byte)
    (more : List (List Byte × Bool)) :
    ∀ (wr abort : Nat → Bool), (∀ k, abort k = false) → (∀ k, k < chunks.length → wr k = true) →
      transfer (chunks.map (fun c => (c, false)) ++ (final, true) :: more) wr abort =
        chunks.map Transfer.write ++ (if final.length > 0 then [.write final] else [])
          ++ [.shutdown_send] := by
  induction chunks with
  | nil =>
    intro wr abort ha _
    simp [transfer, ha]
  | cons c rest ih =>
    intro wr abort ha hw
    have h0 : wr 0 = true := hw 0 (by simp)
    have hr := ih (fun k => wr (k + 1)) (fun k => abort (k + 3)) (fun k => ha (k + 3))
      (fun k hk => hw (k + 1) (by simpa using hk))
    have a0 := ha 0
    have a1 := ha 1
    have a2 := ha 2
    rw [List.map_cons, List.cons_append, transfer]
    simp only [a0, a1, a2, h0, Bool.false_eq_true, if_false, or_self, Bool.not_true]
    rw [hr]
    simp

theorem transfer_write_error (chunks : List (List Byte)) (c : List Byte)
    (more : List (List Byte × Bool)) :
    ∀ (wr abort : Nat → Bool), (∀ k, abort k = false) → (∀ k, k < chunks.length → wr k = true) →
      wr chunks.length = false →
      transfer (chunks.map (fun c => (c, false)) ++ (c, false) :: more) wr abort =
        chunks.map Transfer.write ++ [.write c, .shutdown_receive] := by
  induction chunks with
  | nil =>
    intro wr abort ha _ hf
    simp only [List.length_nil] at hf
    simp [transfer, ha, hf]
  | cons d rest ih =>
    intro wr abort ha hw hf
    have h0 : wr 0 = true := hw 0 (by simp)
    have hr := ih (fun k => wr (k + 1)) (fun k => abort (k + 3)) (fun k => ha (k + 3))
      (fun k hk => hw (k + 1) (by simpa using hk)) (by simpa using hf)
    have a0 := ha 0
    have a1 := ha 1
    have a2 := ha 2
    rw [List.map_cons, List.cons_append, transfer]
    simp only [a0, a1, a2, h0, Bool.false_eq_true, if_false, or_self, Bool.not_true]
    rw [hr]
    simp

theorem written_writes_append (chunks : List (List Byte)) (l : List Transfer) :
    Transfer.written (chunks.map Transfer.write ++ l) = chunks.flatten ++ Transfer.written l := by
  induction chunks with
  | nil => simp
  | cons c rest ih => simp [Transfer.written, ih]

/-- C11: byte fidelity of one direction of the relay. When the reads on the source give
the chunks `c1 .. cn` and then fail or reach the end (possibly delivering `final` with the
error), every write succeeds and the abort flag stays unset, the octets written to the
destination are `c1 ++ ... ++ cn ++ final`, in this order. -/
theorem transfer_byte_fidelity (chunks : List (List Byte)) (final : List Byte)
    (more : List (List Byte × Bool)) (wr abort : Nat → Bool)
    (ha : ∀ k, abort k = false) (hw : ∀ k, wr k = true) :
    Transfer.written
        (transfer (chunks.map (fun c => (c, false)) ++ (final, true) :: more) wr abort) =
      chunks.flatten ++ final := by
  rw [transfer_read_error chunks final more wr abort ha (fun k _ => hw k), List.append_assoc,
    written_writes_append]
  cases final with
  | nil => simp [Transfer.written]
  | cons b bs => simp [Transfer.written]

/-- Witness of C11: chunks `01 02` and `03`, then an error that delivers `09`. -/
theorem transfer_byte_fidelity_witness :
    Transfer.written
        (transfer (([[1, 2], [3]] : List (List Byte)).map (fun c => (c, false)) ++ ([9], true) :: [])
          (fun _ => true) (fun _ => false)) =
      ([[1, 2], [3]] : List (List Byte)).flatten ++ [9] :=
  transfer_byte_fidelity [[1, 2], [3]] [9] [] (fun _ => true) (fun _ => false)
    (fun _ => rfl) (fun _ => rfl)

theorem transfer_shutdown_once (script : List (List Byte × Bool)) :
    ∀ wr abort : Nat → Bool,
      ((transfer script wr abort).filter
        (fun e => decide (e = .shutdown_send ∨ e = .shutdown_receive))).length ≤ 1 := by
  induction script with
  | nil => intro wr abort; simp [transfer]
  | cons p rest ih =>
    intro wr abort
    obtain ⟨data, ec⟩ := p
    unfold transfer
    split
    · simp
    · split
      · split <;> simp [List.filter_cons]
      · split
        · simp [List.filter_cons]
        · rw [List.filter_cons, if_neg (by simp)]
          exact ih _ _

/-- C12, as amended: half-close of one direction of the relay. A run makes at most one
shutdown call, and none at all when the abort flag is already set as the loop starts: the
loop body is then not entered and nothing is written. With the abort flag unset: when a
read on `from` fails or reaches the end after the chunks `c1 .. cn` were written, the
octets that came with that read are written (if there are any), then `shutdown(send)` is
called on `to`, and that is the only shutdown; when the write of a chunk to `to` fails,
`shutdown(receive)` is called on `from`, and that is the only shutdown. -/
theorem transfer_half_close (chunks : List (List Byte)) (more : List (List Byte × Bool))
    (wr abort : Nat → Bool) :
    (∀ script : List (List Byte × Bool),
      ((transfer script wr abort).filter
        (fun e => decide (e = .shutdown_send ∨ e = .shutdown_receive))).length ≤ 1 ∧
      (abort 0 = true → transfer script wr abort = [])) ∧
    ((∀ k, abort k = false) → (∀ k, k < chunks.length → wr k = true) →
      (∀ final : List Byte,
        transfer (chunks.map (fun c => (c, false)) ++ (final, true) :: more) wr abort =
          chunks.map Transfer.write ++ (if final.length > 0 then [.write final] else [])
            ++ [.shutdown_send]) ∧
      (∀ c : List Byte, wr chunks.length = false →
        transfer (chunks.map (fun c => (c, false)) ++ (c, false) :: more) wr abort =
          chunks.map Transfer.write ++ [.write c, .shutdown_receive])) := by
  refine ⟨fun script => ⟨transfer_shutdown_once script wr abort, fun h0 => ?_⟩,
    fun ha hw => ⟨fun final => transfer_read_error chunks final more wr abort ha hw,
      fun c hf => transfer_write_error chunks c more wr abort ha hw hf⟩⟩
  cases script with
  | nil => rfl
  | cons p rest =>
    obtain ⟨data, ec⟩ := p
    unfold transfer
    rw [if_pos h0]

/-- Witness of C12 as amended: one chunk, then the end of the stream; one chunk, then a
failed write. -/
theorem transfer_half_close_witness :
    transfer (([[1, 2]] : List (List Byte)).map (fun c => (c, false)) ++ ([], true) :: [])
        (fun k => decide (k < 1)) (fun _ => false) =
      ([[1, 2]] : List (List Byte)).map Transfer.write
        ++ (if ([] : List Byte).length > 0 then [.write []] else []) ++ [.shutdown_send] ∧
    transfer (([[1, 2]] : List (List Byte)).map (fun c => (c, false)) ++ ([3], false) :: [])
        (fun k => decide (k < 1)) (fun _ => false) =
      ([[1, 2]] : List (List Byte)).map Transfer.write ++ [.write [3], .shutdown_receive] :=
  ⟨((transfer_half_close [[1, 2]] [] (fun k => decide (k < 1)) (fun _ => false)).2
      (fun _ => rfl) (fun k hk => by simpa using hk)).1 [],
   ((transfer_half_close [[1, 2]] [] (fun k => decide (k < 1)) (fun _ => false)).2
      (fun _ => rfl) (fun k hk => by simpa using hk)).2 [3] (by decide)⟩

/-- Counterexample to C12 as stated: the abort flag is set before the direction starts, a
chunk `01 02` is ready on `from` and writes would succeed; the loop body is not entered and
the run ends with no shutdown call on either socket. -/
theorem transfer_half_close_counterexample :
    transfer [([1, 2], false), ([], true)] (fun _ => true) (fun _ => true) = [] ∧
    Transfer.shutdown_send ∉
      transfer [([1, 2], false), ([], true)] (fun _ => true) (fun _ => true) ∧
    Transfer.shutdown_receive ∉
      transfer [([1, 2], false), ([], true)] (fun _ => true) (fun _ => true) := by
  decide

/-! ## SOCKS4 -/

theorem async_read_length (n : Nat) (c c1 : Client) (b : List Byte)
    (h : async_read n c = some (b, c1)) : b.length = n := by
  unfold async_read at h
  split at h
  · rename_i hn
    simp only [Option.some.injEq, Prod.mk.injEq] at h
    rw [← h.1, List.length_take]
    omega
  · simp at h

theorem write_read_port_ip (b1 : List Byte) (h : b1.length = 6) :
    write_uint16 (read_uint16 b1) ++ write_uint32 (read_uint32 (b1.drop 2)) = b1 := by
  match b1, h with
  | [p0, p1, a0, a1, a2, a3], _ =>
    have e1 : read_uint16 [p0, p1, a0, a1, a2, a3] = read_uint16 [p0, p1] := rfl
    have e2 : ([p0, p1, a0, a1, a2, a3] : List Byte).drop 2 = [a0, a1, a2, a3] := rfl
    rw [e1, e2, write_read_uint16, write_read_uint32]
    rfl

theorem verify_userid_eq (userid : List Byte) (users : List (List Byte × List Byte)) (v : Bool) :
    verify_userid userid users v = (decide (userid ∈ users.map Prod.fst) || v) := by
  induction users with
  | nil => simp [verify_userid]
  | cons up rest ih =>
    obtain ⟨user, pwd⟩ := up
    simp only [verify_userid, List.map_cons, List.mem_cons]
    by_cases h : user = userid
    · simp [h]
    · have h2 : ¬ userid = user := fun e => h e.symm
      simp [h, h2, ih]

theorem verify_userid_iff (userid : List Byte) (users : List (List Byte × List Byte)) :
    verify_userid userid users users.isEmpty = true ↔
      (users = [] ∨ userid ∈ users.map Prod.fst) := by
  rw [verify_userid_eq]
  cases users <;> simp

set_option maxRecDepth 100000 in
theorem socks4a_flag_small : ∀ v, v < 256 → 1 ≤ v → v ^^^ 0x000000ff < 0xff := by
  decide

theorem socks4a_flag (v : Nat) : 0xff > v ^^^ 0x000000ff ↔ (1 ≤ v ∧ v ≤ 255) := by
  constructor
  · intro h
    have h1 : v ^^^ 0xff < 2 ^ 8 := by omega
    have h2 : (v ^^^ 0xff) ^^^ 0xff < 2 ^ 8 := Nat.xor_lt_two_pow h1 (by decide)
    rw [Nat.xor_assoc, Nat.xor_self, Nat.xor_zero] at h2
    have h3 : v ≠ 0 := by
      intro h0
      subst h0
      simp at h
    omega
  · rintro ⟨h1, h2⟩
    exact socks4a_flag_small v (by omega) h1


theorem socks_connect_v4_request (opt : proxy_server_option) (env : Env) (buf : List Byte)
    (c c1 c2 c3 : Client) (b1 userid hostname : List Byte)
    (h1 : async_read 6 c = some (b1, c1))
    (h2 : async_read_until_null c1 = some (userid, c2))
    (h3 : (if decide (0xff > read_uint32 (b1.drop 2) ^^^ 0x000000ff) = true
            then async_read_until_null c2 else some ([], c2)) = some (hostname, c3)) :
    socks_connect_v4 opt env buf c =
      (if decide (0xff > read_uint32 (b1.drop 2) ^^^ 0x000000ff) = true
        then [.recv b1, .recv (userid ++ [0]), .recv (hostname ++ [0])]
        else [.recv b1, .recv (userid ++ [0])]) ++
      (if verify_userid userid opt.auth_users_ opt.auth_users_.isEmpty = false then
        [.send ([0, 93] ++ b1)]
      else if read_int8 (buf.getD 1 0) ≠ SOCKS_CMD_CONNECT then
        [.send ([0, 91] ++ b1)]
      else
        [.connect
            (if decide (0xff > read_uint32 (b1.drop 2) ^^^ 0x000000ff) = true
              then .name hostname else .ip (.v4 (read_uint32 (b1.drop 2))))
            (read_uint16 b1) (decide (0xff > read_uint32 (b1.drop 2) ^^^ 0x000000ff)),
          .send ([0, if (env.connect
            (if decide (0xff > read_uint32 (b1.drop 2) ^^^ 0x000000ff) = true
              then .name hostname else .ip (.v4 (read_uint32 (b1.drop 2))))
            (read_uint16 b1) (decide (0xff > read_uint32 (b1.drop 2) ^^^ 0x000000ff))).failed
            then 92 else 90] ++ b1)] ++
        (if (env.connect
            (if decide (0xff > read_uint32 (b1.drop 2) ^^^ 0x000000ff) = true
              then .name hostname else .ip (.v4 (read_uint32 (b1.drop 2))))
            (read_uint16 b1) (decide (0xff > read_uint32 (b1.drop 2) ^^^ 0x000000ff))).failed
            = false ∧ c3.wr 0 = true then [.relay] else [])) := by
  have hl := async_read_length 6 c c1 b1 h1
  have hb := write_read_port_ip b1 hl
  have k0 : u8 0 = 0 := by decide
  have k90 : u8 SOCKS4_REQUEST_GRANTED = 90 := by decide
  have k91 : u8 SOCKS4_REQUEST_REJECTED_OR_FAILED = 91 := by decide
  have k92 : u8 SOCKS4_CANNOT_CONNECT_TARGET_SERVER = 92 := by decide
  have k93 : u8 SOCKS4_REQUEST_REJECTED_USER_NO_ALLOW = 93 := by decide
  have n91 : ¬ SOCKS4_REQUEST_REJECTED_OR_FAILED = SOCKS4_REQUEST_GRANTED := by decide
  have n92 : ¬ SOCKS4_CANNOT_CONNECT_TARGET_SERVER = SOCKS4_REQUEST_GRANTED := by decide
  unfold socks_connect_v4
  rw [h1]
  simp only []
  rw [h2]
  simp only []
  rw [h3]
  simp only [async_write, List.append_assoc, hb]
  generalize decide (0xff > read_uint32 (b1.drop 2) ^^^ 0x000000ff) = s4a
  generalize verify_userid userid opt.auth_users_ opt.auth_users_.isEmpty = vp
  by_cases hc : read_int8 (buf.getD 1 0) = SOCKS_CMD_CONNECT
  · simp only [hc, if_true, ne_eq, not_true_eq_false, if_false]
    generalize env.connect _ _ _ = ec
    cases vp <;> cases s4a <;> cases hf : ec.failed <;> cases hw : c3.wr 0 <;>
      simp [k0, k90, k91, k92, k93, n91, n92]
  · simp only [hc, if_false, ne_eq, not_false_eq_true, if_true]
    cases vp <;> cases s4a <;> cases hw : c3.wr 0 <;>
      simp [k0, k90, k91, k92, k93, n91, n92]


/-- C13: the reply code of SOCKS4. For a request read in full (`b1` the six octets DSTPORT
DSTIP, then the user id, then the host name when DSTIP asks for one): if the user list is
non-empty and no entry has the user id as its name, the reply code is 93 and no connect is
attempted; otherwise, if CD is not 1, the reply code is 91 and no connect is attempted;
otherwise one connect is attempted, the reply code is 90 exactly when it leaves no error
(92 if it does), and the relay runs only after a reply with code 90. -/
theorem socks4_reply_code (opt : proxy_server_option) (env : Env) (vn cd : Byte)
    (c c1 c2 c3 : Client) (b1 userid hostname : List Byte)
    (h1 : async_read 6 c = some (b1, c1))
    (h2 : async_read_until_null c1 = some (userid, c2))
    (h3 : (if decide (0xff > read_uint32 (b1.drop 2) ^^^ 0x000000ff) = true
            then async_read_until_null c2 else some ([], c2)) = some (hostname, c3)) :
    (¬ (opt.auth_users_ = [] ∨ userid ∈ opt.auth_users_.map Prod.fst) →
      socks_connect_v4 opt env [vn, cd] c =
        (if decide (0xff > read_uint32 (b1.drop 2) ^^^ 0x000000ff) = true
          then [.recv b1, .recv (userid ++ [0]), .recv (hostname ++ [0])]
          else [.recv b1, .recv (userid ++ [0])]) ++ [.send ([0, 93] ++ b1)]) ∧
    ((opt.auth_users_ = [] ∨ userid ∈ opt.auth_users_.map Prod.fst) → cd ≠ 1 →
      socks_connect_v4 opt env [vn, cd] c =
        (if decide (0xff > read_uint32 (b1.drop 2) ^^^ 0x000000ff) = true
          then [.recv b1, .recv (userid ++ [0]), .recv (hostname ++ [0])]
          else [.recv b1, .recv (userid ++ [0])]) ++ [.send ([0, 91] ++ b1)]) ∧
    ((opt.auth_users_ = [] ∨ userid ∈ opt.auth_users_.map Prod.fst) → cd = 1 →
      ∃ (host : Host) (port : Nat) (resolve : Bool),
        socks_connect_v4 opt env [vn, cd] c =
          (if decide (0xff > read_uint32 (b1.drop 2) ^^^ 0x000000ff) = true
            then [.recv b1, .recv (userid ++ [0]), .recv (hostname ++ [0])]
            else [.recv b1, .recv (userid ++ [0])]) ++
          ([.connect host port resolve,
            .send ([0, if (env.connect host port resolve).failed then 92 else 90] ++ b1)] ++
          (if (env.connect host port resolve).failed = false ∧ c3.wr 0 = true
            then [.relay] else []))) := by
  have key := socks_connect_v4_request opt env [vn, cd] c c1 c2 c3 b1 userid hostname h1 h2 h3
  simp only [List.getD_cons_zero, List.getD_cons_succ] at key
  refine ⟨fun hk => ?_, fun hk hcd => ?_, fun hk hcd => ?_⟩
  · have hv : verify_userid userid opt.auth_users_ opt.auth_users_.isEmpty = false := by
      cases h : verify_userid userid opt.auth_users_ opt.auth_users_.isEmpty
      · rfl
      · exact absurd ((verify_userid_iff userid opt.auth_users_).1 h) hk
    rw [key, hv]
    simp
  · have hv := (verify_userid_iff userid opt.auth_users_).2 hk
    have hc : read_int8 cd ≠ SOCKS_CMD_CONNECT := by
      intro h
      have h1' : read_int8 cd = 1 := h
      unfold read_int8 at h1'
      have hlt := cd.isLt
      apply hcd
      apply Fin.ext
      split at h1' <;> simp <;> omega
    rw [key, hv]
    simp [hc]
  · have hv := (verify_userid_iff userid opt.auth_users_).2 hk
    have hc : read_int8 cd = SOCKS_CMD_CONNECT := by subst hcd; rfl
    rw [key, hv]
    simp only [hc, ne_eq, not_true_eq_false, if_false, Bool.true_eq_false]
    exact ⟨_, _, _, rfl⟩

/-- Witness of C13: no account configured, the SOCKS4a request of the spec
`04 01 01 BB 00 00 00 2A "userid" 00 "example.com" 00`. -/
theorem socks4_reply_code_witness :
    ∃ (host : Host) (port : Nat) (resolve : Bool),
      socks_connect_v4 {} {} [4, 1]
          { rx := [1, 187, 0, 0, 0, 42] ++ ascii "userid" ++ [0] ++ ascii "example.com" ++ [0] } =
        (if decide (0xff > read_uint32 (([1, 187, 0, 0, 0, 42] : List Byte).drop 2) ^^^ 0x000000ff)
            = true
          then [.recv [1, 187, 0, 0, 0, 42], .recv (ascii "userid" ++ [0]),
            .recv (ascii "example.com" ++ [0])]
          else [.recv [1, 187, 0, 0, 0, 42], .recv (ascii "userid" ++ [0])]) ++
        ([.connect host port resolve,
          .send ([0, if (({} : Env).connect host port resolve).failed then 92 else 90]
            ++ [1, 187, 0, 0, 0, 42])] ++
        (if (({} : Env).connect host port resolve).failed = false ∧
            ({ rx := [] } : Client).wr 0 = true
          then [.relay] else [])) :=
  (socks4_reply_code {} {} 4 1
    { rx := [1, 187, 0, 0, 0, 42] ++ ascii "userid" ++ [0] ++ ascii "example.com" ++ [0] }
    { rx := ascii "userid" ++ [0] ++ ascii "example.com" ++ [0] }
    { rx := ascii "example.com" ++ [0] } { rx := [] }
    [1, 187, 0, 0, 0, 42] (ascii "userid") (ascii "example.com")
    (by rfl) (by rfl) (by rfl)).2.2 (Or.inl rfl) rfl

theorem async_read_take (n : Nat) (c c1 : Client) (b : List Byte)
    (h : async_read n c = some (b, c1)) : b = c.rx.take n := by
  unfold async_read at h
  split at h
  · simp only [Option.some.injEq, Prod.mk.injEq] at h
    exact h.1.symm
  · simp at h

/-- C14: the format of the SOCKS4 reply. Every reply `socks_connect_v4` writes, whatever its
code, is 8 octets long: `00`, the code (90, 91, 92 or 93), then the six octets DSTPORT DSTIP
of the request in the order they were received. -/
theorem socks4_reply_format (opt : proxy_server_option) (env : Env) (buf : List Byte)
    (c : Client) (w : List Byte) (hw : Event.send w ∈ socks_connect_v4 opt env buf c) :
    w.length = 8 ∧
    ∃ code : Byte, (code = 90 ∨ code = 91 ∨ code = 92 ∨ code = 93) ∧
      w = [0, code] ++ c.rx.take 6 := by
  cases h1 : async_read 6 c with
  | none => simp [socks_connect_v4, h1] at hw
  | some r1 =>
    obtain ⟨b1, c1⟩ := r1
    have hl := async_read_length 6 c c1 b1 h1
    have hb := async_read_take 6 c c1 b1 h1
    rw [← hb]
    cases h2 : async_read_until_null c1 with
    | none => simp [socks_connect_v4, h1, h2] at hw
    | some r2 =>
      obtain ⟨userid, c2⟩ := r2
      cases h3 : (if decide (0xff > read_uint32 (b1.drop 2) ^^^ 0x000000ff) = true
          then async_read_until_null c2 else some ([], c2)) with
      | none =>
        unfold socks_connect_v4 at hw
        rw [h1] at hw
        simp only [] at hw
        rw [h2] at hw
        simp only [] at hw
        rw [h3] at hw
        simp at hw
      | some r3 =>
        obtain ⟨hostname, c3⟩ := r3
        rw [socks_connect_v4_request opt env buf c c1 c2 c3 b1 userid hostname h1 h2 h3] at hw
        have hcode : ∀ (p : Prop) [Decidable p], w = [0, if p then 92 else 90] ++ b1 →
            w = [0, 92] ++ b1 ∨ w = [0, 90] ++ b1 := by
          intro p _ h
          by_cases hp : p
          · rw [if_pos hp] at h; exact Or.inl h
          · rw [if_neg hp] at h; exact Or.inr h
        have hcases : w = [0, 93] ++ b1 ∨ w = [0, 91] ++ b1 ∨ w = [0, 92] ++ b1 ∨
            w = [0, 90] ++ b1 := by
          simp only [List.mem_append] at hw
          rcases hw with hw | hw
          · split at hw <;> simp at hw
          · split at hw
            · simp only [List.mem_singleton, Event.send.injEq] at hw
              exact Or.inl hw
            · split at hw
              · simp only [List.mem_singleton, Event.send.injEq] at hw
                exact Or.inr (Or.inl hw)
              · simp only [List.mem_append, List.mem_cons, List.mem_singleton,
                  Event.send.injEq, reduceCtorEq, false_or, List.not_mem_nil, or_false] at hw
                rcases hw with hw | hw
                · exact Or.inr (Or.inr (hcode _ hw))
                · split at hw <;> simp at hw
        rcases hcases with h | h | h | h <;> subst h
        · exact ⟨by simp [hl], 93, by decide, rfl⟩
        · exact ⟨by simp [hl], 91, by decide, rfl⟩
        · exact ⟨by simp [hl], 92, by decide, rfl⟩
        · exact ⟨by simp [hl], 90, by decide, rfl⟩

/-- Witness of C14: the request `04 01 01 BB 00 00 00 2A "userid" 00 "example.com" 00` with a
successful connect is answered `00 5A 01 BB 00 00 00 2A`. -/
theorem socks4_reply_format_witness :
    Event.send [0x00, 0x5A, 0x01, 0xBB, 0x00, 0x00, 0x00, 0x2A] ∈
      socks_connect_v4 {} {} [4, 1]
        { rx := [1, 187, 0, 0, 0, 42] ++ ascii "userid" ++ [0] ++ ascii "example.com" ++ [0] } ∧
    ([0x00, 0x5A, 0x01, 0xBB, 0x00, 0x00, 0x00, 0x2A] : List Byte).length = 8 ∧
    ∃ code : Byte, (code = 90 ∨ code = 91 ∨ code = 92 ∨ code = 93) ∧
      ([0x00, 0x5A, 0x01, 0xBB, 0x00, 0x00, 0x00, 0x2A] : List Byte) =
        [0, code] ++ ([1, 187, 0, 0, 0, 42] ++ ascii "userid" ++ [0] ++ ascii "example.com"
          ++ [0] : List Byte).take 6 :=
  ⟨by decide,
   socks4_reply_format {} {} [4, 1]
    { rx := [1, 187, 0, 0, 0, 42] ++ ascii "userid" ++ [0] ++ ascii "example.com" ++ [0] }
    [0x00, 0x5A, 0x01, 0xBB, 0x00, 0x00, 0x00, 0x2A] (by decide)⟩

/-- C15: SOCKS4a detection. The flag `0xff > (v XOR 0x000000ff)` is true exactly when
`1 <= v <= 255`, that is when DSTIP is 0.0.0.x with x not 0. For a `CONNECT` of an allowed
user: when DSTIP has this form the host name is read after the user id and the connect is
made to that name with resolution; otherwise no host name is read and the connect is made
to the literal DSTIP without resolution. -/
theorem socks4a_detection (opt : proxy_server_option) (env : Env) (vn : Byte)
    (c c1 c2 : Client) (b1 userid : List Byte)
    (h1 : async_read 6 c = some (b1, c1))
    (h2 : async_read_until_null c1 = some (userid, c2))
    (hk : opt.auth_users_ = [] ∨ userid ∈ opt.auth_users_.map Prod.fst) :
    (∀ v : Nat, decide (0xff > v ^^^ 0x000000ff) = true ↔ (1 ≤ v ∧ v ≤ 255)) ∧
    ((1 ≤ read_uint32 (b1.drop 2) ∧ read_uint32 (b1.drop 2) ≤ 255) →
      ∀ (hostname : List Byte) (c3 : Client),
        async_read_until_null c2 = some (hostname, c3) →
        ∃ tail, socks_connect_v4 opt env [vn, 1] c =
          [.recv b1, .recv (userid ++ [0]), .recv (hostname ++ [0]),
            .connect (.name hostname) (read_uint16 b1) true] ++ tail) ∧
    (¬ (1 ≤ read_uint32 (b1.drop 2) ∧ read_uint32 (b1.drop 2) ≤ 255) →
      ∃ tail, socks_connect_v4 opt env [vn, 1] c =
        [.recv b1, .recv (userid ++ [0]),
          .connect (.ip (.v4 (read_uint32 (b1.drop 2)))) (read_uint16 b1) false] ++ tail) := by
  have hflag : ∀ v : Nat, decide (0xff > v ^^^ 0x000000ff) = true ↔ (1 ≤ v ∧ v ≤ 255) := by
    intro v
    rw [decide_eq_true_iff]
    exact socks4a_flag v
  have hv := (verify_userid_iff userid opt.auth_users_).2 hk
  have hc : read_int8 (([vn, 1] : List Byte).getD 1 0) = SOCKS_CMD_CONNECT := rfl
  refine ⟨hflag, fun hr hostname c3 h3 => ?_, fun hr => ?_⟩
  · have hf := (hflag _).2 hr
    have h3' : (if decide (0xff > read_uint32 (b1.drop 2) ^^^ 0x000000ff) = true
        then async_read_until_null c2 else some ([], c2)) = some (hostname, c3) := by
      rw [if_pos hf, h3]
    rw [socks_connect_v4_request opt env [vn, 1] c c1 c2 c3 b1 userid hostname h1 h2 h3']
    simp only [hf, if_true, hv, hc, ne_eq, not_true_eq_false, if_false, Bool.true_eq_false]
    exact ⟨_, rfl⟩
  · have hf : decide (0xff > read_uint32 (b1.drop 2) ^^^ 0x000000ff) = false := by
      cases h : decide (0xff > read_uint32 (b1.drop 2) ^^^ 0x000000ff)
      · rfl
      · exact absurd ((hflag _).1 h) hr
    have h3' : (if decide (0xff > read_uint32 (b1.drop 2) ^^^ 0x000000ff) = true
        then async_read_until_null c2 else some ([], c2)) = some ([], c2) := by
      rw [hf]; rfl
    rw [socks_connect_v4_request opt env [vn, 1] c c1 c2 c2 b1 userid [] h1 h2 h3']
    simp only [hf, Bool.false_eq_true, if_false, hv, hc, ne_eq, not_true_eq_false,
      Bool.true_eq_false]
    exact ⟨_, rfl⟩

/-- Witness of C15: DSTIP 0.0.0.42 reads `example.com`; DSTIP 1.2.3.4 is used as it is. -/
theorem socks4a_detection_witness :
    (∃ tail, socks_connect_v4 {} {} [4, 1]
        { rx := [1, 187, 0, 0, 0, 42] ++ ascii "userid" ++ [0] ++ ascii "example.com" ++ [0] } =
      [.recv [1, 187, 0, 0, 0, 42], .recv (ascii "userid" ++ [0]),
        .recv (ascii "example.com" ++ [0]),
        .connect (.name (ascii "example.com")) (read_uint16 [1, 187, 0, 0, 0, 42]) true]
        ++ tail) ∧
    (∃ tail, socks_connect_v4 {} {} [4, 1]
        { rx := [1, 187, 1, 2, 3, 4] ++ ascii "userid" ++ [0] } =
      [.recv [1, 187, 1, 2, 3, 4], .recv (ascii "userid" ++ [0]),
        .connect (.ip (.v4 (read_uint32 (([1, 187, 1, 2, 3, 4] : List Byte).drop 2))))
          (read_uint16 [1, 187, 1, 2, 3, 4]) false] ++ tail) :=
  ⟨(socks4a_detection {} {} 4
      { rx := [1, 187, 0, 0, 0, 42] ++ ascii "userid" ++ [0] ++ ascii "example.com" ++ [0] }
      { rx := ascii "userid" ++ [0] ++ ascii "example.com" ++ [0] }
      { rx := ascii "example.com" ++ [0] }
      [1, 187, 0, 0, 0, 42] (ascii "userid") (by rfl) (by rfl) (Or.inl rfl)).2.1
      (by decide) (ascii "example.com") { rx := [] } (by rfl),
   (socks4a_detection {} {} 4
      { rx := [1, 187, 1, 2, 3, 4] ++ ascii "userid" ++ [0] }
      { rx := ascii "userid" ++ [0] } { rx := [] }
      [1, 187, 1, 2, 3, 4] (ascii "userid") (by rfl) (by rfl) (Or.inl rfl)).2.2 (by decide)⟩

/-! ## SOCKS5: boundary cases of the greeting and of the request -/

theorem socks_connect_v5_nmethods_high (opt : proxy_server_option) (env : Env) (ver n : Byte)
    (c : Client) (hn : n = 0 ∨ 128 ≤ n.val) :
    socks_connect_v5 opt env [ver, n] c = [] := by
  have hlt := n.isLt
  have hg : read_int8 n ≤ 0 ∨ read_int8 n > 255 := by
    left
    unfold read_int8
    rcases hn with h | h
    · subst h; decide
    · rw [if_neg (by omega)]; omega
  unfold socks_connect_v5
  simp only [List.getD_cons_zero, List.getD_cons_succ]
  rw [if_pos hg]

set_option maxRecDepth 100000 in
/-- C16, the code at the failing input: a greeting `05 80` followed by 128 method octets
(all `00`). `NMETHODS` is read as a signed octet, so 128 becomes -128: the session ends
after the first two octets, no method octet is read and no reply is written. -/
theorem nmethods_128_rejected :
    start_proxy {} {} { rx := [5, 128] ++ List.replicate 128 0 } = [.recv [5, 128]] := by
  rfl

theorem socks5_request_other_command (env : Env) (c c1 c2 : Client) (b1 b2 : List Byte)
    (h1 : async_read 5 c = some (b1, c1))
    (hver : read_int8 (b1.getD 0 0) = SOCKS_VERSION_5)
    (hc1 : read_int8 (b1.getD 1 0) ≠ SOCKS_CMD_CONNECT)
    (hc3 : read_int8 (b1.getD 1 0) ≠ SOCKS5_CMD_UDP)
    (h2 : async_read (socks5_addr_length (read_int8 (b1.getD 3 0)) (b1.getD 4 0)).toNat c1 =
      some (b2, c2)) :
    ∃ bnd : List Byte, socks5_request env c = [.recv b1, .recv b2, .send ([5, 0, 0] ++ bnd)] := by
  have h5 : u8 SOCKS_VERSION_5 = 5 := by decide
  have h0 : u8 SOCKS5_SUCCEEDED = 0 := by decide
  have k0 : u8 0 = 0 := by decide
  unfold socks5_request
  rw [h1]
  simp only [hver, ne_eq, not_true_eq_false, if_false, hc1, hc3]
  rw [h2]
  simp only []
  generalize (socks5_target _ _ _).1 = ep
  refine ⟨write_endpoint ep, ?_⟩
  unfold socks5_reply
  simp only [socks5_error_code, ErrorCode.failed, async_write, h5, h0, k0, hc1]
  cases c2.wr 0 <;> simp [h0]

/-- C17, the code at the failing input: after the greeting `05 01 00`, the request
`05 01 00 03 00 00 50` (`CONNECT`, domain name of length 0, port 80). The request is not
rejected: the connector is called with the empty name, port 80 and `resolve = true`, and
when it leaves no error the reply `05 00 00 01 00 00 00 00 00 00` is written and the relay
runs. -/
theorem empty_domain_connects :
    start_proxy {} {} { rx := [5, 1, 0, 5, 1, 0, 3, 0, 0, 80] } =
      [.recv [5, 1], .recv [0], .send [5, 0], .recv [5, 1, 0, 3, 0], .recv [0, 80],
        .connect (.name []) 80 true, .send [5, 0, 0, 1, 0, 0, 0, 0, 0, 0], .relay] := by
  decide

/-- C18, the code at the failing input: after the greeting `05 01 00`, the request
`05 02 00 01 7F 00 00 01 00 50` (`BIND` to 127.0.0.1:80). No connect, UDP socket or relay is
started, but the reply written is `05 00 00 01 7F 00 00 01 00 50`: its `REP` octet is `00`
(succeeded), not `07`. -/
theorem bind_replies_success :
    start_proxy {} {} { rx := [5, 1, 0, 5, 2, 0, 1, 127, 0, 0, 1, 0, 80] } =
      [.recv [5, 1], .recv [0], .send [5, 0], .recv [5, 2, 0, 1, 127],
        .recv [0, 0, 1, 0, 80], .send [5, 0, 0, 1, 127, 0, 0, 1, 0, 80]] := by
  decide

/-! ## HTTP `CONNECT`: the tunnel is opened -/

/-- The port of a `CONNECT` whose port text is 2^63: `std::atol` gives `LONG_MAX` and the
cast to 16 bits leaves 65535. -/
theorem http_connect_port_saturates :
    (http_proxy_connect {} {}
        { rx := [],
          http := [some { method := ascii "CONNECT",
                          target := ascii "example.com:9223372036854775808" }] }).1 =
      [.http_recv { method := ascii "CONNECT",
                    target := ascii "example.com:9223372036854775808" },
        .connect (.name (ascii "example.com")) 65535 true,
        .respond { status := 200, version := 11, reason := ascii "Connection established" },
        .relay] := by
  decide

/-! ## HTTP forward proxy: the request written upstream -/

theorem any_filter_of_imp {α : Type} (l : List α) (p q : α → Bool)
    (h : ∀ x, p x = true → q x = true) : (l.filter q).any p = l.any p := by
  induction l with
  | nil => rfl
  | cons a rest ih =>
    cases hq : q a <;> cases hp : p a
    · rw [List.filter_cons, if_neg (by rw [hq]; decide), ih, List.any_cons, hp]; rfl
    · rw [h a hp] at hq; cases hq
    · rw [List.filter_cons, if_pos hq, List.any_cons, List.any_cons, ih]
    · rw [List.filter_cons, if_pos hq, List.any_cons, List.any_cons, ih]

theorem find_filter_of_imp {α : Type} (l : List α) (p q : α → Bool)
    (h : ∀ x, p x = true → q x = true) : (l.filter q).find? p = l.find? p := by
  induction l with
  | nil => rfl
  | cons a rest ih =>
    cases hq : q a <;> cases hp : p a
    · rw [List.filter_cons, if_neg (by rw [hq]; decide), ih, List.find?_cons, hp]
    · rw [h a hp] at hq; cases hq
    · rw [List.filter_cons, if_pos hq, List.find?_cons, List.find?_cons, hp, ih]
    · rw [List.filter_cons, if_pos hq, List.find?_cons, List.find?_cons, hp]

theorem filter_filter_of_imp {α : Type} (l : List α) (p q : α → Bool)
    (h : ∀ x, p x = true → q x = true) : (l.filter q).filter p = l.filter p := by
  induction l with
  | nil => rfl
  | cons a rest ih =>
    cases hq : q a <;> cases hp : p a
    · rw [List.filter_cons, if_neg (by rw [hq]; decide), ih, List.filter_cons,
        if_neg (by rw [hp]; decide)]
    · rw [h a hp] at hq; cases hq
    · rw [List.filter_cons, if_pos hq, List.filter_cons, if_neg (by rw [hp]; decide),
        List.filter_cons, if_neg (by rw [hp]; decide), ih]
    · rw [List.filter_cons, if_pos hq, List.filter_cons, if_pos hp, List.filter_cons,
        if_pos hp, ih]

theorem field_ne_of_eq (f g : Field) (h : f ≠ g) (x : Field × List Byte) :
    decide (x.1 = f) = true → decide (x.1 ≠ g) = true := by
  intro hx
  have hx := of_decide_eq_true hx
  exact decide_eq_true (fun e => h (hx ▸ e))

theorem any_filter_ne (fs : List (Field × List Byte)) (f g : Field) (h : f ≠ g) :
    (fs.filter (fun p => decide (p.1 ≠ g))).any (fun p => decide (p.1 = f)) =
      fs.any (fun p => decide (p.1 = f)) :=
  any_filter_of_imp fs _ _ (field_ne_of_eq f g h)

theorem find_filter_ne (fs : List (Field × List Byte)) (f g : Field) (h : f ≠ g) :
    (fs.filter (fun p => decide (p.1 ≠ g))).find? (fun p => decide (p.1 = f)) =
      fs.find? (fun p => decide (p.1 = f)) :=
  find_filter_of_imp fs _ _ (field_ne_of_eq f g h)

theorem filter_eq_filter_ne (fs : List (Field × List Byte)) (f g : Field) (h : f ≠ g) :
    (fs.filter (fun p => decide (p.1 ≠ g))).filter (fun p => decide (p.1 = f)) =
      fs.filter (fun p => decide (p.1 = f)) :=
  filter_filter_of_imp fs _ _ (field_ne_of_eq f g h)

theorem find_none_of_any_false (fs : List (Field × List Byte)) (f : Field)
    (h : fs.any (fun p => decide (p.1 = f)) = false) :
    fs.find? (fun p => decide (p.1 = f)) = none := by
  induction fs with
  | nil => rfl
  | cons a rest ih =>
    simp only [List.any_cons, Bool.or_eq_false_iff] at h
    simp [List.find?_cons, h.1, ih h.2]

theorem filter_nil_of_any_false (fs : List (Field × List Byte)) (f : Field)
    (h : fs.any (fun p => decide (p.1 = f)) = false) :
    fs.filter (fun p => decide (p.1 = f)) = [] := by
  induction fs with
  | nil => rfl
  | cons a rest ih =>
    simp only [List.any_cons, Bool.or_eq_false_iff] at h
    simp [List.filter_cons, h.1, ih h.2]


theorem Request.set_has_ne (req : Request) (f g : Field) (v : List Byte) (h : f ≠ g) :
    (req.set g v).has f = req.has f := by
  have hf : decide ((g, v).1 = f) = false := decide_eq_false (fun e => h e.symm)
  simp only [Request.set, Request.has, List.any_append, any_filter_ne req.fields f g h,
    List.any_cons, List.any_nil, hf, Bool.or_false]

theorem Request.set_get_ne (req : Request) (f g : Field) (v : List Byte) (h : f ≠ g) :
    (req.set g v).get f = req.get f := by
  have hf : decide ((g, v).1 = f) = false := decide_eq_false (fun e => h e.symm)
  simp only [Request.set, Request.get, List.find?_append, find_filter_ne req.fields f g h,
    List.find?_cons, List.find?_nil, hf]
  cases List.find? (fun p => decide (p.1 = f)) req.fields <;> rfl

theorem Request.set_filter_ne (req : Request) (f g : Field) (v : List Byte) (h : f ≠ g) :
    (req.set g v).fields.filter (fun p => decide (p.1 = f)) =
      req.fields.filter (fun p => decide (p.1 = f)) := by
  have hf : ¬ (decide ((g, v).1 = f) = true) := by
    rw [decide_eq_true_iff]; exact fun e => h e.symm
  simp only [Request.set, List.filter_append, filter_eq_filter_ne req.fields f g h,
    List.filter_cons, if_neg hf, List.filter_nil, List.append_nil]

theorem Request.set_filter_eq (req : Request) (g : Field) (v : List Byte) :
    (req.set g v).fields.filter (fun p => decide (p.1 = g)) = [(g, v)] := by
  have h0 : (req.fields.filter (fun p => decide (p.1 ≠ g))).filter (fun p => decide (p.1 = g))
      = [] := by
    rw [List.filter_filter, List.filter_eq_nil_iff]
    intro a _
    by_cases e : a.1 = g <;> simp [e]
  have hf : decide ((g, v).1 = g) = true := decide_eq_true rfl
  simp only [Request.set, List.filter_append, h0, List.filter_cons, List.filter_nil,
    List.nil_append]
  rfl

theorem Request.erase_filter_ne (req : Request) (f g : Field) (h : f ≠ g) :
    (req.erase g).fields.filter (fun p => decide (p.1 = f)) =
      req.fields.filter (fun p => decide (p.1 = f)) := by
  simp only [Request.erase, filter_eq_filter_ne req.fields f g h]

theorem Request.erase_filter_eq (req : Request) (g : Field) :
    (req.erase g).fields.filter (fun p => decide (p.1 = g)) = [] := by
  simp only [Request.erase]
  rw [List.filter_filter, List.filter_eq_nil_iff]
  intro a _
  by_cases e : a.1 = g <;> simp [e]

theorem Request.has_eq_filter (req : Request) (f : Field) :
    req.has f = !(req.fields.filter (fun p => decide (p.1 = f))).isEmpty := by
  unfold Request.has
  induction req.fields with
  | nil => rfl
  | cons a rest ih =>
    cases hp : decide (a.1 = f)
    · rw [List.any_cons, hp, List.filter_cons, if_neg (by rw [hp]; decide), ← ih]; rfl
    · rw [List.any_cons, hp, List.filter_cons, if_pos hp]; rfl

theorem Request.get_eq_filter (req : Request) (f : Field) :
    req.get f = match (req.fields.filter (fun p => decide (p.1 = f))).head? with
      | some p => p.2
      | none => [] := by
  unfold Request.get
  induction req.fields with
  | nil => rfl
  | cons a rest ih =>
    cases hp : decide (a.1 = f)
    · rw [List.find?_cons, hp, List.filter_cons, if_neg (by rw [hp]; decide)]; exact ih
    · rw [List.find?_cons, hp, List.filter_cons, if_pos hp]; rfl


theorem rewrite_headers_filter (r0 : Request) (h : List Byte) (f : Field) :
    (((if (!(r0.set .host h).has .connection && (r0.set .host h).has .proxy_connection) = true
        then (r0.set .host h).set .connection ((r0.set .host h).get .proxy_connection)
        else r0.set .host h).erase .proxy_authorization).erase .proxy_connection).fields.filter
        (fun p => decide (p.1 = f)) =
      if f = .host then [(.host, h)]
      else if f = .proxy_authorization ∨ f = .proxy_connection then []
      else if f = .connection ∧ r0.has .connection = false ∧ r0.has .proxy_connection = true
        then [(.connection, r0.get .proxy_connection)]
      else r0.fields.filter (fun p => decide (p.1 = f)) := by
  rw [Request.set_has_ne r0 .connection .host h (by decide),
    Request.set_has_ne r0 .proxy_connection .host h (by decide),
    Request.set_get_ne r0 .proxy_connection .host h (by decide)]
  by_cases hpc : f = .proxy_connection
  · subst hpc
    rw [Request.erase_filter_eq]
    simp
  by_cases hpa : f = .proxy_authorization
  · subst hpa
    rw [Request.erase_filter_ne _ _ _ (by decide), Request.erase_filter_eq]
    simp
  rw [Request.erase_filter_ne _ _ _ hpc, Request.erase_filter_ne _ _ _ hpa]
  by_cases hh : f = .host
  · subst hh
    rw [if_pos rfl]
    split
    · rw [Request.set_filter_ne _ _ _ _ (by decide), Request.set_filter_eq]
    · rw [Request.set_filter_eq]
  rw [if_neg hh, if_neg (show ¬(f = .proxy_authorization ∨ f = .proxy_connection) from
    fun e => e.elim hpa hpc)]
  by_cases hc : f = .connection
  · subst hc
    cases h1 : r0.has .connection <;> cases h2 : r0.has .proxy_connection
    · simp [Request.set_filter_ne _ _ _ _ hh]
    · simp [Request.set_filter_eq]
    · simp [Request.set_filter_ne _ _ _ _ hh]
    · simp [Request.set_filter_ne _ _ _ _ hh]
  · rw [if_neg (show ¬(f = .connection ∧ r0.has .connection = false ∧
      r0.has .proxy_connection = true) from fun e => hc e.1)]
    split
    · rw [Request.set_filter_ne _ _ _ _ hc, Request.set_filter_ne _ _ _ _ hh]
    · rw [Request.set_filter_ne _ _ _ _ hh]

theorem rewrite_request_filter (req : Request) (url : Url) (f : Field) :
    (rewrite_request req url).fields.filter (fun p => decide (p.1 = f)) =
      if f = .host then [(.host, url.host)]
      else if f = .proxy_authorization ∨ f = .proxy_connection then []
      else if f = .connection ∧ req.has .connection = false ∧ req.has .proxy_connection = true
        then [(.connection, req.get .proxy_connection)]
      else req.fields.filter (fun p => decide (p.1 = f)) := by
  unfold rewrite_request
  simp only []
  split
  · rw [rewrite_headers_filter]; rfl
  · rw [rewrite_headers_filter]; rfl

theorem rewrite_request_rest (req : Request) (url : Url) :
    (rewrite_request req url).target =
      (if url.path = [] then [47] else url.path) ++
        (if url.query = [] then []
         else if url.query.head? = some 63 then url.query else 63 :: url.query) ∧
    (rewrite_request req url).method = req.method ∧
    (rewrite_request req url).body = req.body ∧
    (rewrite_request req url).version = req.version := by
  unfold rewrite_request
  simp only [Request.erase]
  by_cases hp : url.path = [] <;> by_cases hq : url.query = [] <;>
    by_cases h63 : url.query.head? = some 63 <;>
    simp only [hp, hq, h63, if_true, if_false, ne_eq, not_true_eq_false, not_false_eq_true] <;>
    split <;> simp [Request.set]


theorem http_proxy_get_loop_sends (opt : proxy_server_option) (env : Env) (req : Request)
    (url : Url) (more : List (Option Request)) (wr : Nat → Bool) (first remote_open : Bool)
    (k : Nat)
    (hauth : http_proxy_authorization opt (req.get .proxy_authorization) = PROXY_AUTH_SUCCESS)
    (hurl : env.parse_uri req.target = some url)
    (hconn : remote_open = false →
      (env.connect (.name url.host)
        (if (if url.port_number = 0 then url.default_port else url.port_number) ≠ 0
          then (if url.port_number = 0 then url.default_port else url.port_number) else 80)
        true).failed = false) :
    Event.upstream_send (rewrite_request req url) ∈
      (http_proxy_get_loop opt env (some req :: more) wr first remote_open k).1 := by
  unfold http_proxy_get_loop
  simp only [hauth, hurl, ne_eq, not_true_eq_false, Option.isNone_some, Bool.false_eq_true,
    or_self, if_false, Option.getD_some]
  cases remote_open
  · simp only [hconn rfl, Bool.not_false, Bool.false_eq_true, and_false, if_false]
    repeat' split
    all_goals simp
  · simp only [Bool.not_true, Bool.false_eq_true, false_and, if_false]
    repeat' split
    all_goals simp

/-- C20, as amended: the request `http_proxy_get` writes upstream. Every request written
upstream comes from a request `req` of the client that is authorised and whose target
parses as an absolute URI `url`, and an authorised first request with such a target whose
connect leaves no error is written upstream. The written request has as target the path
(`/` when the path is empty) followed by the query: nothing when the query is empty, the
query itself when it already begins with `?`, and `?` followed by the query otherwise. Its
only `Host` field is the host of the URI; it has no `Proxy-Authorization` and no
`Proxy-Connection` field; its `Connection` fields are those of `req` when `req` has one,
the single value of `Proxy-Connection` of `req` when `req` has no `Connection` but a
`Proxy-Connection`, and none otherwise; method, body, version and every other header field
are those of `req`. -/
theorem http_get_rewrite (opt : proxy_server_option) (env : Env) (c : Client) :
    (∀ q, Event.upstream_send q ∈ (http_proxy_get opt env c).1 →
      ∃ req url, some req ∈ c.http ∧ env.parse_uri req.target = some url ∧
        http_proxy_authorization opt (req.get .proxy_authorization) = PROXY_AUTH_SUCCESS ∧
        q = rewrite_request req url ∧
        q.target = (if url.path = [] then [47] else url.path) ++
          (if url.query = [] then []
           else if url.query.head? = some 63 then url.query else 63 :: url.query) ∧
        q.fields.filter (fun p => decide (p.1 = .host)) = [(.host, url.host)] ∧
        q.get .host = url.host ∧
        q.has .proxy_authorization = false ∧ q.has .proxy_connection = false ∧
        (req.has .connection = true →
          q.fields.filter (fun p => decide (p.1 = .connection)) =
            req.fields.filter (fun p => decide (p.1 = .connection)) ∧
          q.get .connection = req.get .connection) ∧
        (req.has .connection = false → req.has .proxy_connection = true →
          q.fields.filter (fun p => decide (p.1 = .connection)) =
            [(.connection, req.get .proxy_connection)] ∧
          q.get .connection = req.get .proxy_connection) ∧
        (req.has .connection = false → req.has .proxy_connection = false →
          q.has .connection = false) ∧
        q.method = req.method ∧ q.body = req.body ∧ q.version = req.version ∧
        ∀ name, q.fields.filter (fun p => decide (p.1 = .other name)) =
          req.fields.filter (fun p => decide (p.1 = .other name))) ∧
    (∀ req url more, c.http = some req :: more →
      http_proxy_authorization opt (req.get .proxy_authorization) = PROXY_AUTH_SUCCESS →
      env.parse_uri req.target = some url →
      (env.connect (.name url.host)
        (if (if url.port_number = 0 then url.default_port else url.port_number) ≠ 0
          then (if url.port_number = 0 then url.default_port else url.port_number) else 80)
        true).failed = false →
      Event.upstream_send (rewrite_request req url) ∈ (http_proxy_get opt env c).1) := by
  constructor
  · intro q hq
    obtain ⟨req, url, hmem, hurl, hauth, rfl⟩ :=
      http_proxy_get_loop_upstream opt env c.http c.wr true false 0 q hq
    have hrest := rewrite_request_rest req url
    have hf := rewrite_request_filter req url
    refine ⟨req, url, hmem, hurl, hauth, rfl, hrest.1, ?_, ?_, ?_, ?_, ?_, ?_, ?_,
      hrest.2.1, hrest.2.2.1, hrest.2.2.2, ?_⟩
    · rw [hf]; rfl
    · rw [Request.get_eq_filter, hf]; rfl
    · rw [Request.has_eq_filter, hf]; rfl
    · rw [Request.has_eq_filter, hf]; rfl
    · intro hc
      have e : (rewrite_request req url).fields.filter (fun p => decide (p.1 = .connection)) =
          req.fields.filter (fun p => decide (p.1 = .connection)) := by
        rw [hf, if_neg (by decide), if_neg (by decide), if_neg (by simp [hc])]
      exact ⟨e, by rw [Request.get_eq_filter, e, ← Request.get_eq_filter]⟩
    · intro hc hpc
      have e : (rewrite_request req url).fields.filter (fun p => decide (p.1 = .connection)) =
          [(.connection, req.get .proxy_connection)] := by
        rw [hf, if_neg (by decide), if_neg (by decide), if_pos ⟨rfl, hc, hpc⟩]
      exact ⟨e, by rw [Request.get_eq_filter, e]; rfl⟩
    · intro hc hpc
      rw [Request.has_eq_filter, hf, if_neg (by decide), if_neg (by decide),
        if_neg (by simp [hpc]), ← Request.has_eq_filter, hc]
    · intro name
      rw [hf, if_neg (by simp), if_neg (by simp), if_neg (by simp)]
  · intro req url more hc hauth hurl hconn
    unfold http_proxy_get
    rw [hc]
    exact http_proxy_get_loop_sends opt env req url more c.wr true false 0 hauth hurl
      (fun _ => hconn)


/-- Witness of C20 as amended: `GET http://origin.test/path?x=1` with `Host: origin.test`
and a `Proxy-Connection` field is written upstream as `GET /path?x=1` with the single field
`Host: origin.test` and the `Connection` field taken from `Proxy-Connection`. -/
theorem http_get_rewrite_witness :
    Event.upstream_send
        { method := ascii "GET", target := ascii "/path?x=1",
          fields := [(.host, ascii "origin.test"), (.connection, ascii "keep-alive")] } ∈
      (http_proxy_get {}
        { parse_uri := fun _ =>
            some { default_port := 80, host := ascii "origin.test", path := ascii "/path",
                   query := ascii "x=1" } }
        { rx := [],
          http := [some { method := ascii "GET", target := ascii "http://origin.test/path?x=1",
                          fields := [(.proxy_connection, ascii "keep-alive"),
                                     (.host, ascii "origin.test")] }] }).1 :=
  (http_get_rewrite {}
    { parse_uri := fun _ =>
        some { default_port := 80, host := ascii "origin.test", path := ascii "/path",
               query := ascii "x=1" } }
    { rx := [],
      http := [some { method := ascii "GET", target := ascii "http://origin.test/path?x=1",
                      fields := [(.proxy_connection, ascii "keep-alive"),
                                 (.host, ascii "origin.test")] }] }).2
    _ _ _ rfl rfl rfl rfl

/-- Counterexample to C20 as stated: the URI `http://origin.test/path??x=1` has path
`/path` and query `?x=1`; the request written upstream has target `/path?x=1`, the query
appended as it is, not `/path` followed by `?` and the query, which is `/path??x=1`. -/
theorem http_get_rewrite_counterexample :
    (http_proxy_get {}
      { parse_uri := fun _ =>
          some { default_port := 80, host := ascii "origin.test", path := ascii "/path",
                 query := ascii "?x=1" } }
      { rx := [],
        http := [some { method := ascii "GET",
                        target := ascii "http://origin.test/path??x=1" }] }).1 =
      [.http_recv { method := ascii "GET", target := ascii "http://origin.test/path??x=1" },
        .connect (.name (ascii "origin.test")) 80 true,
        .upstream_send { method := ascii "GET", target := ascii "/path?x=1",
                         fields := [(.host, ascii "origin.test")] }] ∧
    ascii "/path?x=1" ≠ ascii "/path" ++ ascii "?" ++ ascii "?x=1" := by
  decide

/-! ## HTTP forward proxy: the outbound connection of a keep-alive session -/

theorem http_proxy_get_loop_open_no_connect (opt : proxy_server_option) (env : Env)
    (reqs : List (Option Request)) :
    ∀ (wr : Nat → Bool) (first : Bool) (k : Nat) (host : Host) (port : Nat) (resolve : Bool),
      Event.connect host port resolve ∉ (http_proxy_get_loop opt env reqs wr first true k).1 := by
  induction reqs with
  | nil => intro wr first k host port resolve h; simp [http_proxy_get_loop] at h
  | cons r rest ih =>
    intro wr first k host port resolve h
    cases r with
    | none => simp [http_proxy_get_loop] at h
    | some req =>
      unfold http_proxy_get_loop at h
      simp only [Bool.not_true, Bool.false_eq_true, false_and, if_false] at h
      repeat' split at h
      all_goals first
        | (simp at h; done)
        | (simp only [List.mem_append, List.mem_cons, List.mem_singleton, List.mem_nil_iff,
            or_false, false_or] at h
           rcases h with h | h
           · simp at h
           · exact ih _ _ _ _ _ _ h)


theorem http_proxy_get_loop_close (opt : proxy_server_option) (env : Env) (req : Request)
    (url : Url) (resp : Response) (more : List (Option Request)) (wr : Nat → Bool)
    (first : Bool) (k : Nat)
    (hauth : http_proxy_authorization opt (req.get .proxy_authorization) = PROXY_AUTH_SUCCESS)
    (hurl : env.parse_uri req.target = some url)
    (hw : env.upstream_write k = true) (hr : env.upstream_read k = some resp)
    (hc : wr 0 = true) (hk : req.keep_alive = false) :
    http_proxy_get_loop opt env (some req :: more) wr first true k =
      ([.http_recv req, .upstream_send (rewrite_request req url), .upstream_recv resp,
        .respond resp], true) := by
  unfold http_proxy_get_loop
  simp [hauth, hurl, hw, hr, hc, hk]

/-- C21 at a failing input: a keep-alive session whose first request is for `a.test` and
whose second request is for `b.test`. The only connect of the session is the one to
`a.test:80`; the second request, rewritten with `Host: b.test`, is written on that same
outbound connection, and the response read from it is handed to the client. -/
theorem keep_alive_other_origin_reuses_connection :
    http_proxy_get {}
        { parse_uri := fun t =>
            if t = ascii "http://a.test/" then
              some { default_port := 80, host := ascii "a.test", path := ascii "/" }
            else if t = ascii "http://b.test/" then
              some { default_port := 80, host := ascii "b.test", path := ascii "/" }
            else none,
          upstream_read := fun _ => some { status := 200, version := 11 } }
        { rx := [],
          http := [some { method := ascii "GET", target := ascii "http://a.test/",
                          keep_alive := true },
                   some { method := ascii "GET", target := ascii "http://b.test/",
                          keep_alive := true }] } =
      ([.http_recv { method := ascii "GET", target := ascii "http://a.test/",
                     keep_alive := true },
        .connect (.name (ascii "a.test")) 80 true,
        .upstream_send { method := ascii "GET", target := ascii "/",
                         fields := [(.host, ascii "a.test")], keep_alive := true },
        .upstream_recv { status := 200, version := 11 },
        .respond { status := 200, version := 11 },
        .http_recv { method := ascii "GET", target := ascii "http://b.test/",
                     keep_alive := true },
        .upstream_send { method := ascii "GET", target := ascii "/",
                         fields := [(.host, ascii "b.test")], keep_alive := true },
        .upstream_recv { status := 200, version := 11 },
        .respond { status := 200, version := 11 }], true) := by
  decide

/-! ## The UDP relay -/

theorem forward_udp_frag (env : Env) (client : Address) (d : Datagram)
    (rest : List (Option Datagram)) (read_buffer : List Byte) (local_endp : Endpoint)
    (abort : Nat → Bool) (hs : d.sender.address = client) (ha : abort 0 = false)
    (hf : (d.data.take 1500 ++ read_buffer.drop (d.data.take 1500).length).getD 98 0 ≠ 0) :
    forward_udp env client (some d :: rest) read_buffer local_endp abort =
      forward_udp env client rest
        (d.data.take 1500 ++ read_buffer.drop (d.data.take 1500).length) d.sender
        (fun k => abort (k + 1)) := by
  have hf' : read_uint8 ((d.data.take 1500 ++
      read_buffer.drop (d.data.take 1500).length).getD 98 0) ≠ 0 := by
    intro h
    apply hf
    unfold read_uint8 at h
    apply Fin.ext
    have : ((0 : Byte).val = 0) := rfl
    omega
  rw [forward_udp]
  simp only [ha, Bool.false_eq_true, if_false, hs, if_true]
  rw [if_pos hf']

/-- C22 at a failing input: the client sends the datagram `00 00 00 01 0A 00 00 01 00 35`
followed by 90 octets `FF` (a well-formed header for 10.0.0.1:53 and a payload). Whatever
`read_buffer` held before, the relay sends nothing: the header is read at index 96 of the
buffer, so FRAG is octet 98 of the datagram, `FF`, and the datagram is dropped. -/
theorem udp_unwrap_reads_header_at_96 (read_buffer : List Byte) (local_endp : Endpoint) :
    forward_udp {} (.v4 0xC0A80002)
        [some { data := [0, 0, 0, 1, 10, 0, 0, 1, 0, 53] ++ List.replicate 90 255,
                sender := { address := .v4 0xC0A80002, port := 40000 } }]
        read_buffer local_endp (fun _ => false) = [] := by
  rw [forward_udp_frag {} (.v4 0xC0A80002)
    { data := [0, 0, 0, 1, 10, 0, 0, 1, 0, 53] ++ List.replicate 90 255,
      sender := { address := .v4 0xC0A80002, port := 40000 } } [] read_buffer local_endp
    (fun _ => false) rfl rfl]
  · rfl
  · have h : (([0, 0, 0, 1, 10, 0, 0, 1, 0, 53] ++ List.replicate 90 255 : List Byte).take 1500)
        = [0, 0, 0, 1, 10, 0, 0, 1, 0, 53] ++ List.replicate 90 255 := by decide
    simp only [h]
    rw [List.getD_append _ _ _ _ (by decide)]
    decide


theorem take_append_left (p x : List Byte) (n : Nat) (h : n ≤ p.length) :
    (p ++ x).take n = p.take n := by
  rw [List.take_append_of_le_length h]

theorem drop_append_left (p x : List Byte) (n : Nat) (h : n ≤ p.length) :
    (p ++ x).drop n = p.drop n ++ x := by
  rw [List.drop_append_of_le_length h]

theorem forward_udp_wrap_v4 (env : Env) (client : Address) (data : List Byte) (a port : Nat)
    (rest : List (Option Datagram)) (read_buffer : List Byte) (local_endp : Endpoint)
    (abort : Nat → Bool) (hs : Address.v4 a ≠ client) (ha : abort 0 = false) :
    forward_udp env client
        (some { data := data, sender := { address := .v4 a, port := port } } :: rest)
        read_buffer local_endp abort =
      async_send_to
          (poke (data.take 1500 ++ read_buffer.drop (data.take 1500).length) 86
            ([0, 0, 0, 1] ++ write_uint32 a ++ write_uint16 port))
          86 (((data.take 1500).length : Int) + 10) local_endp ::
        forward_udp env client rest
          (poke (data.take 1500 ++ read_buffer.drop (data.take 1500).length) 86
            ([0, 0, 0, 1] ++ write_uint32 a ++ write_uint16 port))
          local_endp (fun k => abort (k + 1)) := by
  rw [forward_udp]
  simp only [ha, Bool.false_eq_true, if_false, hs]
  rfl

theorem forward_udp_wrap_v6 (env : Env) (client : Address) (data bs : List Byte) (port : Nat)
    (rest : List (Option Datagram)) (read_buffer : List Byte) (local_endp : Endpoint)
    (abort : Nat → Bool) (hs : Address.v6 bs ≠ client) (ha : abort 0 = false) :
    forward_udp env client
        (some { data := data, sender := { address := .v6 bs, port := port } } :: rest)
        read_buffer local_endp abort =
      async_send_to
          (poke (data.take 1500 ++ read_buffer.drop (data.take 1500).length) 74
            ([0, 0, 0, 4] ++ bs ++ write_uint16 port))
          86 (((data.take 1500).length : Int) +
            (((74 + ([0, 0, 0, 4] ++ bs ++ write_uint16 port).length : Nat) : Int) - 86))
          local_endp ::
        forward_udp env client rest
          (poke (data.take 1500 ++ read_buffer.drop (data.take 1500).length) 74
            ([0, 0, 0, 4] ++ bs ++ write_uint16 port))
          local_endp (fun k => abort (k + 1)) := by
  rw [forward_udp]
  simp only [ha, Bool.false_eq_true, if_false, hs]
  rfl


theorem poke_append_left (p x hdr : List Byte) (i : Nat) (h : i + hdr.length ≤ p.length) :
    poke (p ++ x) i hdr = poke p i hdr ++ x := by
  unfold poke
  rw [take_append_left p x i (by omega), drop_append_left p x _ h]
  simp

/-- C23 at a failing input: the client address is 192.168.0.2; after a datagram of the
client (100 octets, dropped) a datagram with payload `pong` arrives from 8.8.8.8:53.
Whatever `read_buffer` held before, the datagram sent to the client is the 10-octet header
followed by `FF FF FF FF`, the octets 96 to 99 of the buffer, which the earlier datagram
left there: the payload `pong`, stored at index 0, is not sent. -/
theorem udp_wrap_sends_stale_octets (read_buffer : List Byte) (local_endp : Endpoint) :
    forward_udp {} (.v4 0xC0A80002)
        [some { data := [0, 0, 0, 1, 10, 0, 0, 1, 0, 53] ++ List.replicate 90 255,
                sender := { address := .v4 0xC0A80002, port := 40000 } },
         some { data := ascii "pong", sender := { address := .v4 0x08080808, port := 53 } }]
        read_buffer local_endp (fun _ => false) =
      [.send_to [0, 0, 0, 1, 8, 8, 8, 8, 0, 53, 255, 255, 255, 255]
        { address := .v4 0xC0A80002, port := 40000 }] := by
  have h1 : (([0, 0, 0, 1, 10, 0, 0, 1, 0, 53] ++ List.replicate 90 255 : List Byte).take 1500)
      = [0, 0, 0, 1, 10, 0, 0, 1, 0, 53] ++ List.replicate 90 255 := by decide
  rw [forward_udp_frag {} (.v4 0xC0A80002)
    { data := [0, 0, 0, 1, 10, 0, 0, 1, 0, 53] ++ List.replicate 90 255,
      sender := { address := .v4 0xC0A80002, port := 40000 } } _ read_buffer local_endp
    (fun _ => false) rfl rfl
    (by simp only [h1]; rw [List.getD_append _ _ _ _ (by decide)]; decide)]
  rw [forward_udp_wrap_v4 {} (.v4 0xC0A80002) (ascii "pong") 0x08080808 53 [] _ _ _
    (by decide) rfl]
  simp only [h1]
  have h2 : ((ascii "pong").take 1500) = ascii "pong" := by decide
  have h3 : (ascii "pong").length = 4 := by decide
  rw [h2, h3, drop_append_left _ _ 4 (by decide), ← List.append_assoc,
    poke_append_left _ _ _ 86 (by decide)]
  unfold async_send_to
  rw [if_pos (by decide)]
  rw [drop_append_left _ _ 86 (by decide), take_append_left _ _ _ (by decide)]
  simp only [forward_udp]
  decide


/-- The IPv6 case of C23: a datagram `pong` from `[::1]:53` after the same datagram of the
client. The 22-octet header is written at index 74 but the send starts at index 86, so the
datagram sent begins with the last eight octets of the address; its first octets are not
`00 00 00 04`, and again the payload is `FF FF FF FF`, not `pong`. -/
theorem udp_wrap_v6_truncates_header (read_buffer : List Byte) (local_endp : Endpoint) :
    forward_udp {} (.v4 0xC0A80002)
        [some { data := [0, 0, 0, 1, 10, 0, 0, 1, 0, 53] ++ List.replicate 90 255,
                sender := { address := .v4 0xC0A80002, port := 40000 } },
         some { data := ascii "pong",
                sender := { address := .v6 (List.replicate 15 0 ++ [1]), port := 53 } }]
        read_buffer local_endp (fun _ => false) =
      [.send_to [0, 0, 0, 0, 0, 0, 0, 1, 0, 53, 255, 255, 255, 255]
        { address := .v4 0xC0A80002, port := 40000 }] := by
  have h1 : (([0, 0, 0, 1, 10, 0, 0, 1, 0, 53] ++ List.replicate 90 255 : List Byte).take 1500)
      = [0, 0, 0, 1, 10, 0, 0, 1, 0, 53] ++ List.replicate 90 255 := by decide
  rw [forward_udp_frag {} (.v4 0xC0A80002)
    { data := [0, 0, 0, 1, 10, 0, 0, 1, 0, 53] ++ List.replicate 90 255,
      sender := { address := .v4 0xC0A80002, port := 40000 } } _ read_buffer local_endp
    (fun _ => false) rfl rfl
    (by simp only [h1]; rw [List.getD_append _ _ _ _ (by decide)]; decide)]
  rw [forward_udp_wrap_v6 {} (.v4 0xC0A80002) (ascii "pong") (List.replicate 15 0 ++ [1]) 53 []
    _ _ _ (by decide) rfl]
  simp only [h1]
  have h2 : ((ascii "pong").take 1500) = ascii "pong" := by decide
  have h3 : (ascii "pong").length = 4 := by decide
  rw [h2, h3, drop_append_left _ _ 4 (by decide), ← List.append_assoc,
    poke_append_left _ _ _ 74 (by decide)]
  unfold async_send_to
  rw [if_pos (by decide)]
  rw [drop_append_left _ _ 86 (by decide), take_append_left _ _ _ (by decide)]
  simp only [forward_udp]
  decide

theorem forward_udp_unwrap_v4 (env : Env) (client : Address) (d : Datagram)
    (rest : List (Option Datagram)) (read_buffer : List Byte) (local_endp : Endpoint)
    (abort : Nat → Bool) (hs : d.sender.address = client) (ha : abort 0 = false)
    (hf : (d.data.take 1500 ++ read_buffer.drop (d.data.take 1500).length).getD 98 0 = 0)
    (ht : (d.data.take 1500 ++ read_buffer.drop (d.data.take 1500).length).getD 99 0 = 1) :
    forward_udp env client (some d :: rest) read_buffer local_endp abort =
      async_send_to (d.data.take 1500 ++ read_buffer.drop (d.data.take 1500).length) 106
          (((d.data.take 1500).length : Int) - 10)
          { address := .v4 (read_uint32
              ((d.data.take 1500 ++ read_buffer.drop (d.data.take 1500).length).drop 100)),
            port := read_uint16
              ((d.data.take 1500 ++ read_buffer.drop (d.data.take 1500).length).drop 104) } ::
        forward_udp env client rest
          (d.data.take 1500 ++ read_buffer.drop (d.data.take 1500).length) d.sender
          (fun k => abort (k + 1)) := by
  rw [forward_udp]
  simp only [ha, Bool.false_eq_true, if_false, hs, if_true, hf, ht]
  rfl

/-- C24 at a failing input: the client sends a datagram of 106 octets whose third octet,
FRAG, is `01`, and whose octets 98 to 105 are `00 01 0A 00 00 02 00 35`. The datagram is
not dropped: FRAG is read at index 98, where it is `00`, and a datagram of 96 octets (the
octets 106 to 201 of the buffer, which lie beyond the datagram received) is sent to
10.0.0.2:53. -/
theorem udp_fragment_forwarded (read_buffer : List Byte) (local_endp : Endpoint) :
    forward_udp {} (.v4 0xC0A80002)
        [some { data := [0, 0, 1, 1, 10, 0, 0, 1, 0, 53] ++ List.replicate 88 9 ++
                  [0, 1, 10, 0, 0, 2, 0, 53],
                sender := { address := .v4 0xC0A80002, port := 40000 } }]
        read_buffer local_endp (fun _ => false) =
      [.send_to ((read_buffer.drop 106).take 96) { address := .v4 0x0A000002, port := 53 }] := by
  have h1 : (([0, 0, 1, 1, 10, 0, 0, 1, 0, 53] ++ List.replicate 88 9 ++
      [0, 1, 10, 0, 0, 2, 0, 53] : List Byte).take 1500) =
      [0, 0, 1, 1, 10, 0, 0, 1, 0, 53] ++ List.replicate 88 9 ++ [0, 1, 10, 0, 0, 2, 0, 53] := by
    decide
  rw [forward_udp_unwrap_v4 {} (.v4 0xC0A80002)
    { data := [0, 0, 1, 1, 10, 0, 0, 1, 0, 53] ++ List.replicate 88 9 ++
        [0, 1, 10, 0, 0, 2, 0, 53],
      sender := { address := .v4 0xC0A80002, port := 40000 } } _ read_buffer local_endp
    (fun _ => false) rfl rfl
    (by simp only [h1]; rw [List.getD_append _ _ _ _ (by decide)]; decide)
    (by simp only [h1]; rw [List.getD_append _ _ _ _ (by decide)]; decide)]
  simp only [h1]
  rw [drop_append_left _ _ 100 (by decide), drop_append_left _ _ 104 (by decide)]
  unfold async_send_to
  rw [if_pos (by decide)]
  have h4 : ([0, 0, 1, 1, 10, 0, 0, 1, 0, 53] ++ List.replicate 88 9 ++
      [0, 1, 10, 0, 0, 2, 0, 53] : List Byte).length = 106 := by decide
  rw [List.drop_append_of_le_length (by decide), h4]
  simp only [forward_udp]
  have h5 : ([0, 0, 1, 1, 10, 0, 0, 1, 0, 53] ++ List.replicate 88 9 ++
      [0, 1, 10, 0, 0, 2, 0, 53] : List Byte).drop 106 = [] := by decide
  rw [h5]
  have h6 : (((106 : Nat) : Int) - 10) % 18446744073709551616 = 96 := by decide
  simp only [h6]
  have h7 : ([0, 0, 1, 1, 10, 0, 0, 1, 0, 53] ++ List.replicate 88 9 ++
      [0, 1, 10, 0, 0, 2, 0, 53] : List Byte).drop 100 = [10, 0, 0, 2, 0, 53] := by decide
  have h8 : ([0, 0, 1, 1, 10, 0, 0, 1, 0, 53] ++ List.replicate 88 9 ++
      [0, 1, 10, 0, 0, 2, 0, 53] : List Byte).drop 104 = [0, 53] := by decide
  have h9 : read_uint32 ([10, 0, 0, 2, 0, 53] ++ List.drop 106 read_buffer) = 0x0A000002 := by
    have e : read_uint32 ([10, 0, 0, 2, 0, 53] ++ List.drop 106 read_buffer) =
        read_uint32 [10, 0, 0, 2] := rfl
    rw [e]; decide
  have h10 : read_uint16 ([0, 53] ++ List.drop 106 read_buffer) = 53 := by
    have e : read_uint16 ([0, 53] ++ List.drop 106 read_buffer) = read_uint16 [0, 53] := rfl
    rw [e]; decide
  rw [h7, h8, h9, h10]
  simp

/-! ## The idle timer of a UDP association -/

theorem to_int32_small (x : Int) (h1 : -2147483648 ≤ x) (h2 : x < 2147483648) :
    to_int32 x = x := by
  unfold to_int32
  omega

theorem UdpTimer.step_invariant (s : UdpTimer) (a : TimerStep)
    (h : 0 ≤ s.m_timeout ∧ s.m_timeout ≤ 600 ∧ (s.running = true → 0 < s.m_timeout) ∧
      s.running = s.udp_open) :
    0 ≤ (s.step a).m_timeout ∧ (s.step a).m_timeout ≤ 600 ∧
      ((s.step a).running = true → 0 < (s.step a).m_timeout) ∧
      (s.step a).running = (s.step a).udp_open := by
  obtain ⟨h0, h1, h2, h3⟩ := h
  cases a with
  | loop_start =>
    simp only [UdpTimer.step, udp_session_expired_time]
    exact ⟨by omega, by omega, fun _ => by omega, h3⟩
  | tick =>
    unfold UdpTimer.step
    cases hr : s.running with
    | false =>
      simp only [Bool.not_false, if_true]
      refine ⟨h0, h1, ?_, ?_⟩
      · intro h; rw [hr] at h; cases h
      · rw [← h3, hr]
    | true =>
      have hp := h2 hr
      simp only [Bool.not_true, Bool.false_eq_true, if_false]
      rw [to_int32_small _ (by omega) (by omega)]
      by_cases ht : s.m_timeout - 1 ≤ 0
      · rw [if_pos ht]
        refine ⟨?_, ?_, ?_, ?_⟩
        · show 0 ≤ s.m_timeout - 1; omega
        · show s.m_timeout - 1 ≤ 600; omega
        · intro h; cases h
        · rfl
      · rw [if_neg ht]
        refine ⟨?_, ?_, ?_, ?_⟩
        · show 0 ≤ s.m_timeout - 1; omega
        · show s.m_timeout - 1 ≤ 600; omega
        · intro _; show 0 < s.m_timeout - 1; omega
        · show true = s.udp_open
          rw [← h3, hr]

theorem UdpTimer.run_invariant (steps : List TimerStep) :
    ∀ s : UdpTimer,
      (0 ≤ s.m_timeout ∧ s.m_timeout ≤ 600 ∧ (s.running = true → 0 < s.m_timeout) ∧
        s.running = s.udp_open) →
      0 ≤ (s.run steps).m_timeout ∧ (s.run steps).m_timeout ≤ 600 ∧
        ((s.run steps).running = true → 0 < (s.run steps).m_timeout) ∧
        (s.run steps).running = (s.run steps).udp_open := by
  induction steps with
  | nil => intro s h; exact h
  | cons a rest ih =>
    intro s h
    exact ih (s.step a) (UdpTimer.step_invariant s a h)

theorem UdpTimer.run_ticks (k : Nat) :
    ∀ s : UdpTimer, s.running = true → (k : Int) < s.m_timeout → s.m_timeout ≤ 600 →
      s.run (List.replicate k .tick) = { s with m_timeout := s.m_timeout - k } := by
  induction k with
  | zero => intro s _ _ _; simp [UdpTimer.run]
  | succ k ih =>
    intro s hr hk h6
    have e : s.step .tick = { s with m_timeout := s.m_timeout - 1 } := by
      unfold UdpTimer.step
      simp only [hr, Bool.not_true, Bool.false_eq_true, if_false]
      rw [to_int32_small _ (by omega) (by omega), if_neg (by omega)]
    show (s.step .tick).run (List.replicate k .tick) = _
    rw [e]
    have h := ih { s with m_timeout := s.m_timeout - 1 } hr
      (by show (k : Int) < s.m_timeout - 1; omega) (by show s.m_timeout - 1 ≤ 600; omega)
    rw [h]
    show ({ s with m_timeout := s.m_timeout - 1 - (k : Int) } : UdpTimer) = _
    congr 1
    push_cast
    omega

theorem UdpTimer.run_append (s : UdpTimer) (a b : List TimerStep) :
    s.run (a ++ b) = (s.run a).run b := by
  simp [UdpTimer.run, List.foldl_append]


/-- C25: the idle timer of a UDP association, in the step model of `UdpTimer.step`. In every
state reached from the initial one the counter lies in `[0, 600]`. From any such state,
after the loop of `forward_udp` has set the counter to 600: fewer than 600 ticks do not
close the socket (it stays as it was), and the 600th tick in a row leaves it closed, so a
socket that was open is closed by exactly the 600th tick. -/
theorem udp_idle_expiry (pre : List TimerStep) :
    (0 ≤ (UdpTimer.run {} pre).m_timeout ∧ (UdpTimer.run {} pre).m_timeout ≤ 600) ∧
    (∀ k : Nat, k < 600 →
      (((UdpTimer.run {} pre).step .loop_start).run (List.replicate k .tick)).udp_open =
        (UdpTimer.run {} pre).udp_open) ∧
    (((UdpTimer.run {} pre).step .loop_start).run (List.replicate 600 .tick)).udp_open =
      false := by
  have inv := UdpTimer.run_invariant pre {} (by decide)
  generalize UdpTimer.run {} pre = t at inv ⊢
  obtain ⟨h0, h1, _, h3⟩ := inv
  have hstay : ∀ (n : Nat) (s : UdpTimer), s.running = false →
      s.run (List.replicate n .tick) = s := by
    intro n
    induction n with
    | zero => intro s _; rfl
    | succ n ih =>
      intro s hs
      show (s.step .tick).run (List.replicate n .tick) = s
      have e : s.step .tick = s := by simp [UdpTimer.step, hs]
      rw [e, ih s hs]
  refine ⟨⟨h0, h1⟩, ?_, ?_⟩
  · intro k hk
    cases hr : t.running with
    | false =>
      rw [hstay k _ (by show t.running = false; exact hr)]
      rfl
    | true =>
      rw [UdpTimer.run_ticks k _ (by show t.running = true; exact hr)
        (by show (k : Int) < 600; omega) (by show (600 : Int) ≤ 600; omega)]
      rfl
  · cases hr : t.running with
    | false =>
      rw [hstay 600 _ (by show t.running = false; exact hr)]
      show t.udp_open = false
      rw [← h3, hr]
    | true =>
      rw [List.replicate_succ' 599, UdpTimer.run_append,
        UdpTimer.run_ticks 599 _ (by show t.running = true; exact hr)
          (by show ((599 : Nat) : Int) < 600; omega) (by show (600 : Int) ≤ 600; omega)]
      simp [UdpTimer.run, UdpTimer.step, hr, udp_session_expired_time, to_int32]

/-- Witness of C25: after two ticks and a reset, 599 ticks leave the socket open and the
600th closes it. -/
theorem udp_idle_expiry_witness :
    ((((UdpTimer.run {} [.tick, .tick]).step .loop_start).run
        (List.replicate 599 .tick)).udp_open = (UdpTimer.run {} [.tick, .tick]).udp_open) ∧
    (((UdpTimer.run {} [.tick, .tick]).step .loop_start).run
        (List.replicate 600 .tick)).udp_open = false :=
  ⟨(udp_idle_expiry [.tick, .tick]).2.1 599 (by decide), (udp_idle_expiry [.tick, .tick]).2.2⟩

/-! ## The noise handshake: the length decoded from the first two words -/

/-- C26 at a failing input: the peer sends a noise of length 4, the words `00 04` and
`00 04`, and then the four octets `05 02 00 02` of a SOCKS5 greeting. The receive loop of
`noise_process` ends by `break` after consuming all eight octets, not four, and so does
the loop of `start_noise`; the same holds for the length 5 (words `00 05`, `00 05`, one
more octet of noise, then three further octets). The dispatcher then finds nothing left to
classify and starts no session. -/
theorem noise_length_4_consumes_8 :
    noise_receive_loop 9 [0, 4, 0, 4, 5, 2, 0, 2] [] 0 (-1) 2 0 0 0 =
      (true, [0, 4, 0, 4, 5, 2, 0, 2], []) ∧
    start_noise_loop 9 (fun _ => false) [0, 4, 0, 4, 5, 2, 0, 2] [] 0 (-1) 2 0 0 0 =
      (.completed, .success, [0, 4, 0, 4, 5, 2, 0, 2], []) ∧
    noise_receive_loop 9 [0, 5, 0, 5, 9, 5, 1, 0] [] 0 (-1) 2 0 0 0 =
      (true, [0, 5, 0, 5, 9, 5, 1, 0], []) ∧
    socket_detect { scramble_ := true } true { rx := [0, 4, 0, 4, 5, 2, 0, 2] } =
      [.noise_write [], .noise_read [0, 4, 0, 4, 5, 2, 0, 2]] := by
  decide

theorem noise_length_6_7_exact :
    noise_receive_loop 9 [0, 6, 0, 6, 9, 9, 5, 1] [] 0 (-1) 2 0 0 0 =
      (true, [0, 6, 0, 6, 9, 9], [5, 1]) ∧
    noise_receive_loop 9 [0, 7, 0, 7, 9, 9, 9, 5] [] 0 (-1) 2 0 0 0 =
      (true, [0, 7, 0, 7, 9, 9, 9], [5]) := by
  decide

/-! ## The upstream connector: when TLS is used -/

theorem start_connect_host_direct (opt : proxy_server_option) (up : Upstream)
    (target_host : Host) (target_port : Nat) (resolve : Bool) :
    ∀ e ∈ (start_connect_host opt none up target_host target_port resolve).1,
      e = .resolve target_host target_port ∨ e = .connect := by
  intro e he
  unfold start_connect_host at he
  simp only [] at he
  cases resolve <;> repeat' split at he
  all_goals simp at he
  all_goals first
    | exact Or.inl he
    | exact Or.inr he
    | (rcases he with h | h
       · exact Or.inl h
       · exact Or.inr h)

theorem start_noise_events (s : Socket) (abort : Nat → Bool) :
    ∀ e ∈ (start_noise s abort).1, (∃ n, e = .noise_write n) ∨ (∃ b, e = .noise_read b) := by
  intro e he
  unfold start_noise at he
  split at he
  · simp only [List.mem_singleton] at he
    exact Or.inl ⟨_, he⟩
  · simp only [List.mem_cons, List.mem_singleton, List.mem_nil_iff, or_false] at he
    rcases he with he | he
    · exact Or.inl ⟨_, he⟩
    · exact Or.inr ⟨_, he⟩

theorem instantiate_stream_tls (opt : proxy_server_option) (scheme proxy_host : List Byte)
    (up : Upstream) :
    (instantiate_stream opt scheme proxy_host up).1 =
      if opt.proxy_pass_use_ssl_ = true ∨ scheme = ascii "https" then
        [.tls_handshake (if opt.ssl_sni_.isEmpty then proxy_host else opt.ssl_sni_)]
      else [] := by
  unfold instantiate_stream
  by_cases h1 : opt.proxy_pass_use_ssl_ = true <;> by_cases h2 : scheme = ascii "https" <;>
    simp [h1, h2]

theorem next_proxy_handshake_events (next : NextProxy) (up : Upstream) (target_host : Host)
    (target_port : Nat) (ec : ErrorCode) :
    ∀ e ∈ (next_proxy_handshake next up target_host target_port ec).1,
      (∃ v, e = .socks_handshake v target_host target_port next.user next.password) ∨
      e = .http_handshake target_host target_port next.user next.password := by
  intro e he
  unfold next_proxy_handshake at he
  simp only [] at he
  split at he
  · simp only [List.mem_singleton] at he
    exact Or.inl ⟨_, he⟩
  · split at he
    · simp only [List.mem_singleton] at he
      exact Or.inr he
    · simp at he

theorem start_connect_host_tls (opt : proxy_server_option) (next : NextProxy) (up : Upstream)
    (target_host : Host) (target_port : Nat) (resolve : Bool)
    (h : (start_connect_host opt (some next) up target_host target_port resolve).2.1 = true) :
    (∃ sni, Connect.tls_handshake sni ∈
        (start_connect_host opt (some next) up target_host target_port resolve).1) ↔
      (opt.proxy_pass_use_ssl_ = true ∨ next.scheme = ascii "https") := by
  have hN : ∀ sni, Connect.tls_handshake sni ∉
      (if opt.scramble_ = true then
        ((start_noise up.socket up.abort).1, (start_noise up.socket up.abort).2.1)
       else (([], .success) : List Connect × ErrorCode)).1 := by
    intro sni hm
    split at hm
    · rcases start_noise_events _ _ _ hm with ⟨n, hn⟩ | ⟨b, hb⟩
      · cases hn
      · cases hb
    · simp at hm
  have hV : ∀ sni, Connect.tls_handshake sni ∉
      (if (opt.proxy_pass_use_ssl_ && up.cert_path_exists) = true then
        ([Connect.add_verify_path], up.add_verify_path)
       else (([], .success) : List Connect × ErrorCode)).1 := by
    intro sni hm
    split at hm <;> simp at hm
  unfold start_connect_host at h ⊢
  generalize (if opt.scramble_ = true then
      ((start_noise up.socket up.abort).1, (start_noise up.socket up.abort).2.1)
    else (([], .success) : List Connect × ErrorCode)) = noise at h hN ⊢
  generalize (if (opt.proxy_pass_use_ssl_ && up.cert_path_exists) = true then
      ([Connect.add_verify_path], up.add_verify_path)
    else (([], .success) : List Connect × ErrorCode)) = verify at h hV ⊢
  simp only [] at h ⊢
  by_cases h1 : up.resolve.failed = true
  · simp [h1] at h
  by_cases h2 : up.connect.failed = true
  · simp [h1, h2] at h
  by_cases h3 : noise.2.failed = true
  · simp [h1, h2, h3] at h
  by_cases h4 : verify.2.failed = true
  · simp [h1, h2, h3, h4] at h
  rw [if_neg h1, if_neg h2, if_neg h3, if_neg h4]
  simp only [List.mem_append, instantiate_stream_tls]
  constructor
  · rintro ⟨sni, hm⟩
    rcases hm with (((hm | hm) | hm) | hm) | hm
    · simp at hm
    · exact absurd hm (hN sni)
    · exact absurd hm (hV sni)
    · split at hm
      · assumption
      · simp at hm
    · rcases next_proxy_handshake_events _ _ _ _ _ _ hm with ⟨v, hv⟩ | hv
      · cases hv
      · cases hv
  · intro ht
    refine ⟨if opt.ssl_sni_.isEmpty then next.host else opt.ssl_sni_, Or.inl (Or.inr ?_)⟩
    rw [if_pos ht]
    exact List.mem_singleton.2 rfl


/-- C29 at a failing input: the chained proxy is `http://up.test:8080` and
`proxy_pass_use_ssl_` is set. The connector makes the TLS client handshake with the proxy
before the HTTP proxy handshake, so with scheme `http` the flag does have an effect. -/
theorem http_next_proxy_use_ssl_wraps :
    start_connect_host { proxy_pass_use_ssl_ := true }
        (some { scheme := ascii "http", host := ascii "up.test", port := ascii "8080" }) {}
        (.name (ascii "example.com")) 80 true =
      ([.resolve_proxy (ascii "up.test") (ascii "8080"), .connect,
        .tls_handshake (ascii "up.test"),
        .http_handshake (.name (ascii "example.com")) 80 [] []], true, .success) ∧
    start_connect_host {}
        (some { scheme := ascii "http", host := ascii "up.test", port := ascii "8080" }) {}
        (.name (ascii "example.com")) 80 true =
      ([.resolve_proxy (ascii "up.test") (ascii "8080"), .connect,
        .http_handshake (.name (ascii "example.com")) 80 [] []], true, .success) := by
  decide

/-! ## The noise handshake of the upstream connector -/

theorem start_noise_loop_zeros (abort : Nat → Bool) (ha : ∀ k, abort k = false) (k : Nat) :
    ∀ (fuel : Nat) (taken : List Byte) (len : Nat), k + 1 ≤ fuel → len + 2 * (k + 1) = 4096 →
      start_noise_loop fuel abort (List.replicate (2 * (k + 1)) 0) taken len (-1) 2 0 0 0 =
        (.max_length, .success, taken ++ List.replicate (2 * (k + 1)) 0, []) := by
  induction k generalizing abort with
  | zero =>
    intro fuel taken len hf hl
    obtain ⟨fuel, rfl⟩ : ∃ f, fuel = f + 1 := ⟨fuel - 1, by omega⟩
    have hlen : len = 4094 := by omega
    subst hlen
    rw [start_noise_loop]
    simp [ha 0, nosie_injection_max_len]
  | succ k ih =>
    intro fuel taken len hf hl
    obtain ⟨fuel, rfl⟩ : ∃ f, fuel = f + 1 := ⟨fuel - 1, by omega⟩
    have e : List.replicate (2 * (k + 1 + 1)) (0 : Byte) =
        0 :: 0 :: List.replicate (2 * (k + 1)) 0 := by
      rw [show 2 * (k + 1 + 1) = 2 * (k + 1) + 1 + 1 by ring, List.replicate_succ,
        List.replicate_succ]
    rw [e, start_noise_loop]
    have h1 : (((len : Int) + 2) % 18446744073709551616).toNat = len + 2 := by omega
    have h2 : ¬ (len + 2 = 1) := by omega
    have h3 : ¬ (((len + 2 : Nat) : Int) ≥ nosie_injection_max_len) := by
      unfold nosie_injection_max_len; omega
    simp only [ha 0, Bool.false_eq_true, if_false]
    simp only [show ¬ ((2 : Int) < 0) by decide, if_false, Int.toNat_ofNat, min_self,
      List.length_cons, List.length_replicate]
    rw [if_neg (by omega)]
    simp only [h1, h2, h3, if_false, List.take, List.drop, le_refl, if_true,
      show (1 : Nat) ≤ 2 by decide, List.getD_cons_zero, List.getD_cons_succ]
    have hn : Int.toNat 2 ⊓ 2 = 2 := by decide
    simp only [hn, le_refl, show (1 : Nat) ≤ 2 by decide, if_true, ne_eq, not_true_eq_false,
      if_false]
    have h4 : ((0 : Byte).val ||| (0 : Byte).val <<< 8) = 0 := by decide
    simp only [h4]
    have h5 : (((0 &&& 0 : Nat) : Int) ≥ nosie_injection_max_len ∨ ((0 &&& 0 : Nat) : Int) < 4) := by
      right; decide
    rw [if_pos h5]
    rw [ih (fun k => abort (k + 1)) (fun k => ha (k + 1)) fuel _ (len + 2) (by omega) (by omega)]
    simp [List.append_assoc]


theorem noise_receive_loop_zeros (k : Nat) :
    ∀ (fuel : Nat) (taken : List Byte) (len : Nat), k + 1 ≤ fuel → len + 2 * (k + 1) = 4096 →
      noise_receive_loop fuel (List.replicate (2 * (k + 1)) 0) taken len (-1) 2 0 0 0 =
        (false, taken ++ List.replicate (2 * (k + 1)) 0, []) := by
  induction k with
  | zero =>
    intro fuel taken len hf hl
    obtain ⟨fuel, rfl⟩ : ∃ f, fuel = f + 1 := ⟨fuel - 1, by omega⟩
    have hlen : len = 4094 := by omega
    subst hlen
    rw [noise_receive_loop]
    simp [nosie_injection_max_len]
  | succ k ih =>
    intro fuel taken len hf hl
    obtain ⟨fuel, rfl⟩ : ∃ f, fuel = f + 1 := ⟨fuel - 1, by omega⟩
    have e : List.replicate (2 * (k + 1 + 1)) (0 : Byte) =
        0 :: 0 :: List.replicate (2 * (k + 1)) 0 := by
      rw [show 2 * (k + 1 + 1) = 2 * (k + 1) + 1 + 1 by ring, List.replicate_succ,
        List.replicate_succ]
    rw [e, noise_receive_loop]
    have h1 : (((len : Int) + 2) % 18446744073709551616).toNat = len + 2 := by omega
    have h2 : ¬ (len + 2 = 1) := by omega
    have h3 : ¬ (((len + 2 : Nat) : Int) ≥ nosie_injection_max_len) := by
      unfold nosie_injection_max_len; omega
    simp only [show ¬ ((2 : Int) < 0) by decide, if_false, Int.toNat_ofNat, min_self,
      List.length_cons, List.length_replicate]
    rw [if_neg (by omega)]
    simp only [h1, h2, h3, if_false, List.take, List.drop, le_refl, if_true,
      show (1 : Nat) ≤ 2 by decide, List.getD_cons_zero, List.getD_cons_succ]
    have hn : Int.toNat 2 ⊓ 2 = 2 := by decide
    simp only [hn, le_refl, show (1 : Nat) ≤ 2 by decide, if_true, ne_eq, not_true_eq_false,
      if_false]
    have h4 : ((0 : Byte).val ||| (0 : Byte).val <<< 8) = 0 := by decide
    simp only [h4]
    have h5 : (((0 &&& 0 : Nat) : Int) ≥ nosie_injection_max_len ∨ ((0 &&& 0 : Nat) : Int) < 4) := by
      right; decide
    rw [if_pos h5]
    rw [ih fuel _ (len + 2) (by omega) (by omega)]
    simp [List.append_assoc]


theorem start_noise_zeros (s : Socket) (hw : s.noise_write_ok = true)
    (hrx : s.rx = List.replicate 4096 0) :
    start_noise s (fun _ => false) =
      ([.noise_write s.noise, .noise_read (List.replicate 4096 0)], .success, []) := by
  have h := start_noise_loop_zeros (fun _ => false) (fun _ => rfl) 2047 (4096 + 1) [] 0
    (by decide) (by decide)
  have e : 2 * (2047 + 1) = 4096 := by decide
  rw [e] at h
  unfold start_noise
  rw [hw, hrx, List.length_replicate]
  rw [if_neg (show ¬ ((!true) = true) by decide)]
  rw [h]
  rfl

/-- C30 at a failing input: the chained proxy answers the noise with 4096 octets `00`, in
which no pair of words gives a length. The loop of `start_noise` stops at `noise max length
reached` and the coroutine returns success, while the loop of `noise_process` reports a
failure in the same state; so `start_connect_host` goes on: it runs the SOCKS handshake on
the connection and returns `true`. -/
theorem start_noise_max_length_succeeds :
    start_noise_loop 4097 (fun _ => false) (List.replicate 4096 0) [] 0 (-1) 2 0 0 0 =
      (.max_length, .success, List.replicate 4096 0, []) ∧
    noise_receive_loop 4097 (List.replicate 4096 0) [] 0 (-1) 2 0 0 0 =
      (false, List.replicate 4096 0, []) ∧
    (start_noise { rx := List.replicate 4096 0 } (fun _ => false)).2.1 = .success ∧
    start_connect_host { scramble_ := true }
        (some { scheme := ascii "socks5", host := ascii "up.test", port := ascii "1080" })
        { socket := { rx := List.replicate 4096 0 } } (.name (ascii "example.com")) 443 true =
      ([.resolve_proxy (ascii "up.test") (ascii "1080"), .connect, .noise_write [],
        .noise_read (List.replicate 4096 0),
        .socks_handshake .unchanged (.name (ascii "example.com")) 443 [] []],
       true, .success) := by
  have h := start_noise_loop_zeros (fun _ => false) (fun _ => rfl) 2047 4097 [] 0
    (by decide) (by decide)
  have e : 2 * (2047 + 1) = 4096 := by decide
  rw [e] at h
  have hs := start_noise_zeros { rx := List.replicate 4096 0 } rfl rfl
  have h2 := noise_receive_loop_zeros 2047 4097 [] 0 (by decide) (by decide)
  rw [e] at h2
  refine ⟨h, h2, ?_, ?_⟩
  · rw [hs]
  · unfold start_connect_host
    have hs' : start_noise ({ socket := { rx := List.replicate 4096 0 } } : Upstream).socket
        ({ socket := { rx := List.replicate 4096 0 } } : Upstream).abort =
        ([.noise_write [], .noise_read (List.replicate 4096 0)], .success, []) := hs
    simp only [hs']
    generalize List.replicate 4096 (0 : Byte) = zs
    rfl

/-! ## HTTP Basic authorization: credentials without a colon -/

theorem http_proxy_authorization_no_colon (opt : proxy_server_option) (t : List Byte)
    (hne : opt.auth_users_ ≠ []) (ht : (58 : Byte) ∉ t) :
    http_proxy_authorization opt (Basic ++ [32] ++ base64_encode t) =
      if (t, t) ∈ opt.auth_users_ then PROXY_AUTH_SUCCESS else PROXY_AUTH_FAILED := by
  have he : opt.auth_users_.isEmpty = false := by
    cases h : opt.auth_users_ with
    | nil => exact absurd h hne
    | cons a l => rfl
  have hf : string_find 32 (Basic ++ [32] ++ base64_encode t) = some 5 := by
    have := string_find_append 32 Basic (base64_encode t) (by decide)
    simpa using this
  have hfu : string_find 58 t = none := (string_find_none 58 t).2 ht
  unfold http_proxy_authorization
  rw [he, hf]
  have h1 : (Basic ++ [32] ++ base64_encode t).take 5 = Basic := rfl
  have h2 : (Basic ++ [32] ++ base64_encode t).drop (5 + 1) = base64_encode t := rfl
  simp only [h1, h2, decode_userinfo_encode, hfu, verify_user_passwd_eq]
  by_cases hm : (t, t) ∈ opt.auth_users_ <;> simp [hm, Basic]

/-- C28 at a failing input: the user list is the single pair (`admin`, `admin`) and the
header is `Basic YWRtaW4=`, whose decoded text `admin` has no colon. The function takes
the whole text as the user name and as the password, and returns `PROXY_AUTH_SUCCESS`. -/
theorem basic_without_colon_accepted :
    decode_userinfo (ascii "YWRtaW4=") = ascii "admin" ∧
    string_find 58 (ascii "admin") = none ∧
    http_proxy_authorization { auth_users_ := [(ascii "admin", ascii "admin")] }
      (ascii "Basic YWRtaW4=") = PROXY_AUTH_SUCCESS := by
  decide

/-! ## The scrambled socket: what is written is what is read -/

theorem byte_xor_cancel (a k : Byte) : (a ^^^ k) ^^^ k = a := by
  apply Fin.ext
  show ((a.val ^^^ k.val) % 256 ^^^ k.val) % 256 = a.val
  have h0 : a.val ^^^ k.val < 2 ^ 8 := Nat.xor_lt_two_pow a.isLt k.isLt
  have h1 : a.val ^^^ k.val < 256 := h0
  rw [Nat.mod_eq_of_lt h1, Nat.xor_assoc, Nat.xor_self, Nat.xor_zero]
  exact Nat.mod_eq_of_lt a.isLt

theorem scramble_stream.scramble_append (h : List Byte → List Byte) (a b : List Byte) :
    ∀ s : scramble_stream,
      s.scramble h (a ++ b) =
        ((s.scramble h a).1 ++ ((s.scramble h a).2.scramble h b).1,
          ((s.scramble h a).2.scramble h b).2) := by
  induction a with
  | nil => intro s; simp [scramble_stream.scramble]
  | cons x rest ih =>
    intro s
    rw [List.cons_append, scramble_stream.scramble, scramble_stream.scramble]
    simp only []
    rw [ih]
    rfl

theorem scramble_stream.scramble_valid (h : List Byte → List Byte) (x : List Byte) :
    ∀ s : scramble_stream, (s.scramble h x).2.valid = s.valid := by
  induction x with
  | nil => intro s; rfl
  | cons b rest ih =>
    intro s
    simp only [scramble_stream.scramble]
    rw [ih]
    split <;> rfl

theorem scramble_stream.scramble_twice (h : List Byte → List Byte) (x : List Byte) :
    ∀ s : scramble_stream, s.scramble h (s.scramble h x).1 = (x, (s.scramble h x).2) := by
  induction x with
  | nil => intro s; rfl
  | cons b rest ih =>
    intro s
    simp only [scramble_stream.scramble]
    rw [ih, byte_xor_cancel]

theorem proxy_socket.async_write_some_single (h : List Byte → List Byte) (s : proxy_socket)
    (w : List Byte) (hv : s.scramble_.valid = true) :
    s.async_write_some h [w] =
      ((s.scramble_.scramble h w).1, { s with scramble_ := (s.scramble_.scramble h w).2 }) := by
  cases w with
  | nil => simp [proxy_socket.async_write_some, scramble_stream.is_valid, hv, first_buffer,
      overwrite_first, scramble_stream.scramble]
  | cons a l => simp [proxy_socket.async_write_some, scramble_stream.is_valid, hv,
      first_buffer, overwrite_first]

theorem proxy_socket.write_all_eq (h : List Byte → List Byte) (ws : List (List Byte)) :
    ∀ s : proxy_socket, s.scramble_.valid = true →
      s.write_all h (ws.map (fun w => [w])) = (s.scramble_.scramble h ws.flatten).1 := by
  induction ws with
  | nil => intro s _; rfl
  | cons w rest ih =>
    intro s hv
    simp only [List.map_cons, proxy_socket.write_all, List.flatten_cons]
    rw [proxy_socket.async_write_some_single h s w hv]
    simp only []
    rw [ih _ (by simp only [scramble_stream.scramble_valid, hv]),
      scramble_stream.scramble_append]

theorem proxy_socket.read_all_eq (h : List Byte → List Byte)
    (rs : List (List Nat × List Byte)) :
    ∀ s : proxy_socket, s.unscramble_.valid = true →
      (∀ r ∈ rs, ∃ n, r.1 = [n] ∧ r.2.length ≤ n) →
      s.read_all h rs = some (s.unscramble_.scramble h (rs.map Prod.snd).flatten).1 := by
  induction rs with
  | nil => intro s _ _; rfl
  | cons r rest ih =>
    intro s hv hr
    obtain ⟨sizes, w⟩ := r
    obtain ⟨n, hn, hl⟩ := hr (sizes, w) (by simp)
    simp only [] at hn hl
    subst hn
    have hsize : (([n] : List Nat).find? (fun n => decide (n ≠ 0))).getD 0 = n := by
      by_cases h0 : n = 0
      · subst h0; rfl
      · simp [List.find?, h0]
    have e : s.async_read_some h [n] w =
        some ((s.unscramble_.scramble h w).1,
          { s with unscramble_ := (s.unscramble_.scramble h w).2 }) := by
      simp only [proxy_socket.async_read_some, scramble_stream.is_valid, hv, if_true, hsize]
      rw [if_pos hl]
    simp only [proxy_socket.read_all, e, List.map_cons, List.flatten_cons]
    rw [ih _ (by simp only [scramble_stream.scramble_valid, hv])
      (fun r hr' => hr r (by simp [hr'])), scramble_stream.scramble_append]

/-- The round trip through two scrambled sockets for buffer sequences of one buffer. When
the buffers `ws` are written one by one through a socket whose scramble stream was keyed
with `k`, and the octets that reach the wire arrive, cut into chunks in any way and each
into one buffer that holds it, at a socket whose unscramble stream was keyed with `k`, the
handlers of the reads find the octets of `ws`, in order; this holds for every key, every
rekeying function and every length. Scrambling twice from the same state of a stream gives
back the octets. -/
theorem scramble_round_trip (hash_of_hash : List Byte → List Byte) (k : List Byte)
    (w r : proxy_socket) (ws : List (List Byte)) (rs : List (List Nat × List Byte))
    (hsz : ∀ r ∈ rs, ∃ n, r.1 = [n] ∧ r.2.length ≤ n)
    (hrs : (rs.map Prod.snd).flatten =
      (w.set_scramble_key k).write_all hash_of_hash (ws.map (fun w => [w]))) :
    (r.set_unscramble_key k).read_all hash_of_hash rs = some ws.flatten ∧
    ∀ (s : scramble_stream) (x : List Byte),
      (s.scramble hash_of_hash (s.scramble hash_of_hash x).1).1 = x := by
  refine ⟨?_, fun s x => by rw [scramble_stream.scramble_twice]⟩
  rw [proxy_socket.read_all_eq _ _ _ rfl hsz, hrs, proxy_socket.write_all_eq _ _ _ rfl]
  show some ((scramble_stream.set_key r.unscramble_ k).scramble hash_of_hash
    ((scramble_stream.set_key w.scramble_ k).scramble hash_of_hash ws.flatten).1).1 = _
  have e : scramble_stream.set_key r.unscramble_ k = scramble_stream.set_key w.scramble_ k := rfl
  rw [e, scramble_stream.scramble_twice]

/-- The octets `00 .. 07` written as one buffer with the key `01 .. 10` and read into one
buffer of eight octets come back as they were. -/
theorem scramble_round_trip_single :
    (({} : proxy_socket).set_unscramble_key
        [1, 2, 3, 4, 5, 6, 7, 8, 9, 10, 11, 12, 13, 14, 15, 16]).read_all List.reverse
      [([8], ((({} : proxy_socket).set_scramble_key
          [1, 2, 3, 4, 5, 6, 7, 8, 9, 10, 11, 12, 13, 14, 15, 16]).async_write_some
          List.reverse [[0, 1, 2, 3, 4, 5, 6, 7]]).1)] =
      some [0, 1, 2, 3, 4, 5, 6, 7] := by
  decide

/-- C27 at a failing input: the key `01 .. 10` on both sides, and one write of the octets
`00 .. 07` as a sequence of two buffers, `00 01 02 03` and `04 05 06 07`. Only the first
buffer is scrambled: the wire carries `01 03 01 07` and then `04 05 06 07` as they are. The
reader, which unscrambles all eight octets, finds `00 01 02 03 01 03 01 0F`, not the octets
written. -/
theorem scramble_second_buffer_in_clear :
    ((({} : proxy_socket).set_scramble_key
        [1, 2, 3, 4, 5, 6, 7, 8, 9, 10, 11, 12, 13, 14, 15, 16]).async_write_some List.reverse
      [[0, 1, 2, 3], [4, 5, 6, 7]]).1 = [1, 3, 1, 7, 4, 5, 6, 7] ∧
    (({} : proxy_socket).set_unscramble_key
        [1, 2, 3, 4, 5, 6, 7, 8, 9, 10, 11, 12, 13, 14, 15, 16]).read_all List.reverse
      [([8], ((({} : proxy_socket).set_scramble_key
          [1, 2, 3, 4, 5, 6, 7, 8, 9, 10, 11, 12, 13, 14, 15, 16]).async_write_some
          List.reverse [[0, 1, 2, 3], [4, 5, 6, 7]]).1)] =
      some [0, 1, 2, 3, 1, 3, 1, 15] ∧
    ([0, 1, 2, 3, 1, 3, 1, 15] : List Byte) ≠ [0, 1, 2, 3, 4, 5, 6, 7] := by
  decide

theorem proxy_socket.async_write_some_two (h : List Byte → List Byte) (s : proxy_socket)
    (a : Byte) (b1 b2 : List Byte) (hv : s.scramble_.valid = true) :
    (s.async_write_some h [a :: b1, b2]).1 = (s.scramble_.scramble h (a :: b1)).1 ++ b2 := by
  simp [proxy_socket.async_write_some, scramble_stream.is_valid, hv, first_buffer,
    overwrite_first]

/-! ## The noise handshake: which lengths the receive loop can stop at -/

theorem word_eq_read_uint16 (b0 b1 : Byte) :
    b1.val ||| b0.val <<< 8 = read_uint16 [b0, b1] := by
  have h : 2 ^ 8 * b0.val + b1.val = 2 ^ 8 * b0.val ||| b1.val :=
    Nat.mul_add_lt_is_or b1.isLt b0.val
  show b1.val ||| b0.val <<< 8 = b0.val * 256 + b1.val
  rw [Nat.shiftLeft_eq, Nat.lor_comm, Nat.mul_comm, ← h]

theorem noise_receive_loop_rest (L : Nat) (hmax : (L : Int) < nosie_injection_max_len) (fuel : Nat) :
    ∀ (d : Nat) (rx taken : List Byte) (len : Nat) (cvalue : Nat) (bufs0 bufs1 : Byte),
      d ≤ fuel → 1 ≤ d → len + d = L → 4 ≤ len → d ≤ rx.length →
      noise_receive_loop fuel rx taken len (L : Int) (min (d : Int) 2) cvalue bufs0 bufs1 =
        (true, taken ++ rx.take d, rx.drop d) := by
  have hm : (L : Int) < 4095 := hmax
  induction fuel with
  | zero => intro d rx taken len cvalue bufs0 bufs1 hf hd; omega
  | succ fuel ih =>
    intro d rx taken len cvalue bufs0 bufs1 hf hd hl h4 hrx
    rw [noise_receive_loop]
    by_cases h1 : d = 1
    · subst h1
      have e1 : min ((1 : Nat) : Int) 2 = 1 := by decide
      simp only [e1]
      have hn : (if (1 : Int) < 0 then 2 else min (1 : Int).toNat 2) = 1 := by decide
      simp only [hn]
      rw [if_neg (by omega)]
      have hl1 : (((len : Int) + 1) % 18446744073709551616).toNat = L := by omega
      simp only [hl1]
      rw [if_neg (by omega), if_neg (by unfold nosie_injection_max_len; omega),
        if_pos (by omega)]
      have hr : min (to_int32 ((L : Int) - (L : Int))) 2 = 0 := by
        rw [sub_self]; decide
      simp only [hr, ne_eq, not_true_eq_false, if_false]
    · have e2 : min (d : Int) 2 = 2 := by omega
      simp only [e2]
      have hn : (if (2 : Int) < 0 then 2 else min (2 : Int).toNat 2) = 2 := by decide
      simp only [hn]
      rw [if_neg (by omega)]
      have hl2 : (((len : Int) + 2) % 18446744073709551616).toNat = len + 2 := by omega
      simp only [hl2]
      rw [if_neg (by omega), if_neg (by unfold nosie_injection_max_len; omega),
        if_pos (by omega)]
      have hti : to_int32 ((L : Int) - ((len + 2 : Nat) : Int)) = ((d - 2 : Nat) : Int) := by
        unfold to_int32; omega
      rw [hti]
      by_cases h2 : d = 2
      · subst h2
        have hr : min (((2 - 2 : Nat)) : Int) 2 = 0 := by decide
        simp only [hr, ne_eq, not_true_eq_false, if_false]
      · have hr : min ((d - 2 : Nat) : Int) 2 ≠ 0 := by omega
        rw [if_pos hr]
        rw [ih (d - 2) _ _ (len + 2) _ _ _ (by omega) (by omega) (by omega) (by omega)
          (by rw [List.length_drop]; omega)]
        have hd2 : d = 2 + (d - 2) := by omega
        rw [List.append_assoc, List.drop_drop]
        congr 2
        · conv_rhs => rw [hd2, List.take_add]
        · congr 1; omega


theorem noise_receive_loop_exact (b0 b1 b2 b3 : Byte) (rest : List Byte) (L fuel : Nat)
    (h6 : 6 ≤ L) (hmax : L < 4095) (hlen : L ≤ rest.length + 4) (hf : L ≤ fuel)
    (hL : read_uint16 [b0, b1] &&& read_uint16 [b2, b3] = L) :
    noise_receive_loop fuel (b0 :: b1 :: b2 :: b3 :: rest) [] 0 (-1) 2 0 0 0 =
      (true, (b0 :: b1 :: b2 :: b3 :: rest).take L, (b0 :: b1 :: b2 :: b3 :: rest).drop L) := by
  rw [← word_eq_read_uint16, ← word_eq_read_uint16] at hL
  obtain ⟨fuel, rfl⟩ : ∃ f, fuel = f + 2 := ⟨fuel - 2, by omega⟩
  have hn : (if (2 : Int) < 0 then 2 else min (2 : Int).toNat 2) = 2 := by decide
  have hl2 : ((((0 : Nat) : Int) + 2) % 18446744073709551616).toNat = 2 := by decide
  have hl4 : ((((2 : Nat) : Int) + 2) % 18446744073709551616).toNat = 4 := by decide
  rw [noise_receive_loop]
  simp only [hn, hl2]
  rw [if_neg (by simp), if_neg (by decide), if_neg (by decide), if_neg (by decide)]
  simp only [le_refl, show (1 : Nat) ≤ 2 by decide, if_true, List.getD_cons_zero,
    List.getD_cons_succ, List.take, List.drop, List.nil_append, Nat.zero_and]
  rw [if_pos (Or.inr (by decide))]
  rw [noise_receive_loop]
  simp only [hn, hl4]
  rw [if_neg (by simp), if_neg (by decide), if_neg (by decide), if_neg (by decide)]
  simp only [le_refl, show (1 : Nat) ≤ 2 by decide, if_true, List.getD_cons_zero,
    List.getD_cons_succ, List.take, List.drop, hL]
  rw [if_neg (by unfold nosie_injection_max_len; omega)]
  have hmin : (2 : Int) = min ((L - 4 : Nat) : Int) 2 := by omega
  rw [hmin, noise_receive_loop_rest L (by unfold nosie_injection_max_len; omega) fuel (L - 4)
    rest _ 4 _ _ _ (by omega) (by omega) (by omega) (by omega) (by omega)]
  have hL4 : L = (L - 4) + 4 := by omega
  conv_rhs => rw [hL4]
  simp [List.take_succ_cons, List.drop_succ_cons]


theorem noise_receive_loop_short (b0 b1 b2 b3 b4 b5 b6 b7 : Byte) (rest : List Byte)
    (L fuel : Nat) (h45 : L = 4 ∨ L = 5) (hf : 4 ≤ fuel)
    (hL : read_uint16 [b0, b1] &&& read_uint16 [b2, b3] = L) :
    noise_receive_loop fuel (b0 :: b1 :: b2 :: b3 :: b4 :: b5 :: b6 :: b7 :: rest) [] 0 (-1) 2
        0 0 0 =
      (true, [b0, b1, b2, b3, b4, b5, b6, b7], rest) := by
  rw [← word_eq_read_uint16, ← word_eq_read_uint16] at hL
  obtain ⟨fuel, rfl⟩ : ∃ f, fuel = f + 4 := ⟨fuel - 4, by omega⟩
  have hn : (if (2 : Int) < 0 then 2 else min (2 : Int).toNat 2) = 2 := by decide
  have hl2 : ((((0 : Nat) : Int) + 2) % 18446744073709551616).toNat = 2 := by decide
  have hl4 : ((((2 : Nat) : Int) + 2) % 18446744073709551616).toNat = 4 := by decide
  have hl6 : ((((4 : Nat) : Int) + 2) % 18446744073709551616).toNat = 6 := by decide
  rw [noise_receive_loop]
  simp only [hn, hl2]
  rw [if_neg (by simp), if_neg (by decide), if_neg (by decide), if_neg (by decide)]
  simp only [le_refl, show (1 : Nat) ≤ 2 by decide, if_true, List.getD_cons_zero,
    List.getD_cons_succ, List.take, List.drop, List.nil_append, Nat.zero_and]
  rw [if_pos (Or.inr (by decide))]
  rw [noise_receive_loop]
  simp only [hn, hl4]
  rw [if_neg (by simp), if_neg (by decide), if_neg (by decide), if_neg (by decide)]
  simp only [le_refl, show (1 : Nat) ≤ 2 by decide, if_true, List.getD_cons_zero,
    List.getD_cons_succ, List.take, List.drop, hL]
  rw [if_neg (by unfold nosie_injection_max_len; omega)]
  rw [noise_receive_loop]
  simp only [hn, hl6]
  rw [if_neg (by simp), if_neg (by decide), if_neg (by decide), if_pos (by omega)]
  simp only [le_refl, show (1 : Nat) ≤ 2 by decide, if_true, List.getD_cons_zero,
    List.getD_cons_succ, List.take, List.drop]
  rcases h45 with rfl | rfl
  · have hr : min (to_int32 (((4 : Nat) : Int) - ((6 : Nat) : Int))) 2 = -2 := by decide
    simp only [hr]
    rw [if_pos (by decide), noise_receive_loop]
    have hn2 : (if (-2 : Int) < 0 then 2 else min (-2 : Int).toNat 2) = 2 := by decide
    have hl : ((((6 : Nat) : Int) + -2) % 18446744073709551616).toNat = 4 := by decide
    simp only [hn2, hl]
    rw [if_neg (by simp), if_neg (by decide), if_neg (by decide), if_pos (by decide)]
    have hr2 : min (to_int32 (((4 : Nat) : Int) - ((4 : Nat) : Int))) 2 = 0 := by decide
    simp only [hr2, ne_eq, not_true_eq_false, if_false, List.take, List.drop]
    simp
  · have hr : min (to_int32 (((5 : Nat) : Int) - ((6 : Nat) : Int))) 2 = -1 := by decide
    simp only [hr]
    rw [if_pos (by decide), noise_receive_loop]
    have hn2 : (if (-1 : Int) < 0 then 2 else min (-1 : Int).toNat 2) = 2 := by decide
    have hl : ((((6 : Nat) : Int) + -1) % 18446744073709551616).toNat = 5 := by decide
    simp only [hn2, hl]
    rw [if_neg (by simp), if_neg (by decide), if_neg (by decide), if_pos (by decide)]
    have hr2 : min (to_int32 (((5 : Nat) : Int) - ((5 : Nat) : Int))) 2 = 0 := by decide
    simp only [hr2, ne_eq, not_true_eq_false, if_false, List.take, List.drop]
    simp


theorem start_noise_loop_eq (fuel : Nat) :
    ∀ (abort : Nat → Bool), (∀ k, abort k = false) →
    ∀ (rx taken : List Byte) (len : Nat) (noise_length recv_length : Int) (cvalue : Nat)
      (bufs0 bufs1 : Byte),
      noise_receive_loop fuel rx taken len noise_length recv_length cvalue bufs0 bufs1 =
        (decide ((start_noise_loop fuel abort rx taken len noise_length recv_length cvalue bufs0
            bufs1).1 = .completed),
          (start_noise_loop fuel abort rx taken len noise_length recv_length cvalue bufs0
            bufs1).2.2) := by
  induction fuel with
  | zero => intro abort ha rx taken len nl rl cv b0 b1; rfl
  | succ fuel ih =>
    intro abort ha rx taken len nl rl cv b0 b1
    rw [noise_receive_loop, start_noise_loop]
    simp only [ha 0, Bool.false_eq_true, if_false]
    generalize (if rl < 0 then 2 else min rl.toNat 2) = n
    generalize (if 1 ≤ n then rx.getD 0 b0 else b0) = c0
    generalize (if 2 ≤ n then rx.getD 1 b1 else b1) = c1
    generalize (((len : Int) + rl) % 18446744073709551616).toNat = len1
    by_cases h1 : rx.length < n
    · rw [if_pos h1, if_pos h1]; rfl
    rw [if_neg h1, if_neg h1]
    by_cases h2 : len1 = 1
    · rw [if_pos h2, if_pos h2]
      exact ih _ (fun k => ha (k + 1)) _ _ _ _ _ _ _ _
    rw [if_neg h2, if_neg h2]
    by_cases h3 : (len1 : Int) ≥ nosie_injection_max_len
    · rw [if_pos h3, if_pos h3]; rfl
    rw [if_neg h3, if_neg h3]
    by_cases h4 : nl ≠ -1
    · rw [if_pos h4, if_pos h4]
      by_cases h5 : min (to_int32 (nl - (len1 : Int))) 2 ≠ 0
      · rw [if_pos h5, if_pos h5]
        exact ih _ (fun k => ha (k + 1)) _ _ _ _ _ _ _ _
      · rw [if_neg h5, if_neg h5]; rfl
    rw [if_neg h4, if_neg h4]
    by_cases h6 : ((cv &&& (c1.val ||| c0.val <<< 8) : Nat) : Int) ≥ nosie_injection_max_len ∨
        ((cv &&& (c1.val ||| c0.val <<< 8) : Nat) : Int) < 4
    · rw [if_pos h6, if_pos h6]
      exact ih _ (fun k => ha (k + 1)) _ _ _ _ _ _ _ _
    · rw [if_neg h6, if_neg h6]
      exact ih _ (fun k => ha (k + 1)) _ _ _ _ _ _ _ _

/-! ## SOCKS5: the method selection at the entry point -/

theorem socks_connect_v5_method_selection (opt : proxy_server_option) (env : Env) (n : Byte)
    (ms rest : List Byte) (wr : Nat → Bool) (http : List (Option Request))
    (hn : 0 < read_int8 n) (hms : ms.length = n.val) :
    (opt.auth_users_ ≠ [] →
      ((2 : Byte) ∈ ms →
        ∃ tail, socks_connect_v5 opt env [5, n] { rx := ms ++ rest, wr := wr, http := http } =
          .recv ms :: .send [5, 2] :: tail) ∧
      ((2 : Byte) ∉ ms →
        socks_connect_v5 opt env [5, n] { rx := ms ++ rest, wr := wr, http := http } =
          [.recv ms, .send [5, 0xFF]])) ∧
    (opt.auth_users_ = [] →
      (∀ m, ms.find? (fun b => decide (b = 0 ∨ b = 2)) = some m →
        ∃ tail, socks_connect_v5 opt env [5, n] { rx := ms ++ rest, wr := wr, http := http } =
          .recv ms :: .send [5, m] :: tail) ∧
      (ms.find? (fun b => decide (b = 0 ∨ b = 2)) = none →
        socks_connect_v5 opt env [5, n] { rx := ms ++ rest, wr := wr, http := http } =
          [.recv ms, .send [5, 0xFF]])) := by
  have hg := socks_connect_v5_greeting opt env n ms rest wr http hn hms
  have hs := socks5_method_selection opt env ms { rx := rest, wr := wr, http := http }
  rw [hg]
  refine ⟨fun hu => ⟨fun h2 => ?_, fun h2 => ?_⟩, fun hu => ⟨fun m hm => ?_, fun hm => ?_⟩⟩
  · obtain ⟨tail, ht⟩ := (hs.1 hu).1 h2
    exact ⟨tail, by rw [ht]; rfl⟩
  · rw [(hs.1 hu).2 h2]; rfl
  · obtain ⟨tail, ht⟩ := (hs.2 hu).1 m hm
    exact ⟨tail, by rw [ht]; rfl⟩
  · rw [(hs.2 hu).2 hm]; rfl

set_option maxRecDepth 100000 in
/-- C1 at a failing input: with an account configured, the greeting `05 80` followed by 128
method octets `02`, a list that offers the method `02`. `NMETHODS` is read as a signed
octet and 128 becomes -128, so the session ends after the first two octets: the methods are
not read and no reply is written, where `05 02` is due. Likewise without accounts for
`05 FF` followed by 255 octets `00`, where `05 00` is due. -/
theorem method_list_of_128_gets_no_reply :
    start_proxy { auth_users_ := [(ascii "alice", ascii "s3cret")] } {}
        { rx := [5, 128] ++ List.replicate 128 2 } = [.recv [5, 128]] ∧
    start_proxy {} {} { rx := [5, 255] ++ List.replicate 255 0 } = [.recv [5, 255]] :=
  ⟨rfl, rfl⟩

end proxy
